import Mathlib

/-!
# Cos operator: partition planner and streaming pipeline

A shallow embedding of `op_host/cos.cpp` (the tiling function `TilingFunc`) and of
`op_kernel/cos.cpp` (`KernelCos::Init`, `KernelCos::Process` and the compute strategies),
followed by the properties proved about them.

Unsigned 32-bit values are natural numbers; every operation that can leave the 32-bit range
is followed by an explicit reduction modulo `2^32`.
-/

namespace Cos

/-! ## Host side: `optiling::TilingFunc` -/

/-- Reduction of an integer to an unsigned 32-bit value (conversion to `uint32_t`). -/
def wrap32 (z : Int) : Nat := (z % 4294967296).toNat

/-- The element types the operator is registered for (`ge::DataType`); `DT_OTHER` stands for
every other value of the enumeration. -/
inductive DataType where
  | DT_FLOAT
  | DT_FLOAT16
  | DT_BF16
  | DT_OTHER
  deriving DecidableEq

/-- The platform variants (`platform_ascendc::SocVersion`); `OTHER_SOC` stands for every
variant the source does not name. -/
inductive SocVersion where
  | ASCEND910B
  | ASCEND310P
  | OTHER_SOC
  deriving DecidableEq

/-- Return status of the tiling function (`ge::graphStatus`). -/
inductive graphStatus where
  | GRAPH_SUCCESS
  | GRAPH_FAILED
  deriving DecidableEq

/-- The tiling record `CosTilingData`: four unsigned 32-bit fields. -/
structure CosTilingData where
  bigCoreDataNum : Nat
  smallCoreDataNum : Nat
  tileDataNum : Nat
  bigCoreNum : Nat
  deriving DecidableEq

/-- What `TilingFunc` writes into its `gert::TilingContext`: the block dimension
(`SetBlockDim`), the raw tiling buffer (`SaveToBuffer`), its data size (`SetDataSize`, true
once set) and the first workspace size. `none` / `false` means not written. -/
structure TilingContext where
  blockDim : Option Nat
  rawTilingData : Option CosTilingData
  dataSizeSet : Bool
  workspace0 : Option Nat
  deriving DecidableEq

/-- The constant `BLOCK_SIZE` of `op_host/cos.cpp`. -/
def BLOCK_SIZE : Nat := 32

/-- The expression `(xType == ge::DT_FLOAT) ? 4 : 2`. -/
def xTypeLength (xType : DataType) : Nat :=
  if xType = DataType.DT_FLOAT then 4 else 2

/-- The expression `BLOCK_SIZE / xTypeLength`. -/
def blockElemNum (xType : DataType) : Nat := BLOCK_SIZE / xTypeLength xType

/-- The expression `(inputNum / blockElemNum) + (inputNum % blockElemNum != 0)` on the
32-bit `inputNum` read from the 64-bit shape size. -/
def inputBlockNum (xType : DataType) (shapeSize : Nat) : Nat :=
  let inputNum := shapeSize % 4294967296
  (inputNum / blockElemNum xType
    + (if inputNum % blockElemNum xType ≠ 0 then 1 else 0)) % 4294967296

/-- The scratch multiplier `ubTileNum` chosen from the platform and the element type. -/
def ubTileNum (socVersion : SocVersion) (xType : DataType) : Nat :=
  if socVersion = SocVersion.ASCEND310P then
    (if xType = DataType.DT_FLOAT then 6 else 12)
  else
    (if xType = DataType.DT_FLOAT then 8 else 16)

/-- The unit count `std::max(std::min(coreNum, sqrtTerm), 1u)` where `sqrtTerm` is the value
of `(uint32_t)std::sqrt(0.4f * inputBlockNum)`. The single-precision square root is not
modelled: its truncated value is an argument. -/
def chosenCoreNum (coreNum sqrtTerm : Nat) : Nat := max (min coreNum sqrtTerm) 1

/-- The partition arithmetic of `optiling::TilingFunc` (source lines 38 to 62): the record
built by the four `set_` calls. `coreNum` is the platform core count, `sqrtTerm` the value of
`(uint32_t)std::sqrt(0.4f * inputBlockNum)`. -/
def tilingOf (ubSize coreNum : Nat) (socVersion : SocVersion) (xType : DataType)
    (shapeSize sqrtTerm : Nat) : CosTilingData :=
  let blockElems := blockElemNum xType
  let inputBlocks := inputBlockNum xType shapeSize
  let coreNum := chosenCoreNum coreNum sqrtTerm
  let smallCoreBlockNum := inputBlocks / coreNum
  let bigCoreNum := inputBlocks % coreNum
  let smallCoreDataNum := (smallCoreBlockNum * blockElems) % 4294967296
  let bigCoreDataNum := (smallCoreDataNum + blockElems) % 4294967296
  let tileBlockNum := ((ubSize / BLOCK_SIZE) / ubTileNum socVersion xType) % 4294967296
  let tileDataNum := (tileBlockNum * blockElems) % 4294967296
  { bigCoreDataNum := bigCoreDataNum
    smallCoreDataNum := smallCoreDataNum
    tileDataNum := tileDataNum
    bigCoreNum := bigCoreNum }

/-- The tiling function `optiling::TilingFunc`. Its inputs are what it reads from the platform
and the context: the fast-memory size `ubSize`, the core count `coreNum`, the platform
variant, the element type and the shape size; `sqrtTerm` is the value of
`(uint32_t)std::sqrt(0.4f * inputBlockNum)`. It returns the status and the context as
written. -/
def TilingFunc (ubSize coreNum : Nat) (socVersion : SocVersion) (xType : DataType)
    (shapeSize sqrtTerm : Nat) (context : TilingContext) : graphStatus × TilingContext :=
  if socVersion ≠ SocVersion.ASCEND910B ∧ xType = DataType.DT_BF16 then
    (graphStatus.GRAPH_FAILED, context)
  else
    (graphStatus.GRAPH_SUCCESS,
      { blockDim := some (chosenCoreNum coreNum sqrtTerm)
        rawTilingData := some (tilingOf ubSize coreNum socVersion xType shapeSize sqrtTerm)
        dataSizeSet := true
        workspace0 := some 0 })

/-! ## Kernel side: `KernelCos::Init` -/

/-- What `KernelCos::Init` derives for the unit with index `blockIdx`: the start index into
the global arrays and the two counts it stores. -/
structure UnitSlice where
  globalBufferIndex : Nat
  coreDataNum : Nat
  tileDataNum : Nat
  deriving DecidableEq

/-- The slice selection of `KernelCos::Init` (source lines 67 to 74). The product and the
subtraction are carried out on integers and converted to `uint32_t`. -/
def KernelCos.Init (bigCoreDataNum smallCoreDataNum tileDataNum bigCoreNum blockIdx : Nat) :
    UnitSlice :=
  let globalBufferIndex := wrap32 ((bigCoreDataNum : Int) * blockIdx)
  if blockIdx ≤ bigCoreNum then
    { globalBufferIndex := globalBufferIndex
      coreDataNum := bigCoreDataNum
      tileDataNum := tileDataNum }
  else
    { globalBufferIndex :=
        wrap32 ((globalBufferIndex : Int)
          - (wrap32 ((bigCoreDataNum : Int) - smallCoreDataNum) : Int)
            * ((blockIdx : Int) - bigCoreNum))
      coreDataNum := smallCoreDataNum
      tileDataNum := tileDataNum }

/-- The slice of unit `blockIdx` under a tiling record. -/
def unitSlice (t : CosTilingData) (blockIdx : Nat) : UnitSlice :=
  KernelCos.Init t.bigCoreDataNum t.smallCoreDataNum t.tileDataNum t.bigCoreNum blockIdx

/-- The start index as the specification words it:
`u <= bigUnitCount ? u * bigUnitElems : bigUnitCount * bigUnitElems + (u - bigUnitCount) * smallUnitElems`. -/
def specOffset (bigUnitElems smallUnitElems bigUnitCount u : Nat) : Nat :=
  if u ≤ bigUnitCount then u * bigUnitElems
  else bigUnitCount * bigUnitElems + (u - bigUnitCount) * smallUnitElems

/-- The element count as the specification words it: `bigUnitElems` if `u <= bigUnitCount`
else `smallUnitElems`. -/
def specCount (bigUnitElems smallUnitElems bigUnitCount u : Nat) : Nat :=
  if u ≤ bigUnitCount then bigUnitElems else smallUnitElems

/-! ## Kernel side: local tensors, queues and global tensors -/

/-- A local tensor (`AscendC::LocalTensor`): a buffer in fast memory, indexed by element
position. -/
abbrev LocalTensor (α : Type) := Nat → α

/-- A view of global memory (`AscendC::GlobalTensor` after `SetGlobalBuffer`): the memory
`mem` and the element index `base` at which the view starts. -/
structure GlobalTensor (α : Type) where
  mem : Nat → α
  base : Nat

/-- A queue (`AscendC::TQue`) with its buffer pool: `free` holds the buffers `AllocTensor`
can hand out, `queue` the enqueued tensors, oldest first. -/
structure TQue (α : Type) where
  free : List (LocalTensor α)
  queue : List (LocalTensor α)

/-- The call `AllocTensor`: takes a buffer from the pool, with whatever it contains. -/
def TQue.AllocTensor {α : Type} (q : TQue α) : Option (LocalTensor α × TQue α) :=
  match q.free with
  | [] => none
  | b :: rest => some (b, { q with free := rest })

/-- The call `EnQue`. -/
def TQue.EnQue {α : Type} (q : TQue α) (t : LocalTensor α) : TQue α :=
  { q with queue := q.queue ++ [t] }

/-- The call `DeQue`: the oldest enqueued tensor. -/
def TQue.DeQue {α : Type} (q : TQue α) : Option (LocalTensor α × TQue α) :=
  match q.queue with
  | [] => none
  | t :: rest => some (t, { q with queue := rest })

/-- The call `FreeTensor`: returns a buffer to the pool. -/
def TQue.FreeTensor {α : Type} (q : TQue α) (t : LocalTensor α) : TQue α :=
  { q with free := q.free ++ [t] }

/-- The call `DataCopy(dst, src, count)` into a local tensor: the first `count` elements of
`dst` are replaced by those of `src`. -/
def DataCopy {α : Type} (dstLocal : LocalTensor α) (src : Nat → α) (calCount : Nat) :
    LocalTensor α :=
  fun k => if k < calCount then src k else dstLocal k

/-- The read `xGm[offset]` seen as the source of a copy: element `k` of it is
`mem[base + offset + k]`. -/
def GlobalTensor.index {α : Type} (g : GlobalTensor α) (offset : Nat) : Nat → α :=
  fun k => g.mem (g.base + offset + k)

/-- The call `DataCopy(yGm[offset], src, count)` into global memory. -/
def GlobalTensor.DataCopy {α : Type} (g : GlobalTensor α) (offset : Nat)
    (srcLocal : LocalTensor α) (calCount : Nat) : GlobalTensor α :=
  { g with
    mem := fun a =>
      if g.base + offset ≤ a ∧ a < g.base + offset + calCount then
        srcLocal (a - (g.base + offset))
      else g.mem a }

/-- The call `Cast(dst, src, mode, count)` with `conv` the conversion of one element under
the given rounding mode. -/
def Cast {α β : Type} (conv : α → β) (dstLocal : LocalTensor β) (srcLocal : LocalTensor α)
    (calCount : Nat) : LocalTensor β :=
  fun k => if k < calCount then conv (srcLocal k) else dstLocal k

/-! ## Kernel side: `KernelCos::Process` -/

/-- The state of one `KernelCos<T, ComputeStrategy>` object: `T` is the element type, `F`
the working type `float`, `S` the state of the compute strategy. -/
structure KernelCos (T F S : Type) where
  inQueueX : TQue T
  outQueueY : TQue T
  xBuf : LocalTensor F
  yBuf : LocalTensor F
  xGm : GlobalTensor T
  yGm : GlobalTensor T
  coreDataNum : Nat
  tileDataNum : Nat
  strategy : S

/-- The private helper `KernelCos::min`: `(b < a) ? b : a`. -/
def KernelCos.min (a b : Nat) : Nat := if b < a then b else a

/-- The method `KernelCos::CopyIn`. -/
def KernelCos.CopyIn {T F S : Type} (offset processDataNum : Nat) (self : KernelCos T F S) :
    Option (KernelCos T F S) :=
  match self.inQueueX.AllocTensor with
  | none => none
  | some (xLocal, q) =>
    let xLocal := DataCopy xLocal (self.xGm.index offset) processDataNum
    some { self with inQueueX := q.EnQue xLocal }

/-- The method `KernelCos::CopyOut`. -/
def KernelCos.CopyOut {T F S : Type} (offset processDataNum : Nat) (self : KernelCos T F S) :
    Option (KernelCos T F S) :=
  match self.outQueueY.DeQue with
  | none => none
  | some (yLocal, q) =>
    some { self with
      yGm := self.yGm.DataCopy offset yLocal processDataNum
      outQueueY := q.FreeTensor yLocal }

/-- The method `KernelCos::Compute` for an element type other than `float`
(`PreDeQueCastX`, `PreAllocateY`, `ComputeImpl`, `PostReleaseCastEnQue`, each in its
second branch). `up` is the element conversion of the cast to `float`, `down` that of the
cast back; `ComputeImpl` is the strategy, which may overwrite its own state, `xLocal` and
`yLocal`. -/
def KernelCos.Compute {T F S : Type} (up : T → F) (down : F → T)
    (ComputeImpl : S → LocalTensor F → LocalTensor F → Nat → S × LocalTensor F × LocalTensor F)
    (processDataNum : Nat) (self : KernelCos T F S) : Option (KernelCos T F S) :=
  match self.inQueueX.DeQue with
  | none => none
  | some (xOrigin, qx) =>
    let xLocal := Cast up self.xBuf xOrigin processDataNum
    let qx := qx.FreeTensor xOrigin
    let yLocal := self.yBuf
    let r := ComputeImpl self.strategy xLocal yLocal processDataNum
    match self.outQueueY.AllocTensor with
    | none => none
    | some (yTarget, qy) =>
      let yTarget := Cast down yTarget r.2.2 processDataNum
      some { self with
        inQueueX := qx
        outQueueY := qy.EnQue yTarget
        xBuf := r.2.1
        yBuf := r.2.2
        strategy := r.1 }

/-- The method `KernelCos::Compute` for the element type `float` (`PreDeQueCastX`,
`PreAllocateY`, `ComputeImpl`, `PostReleaseCastEnQue`, each in its first branch): the
tensors of the queues are handed to the strategy as they are. -/
def KernelCos.ComputeFloat {F S : Type}
    (ComputeImpl : S → LocalTensor F → LocalTensor F → Nat → S × LocalTensor F × LocalTensor F)
    (processDataNum : Nat) (self : KernelCos F F S) : Option (KernelCos F F S) :=
  match self.inQueueX.DeQue with
  | none => none
  | some (xLocal, qx) =>
    match self.outQueueY.AllocTensor with
    | none => none
    | some (yLocal, qy) =>
      let r := ComputeImpl self.strategy xLocal yLocal processDataNum
      some { self with
        outQueueY := qy.EnQue r.2.2
        inQueueX := qx.FreeTensor r.2.1
        strategy := r.1 }

/-- The loop of `KernelCos::Process`,
`for (uint64_t i = 0; i < coreDataNum; i += tileDataNum)`, over an arbitrary loop body;
`fuel` bounds the number of iterations and `none` is returned when it runs out (or when the
body fails). The body receives the offset `i` and the 32-bit `processDataNum`. -/
def KernelCos.Process.loop {σ : Type} (body : Nat → Nat → σ → Option σ)
    (coreDataNum tileDataNum : Nat) : Nat → Nat → σ → Option σ
  | 0, i, s => if i < coreDataNum then none else some s
  | fuel + 1, i, s =>
    if i < coreDataNum then
      let processDataNum := KernelCos.min tileDataNum (coreDataNum - i) % 4294967296
      match body i processDataNum s with
      | none => none
      | some s1 =>
        KernelCos.Process.loop body coreDataNum tileDataNum fuel
          ((i + tileDataNum) % 18446744073709551616) s1
    else some s

/-- The method `KernelCos::Process` for an element type other than `float`. -/
def KernelCos.Process {T F S : Type} (up : T → F) (down : F → T)
    (ComputeImpl : S → LocalTensor F → LocalTensor F → Nat → S × LocalTensor F × LocalTensor F)
    (fuel : Nat) (self : KernelCos T F S) : Option (KernelCos T F S) :=
  KernelCos.Process.loop
    (fun i processDataNum s =>
      (KernelCos.CopyIn i processDataNum s).bind fun s =>
      (KernelCos.Compute up down ComputeImpl processDataNum s).bind fun s =>
      KernelCos.CopyOut i processDataNum s)
    self.coreDataNum self.tileDataNum fuel 0 self

/-- The method `KernelCos::Process` for the element type `float`. -/
def KernelCos.ProcessFloat {F S : Type}
    (ComputeImpl : S → LocalTensor F → LocalTensor F → Nat → S × LocalTensor F × LocalTensor F)
    (fuel : Nat) (self : KernelCos F F S) : Option (KernelCos F F S) :=
  KernelCos.Process.loop
    (fun i processDataNum s =>
      (KernelCos.CopyIn i processDataNum s).bind fun s =>
      (KernelCos.ComputeFloat ComputeImpl processDataNum s).bind fun s =>
      KernelCos.CopyOut i processDataNum s)
    self.coreDataNum self.tileDataNum fuel 0 self

/-- The three calls of one iteration of `KernelCos::Process` with their arguments:
`CopyIn(offset, count)`, `Compute(count)`, `CopyOut(offset, count)`. -/
structure TileCalls where
  copyIn : Nat × Nat
  compute : Nat
  copyOut : Nat × Nat
  deriving DecidableEq

/-- A loop body that only records the three calls of the iteration. -/
def KernelCos.Process.record (i processDataNum : Nat) (tr : List TileCalls) :
    Option (List TileCalls) :=
  some (tr ++ [{ copyIn := (i, processDataNum), compute := processDataNum,
                 copyOut := (i, processDataNum) }])

/-- The calls `KernelCos::Process` makes, in order, for the given counts: the loop run with
the recording body. -/
def KernelCos.Process.calls (fuel coreDataNum tileDataNum : Nat) : Option (List TileCalls) :=
  KernelCos.Process.loop KernelCos.Process.record coreDataNum tileDataNum fuel 0 []

/-! ## Kernel side: vector operations and `HighPerfStrategy`

The strategies are evaluated over the rationals: every vector operation is exact, and the
conversion of one element by `Cast` under a rounding mode is an argument. -/

/-- The rounding modes (`AscendC::RoundMode`) the kernel uses. -/
inductive RoundMode where
  | CAST_NONE
  | CAST_RINT
  | CAST_FLOOR
  | CAST_ROUND
  deriving DecidableEq

/-- The call `Muls(dst, src, scalar, count)`. -/
def Muls (dstLocal srcLocal : LocalTensor ℚ) (scalarValue : ℚ) (calCount : Nat) :
    LocalTensor ℚ :=
  fun k => if k < calCount then srcLocal k * scalarValue else dstLocal k

/-- The call `Adds(dst, src, scalar, count)`. -/
def Adds (dstLocal srcLocal : LocalTensor ℚ) (scalarValue : ℚ) (calCount : Nat) :
    LocalTensor ℚ :=
  fun k => if k < calCount then srcLocal k + scalarValue else dstLocal k

/-- The call `Mins(dst, src, scalar, count)`. -/
def Mins (dstLocal srcLocal : LocalTensor ℚ) (scalarValue : ℚ) (calCount : Nat) :
    LocalTensor ℚ :=
  fun k => if k < calCount then min (srcLocal k) scalarValue else dstLocal k

/-- The call `Maxs(dst, src, scalar, count)`. -/
def Maxs (dstLocal srcLocal : LocalTensor ℚ) (scalarValue : ℚ) (calCount : Nat) :
    LocalTensor ℚ :=
  fun k => if k < calCount then max (srcLocal k) scalarValue else dstLocal k

/-- The call `Add(dst, src0, src1, count)`. -/
def Add (dstLocal src0Local src1Local : LocalTensor ℚ) (calCount : Nat) : LocalTensor ℚ :=
  fun k => if k < calCount then src0Local k + src1Local k else dstLocal k

/-- The call `Sub(dst, src0, src1, count)`. -/
def Sub (dstLocal src0Local src1Local : LocalTensor ℚ) (calCount : Nat) : LocalTensor ℚ :=
  fun k => if k < calCount then src0Local k - src1Local k else dstLocal k

/-- The call `Mul(dst, src0, src1, count)`. -/
def Mul (dstLocal src0Local src1Local : LocalTensor ℚ) (calCount : Nat) : LocalTensor ℚ :=
  fun k => if k < calCount then src0Local k * src1Local k else dstLocal k

/-- The constant `PI_FOR_X_TODIV`. -/
def PI_FOR_X_TODIV : ℚ := 0.3183098733425140380859375
/-- The constant `PI_DOWN`. -/
def PI_DOWN : ℚ := 1.57079637050628662109375
/-- The constant `PI_RESDOWN_ADDS_NEG`. -/
def PI_RESDOWN_ADDS_NEG : ℚ := -0.00000004371139000189375
/-- The constant `COS_RES_MULIT_SCA`. -/
def COS_RES_MULIT_SCA : ℚ := 2.604926501e-6
/-- The constant `COS_RES_ADDICT_UP`. -/
def COS_RES_ADDICT_UP : ℚ := -0.0001980894471
/-- The constant `COS_2ADDS`. -/
def COS_2ADDS : ℚ := 0.008333049340
/-- The constant `COS_3ADDS`. -/
def COS_3ADDS : ℚ := -0.1666665792
/-- The constant `pi_0`. -/
def pi_0 : ℚ := 3.14160156
/-- The constant `pi_1`. -/
def pi_1 : ℚ := -8.9071691e-06
/-- The constant `pi_2`. -/
def pi_2 : ℚ := -1.74122761e-09
/-- The constant `pi_3`. -/
def pi_3 : ℚ := 1.24467439e-13

/-- The scratch buffers of `HighPerfStrategy` (its four `TBuf` members). -/
structure HighPerfStrategy where
  tmpBuf1 : LocalTensor ℚ
  tmpBuf2 : LocalTensor ℚ
  tmpBuf3 : LocalTensor ℚ
  tmpBuf4 : LocalTensor ℚ

/-- The method `HighPerfStrategy::ComputeImpl`, one line per vector call in source order.
Each call rebinds the buffer its destination aliases; the comment gives the source names
`dst <- src`. `cast mode` is the conversion of one element by `Cast` under `mode`. The
result is the strategy with its scratch buffers, `xLocal` and `yLocal` as the call leaves
them. -/
def HighPerfStrategy.ComputeImpl (cast : RoundMode → ℚ → ℚ) (self : HighPerfStrategy)
    (xLocal yLocal : LocalTensor ℚ) (processDataNum : Nat) :
    HighPerfStrategy × LocalTensor ℚ × LocalTensor ℚ :=
  let tmpTensor1 := self.tmpBuf1
  let tmpTensor2 := self.tmpBuf2
  let tmpTensor3 := self.tmpBuf3
  let tmpTensor4 := self.tmpBuf4
  -- x_vmul <- input_x
  let tmpTensor1 := Muls tmpTensor1 xLocal PI_FOR_X_TODIV processDataNum
  -- x_vmul1 <- x_vmul
  let tmpTensor2 := Adds tmpTensor2 tmpTensor1 0.5 processDataNum
  -- x_vmul0 <- x_vmul
  let yLocal := Muls yLocal tmpTensor1 (1 / 2048) processDataNum
  -- round_pi_div <- x_vmul1
  let tmpTensor1 := Cast (cast RoundMode.CAST_ROUND) tmpTensor1 tmpTensor2 processDataNum
  -- round_pi_div0 <- x_vmul0
  let tmpTensor3 := Cast (cast RoundMode.CAST_ROUND) tmpTensor3 yLocal processDataNum
  -- round_pi_div0_1 <- round_pi_div0
  let tmpTensor2 := Muls tmpTensor2 tmpTensor3 2048 processDataNum
  -- round_pi_div1 <- round_pi_div, round_pi_div0_1
  let yLocal := Sub yLocal tmpTensor1 tmpTensor2 processDataNum
  -- fix <- round_pi_div0_1
  let tmpTensor4 := Muls tmpTensor4 tmpTensor2 pi_0 processDataNum
  -- x_fixed <- input_x, fix
  let tmpTensor3 := Sub tmpTensor3 xLocal tmpTensor4 processDataNum
  -- fix_1 <- round_pi_div1
  let tmpTensor4 := Muls tmpTensor4 yLocal pi_0 processDataNum
  -- x_fixed_1 <- x_fixed, fix_1
  let xLocal := Sub xLocal tmpTensor3 tmpTensor4 processDataNum
  -- fix_2 <- round_pi_div0_1
  let tmpTensor4 := Muls tmpTensor4 tmpTensor2 pi_1 processDataNum
  -- x_fixed_2 <- x_fixed_1, fix_2
  let tmpTensor3 := Sub tmpTensor3 xLocal tmpTensor4 processDataNum
  -- x_fixed_3 <- x_fixed_2
  let xLocal := Adds xLocal tmpTensor3 PI_DOWN processDataNum
  -- fix_3 <- round_pi_div1
  let tmpTensor4 := Muls tmpTensor4 yLocal pi_1 processDataNum
  -- x_fixed_4 <- x_fixed_3, fix_3
  let tmpTensor3 := Sub tmpTensor3 xLocal tmpTensor4 processDataNum
  -- fix_4 <- round_pi_div0_1
  let tmpTensor4 := Muls tmpTensor4 tmpTensor2 pi_2 processDataNum
  -- x_fixed_5 <- x_fixed_4, fix_4
  let xLocal := Sub xLocal tmpTensor3 tmpTensor4 processDataNum
  -- fix_5 <- round_pi_div1
  let tmpTensor4 := Muls tmpTensor4 yLocal pi_2 processDataNum
  -- x_fixed_6 <- x_fixed_5, fix_5
  let tmpTensor3 := Sub tmpTensor3 xLocal tmpTensor4 processDataNum
  -- fix_6 <- round_pi_div0_1
  let xLocal := Muls xLocal tmpTensor2 pi_3 processDataNum
  -- x_fixed_7 <- x_fixed_6, fix_6
  let tmpTensor2 := Sub tmpTensor2 tmpTensor3 xLocal processDataNum
  -- fix_7 <- round_pi_div1
  let xLocal := Muls xLocal yLocal pi_3 processDataNum
  -- x_fixed_8 <- x_fixed_7, fix_7
  let tmpTensor3 := Sub tmpTensor3 tmpTensor2 xLocal processDataNum
  -- x_fixed_9 <- x_fixed_8
  let yLocal := Adds yLocal tmpTensor3 PI_RESDOWN_ADDS_NEG processDataNum
  -- x_pow <- x_fixed_9, x_fixed_9
  let tmpTensor2 := Mul tmpTensor2 yLocal yLocal processDataNum
  -- kover2 <- round_pi_div
  let xLocal := Muls xLocal tmpTensor1 0.5 processDataNum
  -- kover2floor <- kover2
  let tmpTensor3 := Cast (cast RoundMode.CAST_FLOOR) tmpTensor3 xLocal processDataNum
  -- kover2floorm4 <- kover2floor
  let xLocal := Muls xLocal tmpTensor3 4 processDataNum
  -- k2 <- round_pi_div
  let tmpTensor3 := Muls tmpTensor3 tmpTensor1 (-2) processDataNum
  -- sign <- kover2floorm4, k2
  let tmpTensor4 := Add tmpTensor4 xLocal tmpTensor3 processDataNum
  -- sign_1 <- sign
  let tmpTensor1 := Adds tmpTensor1 tmpTensor4 1 processDataNum
  -- res_up <- x_pow
  let tmpTensor3 := Muls tmpTensor3 tmpTensor2 COS_RES_MULIT_SCA processDataNum
  -- res_up_1 <- res_up
  let xLocal := Adds xLocal tmpTensor3 COS_RES_ADDICT_UP processDataNum
  -- res_up_2 <- res_up_1, x_pow
  let tmpTensor3 := Mul tmpTensor3 xLocal tmpTensor2 processDataNum
  -- res_up_3 <- res_up_2
  let xLocal := Adds xLocal tmpTensor3 COS_2ADDS processDataNum
  -- res_up_4 <- res_up_3, x_pow
  let tmpTensor3 := Mul tmpTensor3 xLocal tmpTensor2 processDataNum
  -- res_up_5 <- res_up_4
  let xLocal := Adds xLocal tmpTensor3 COS_3ADDS processDataNum
  -- res_up_6 <- res_up_5, x_pow
  let tmpTensor3 := Mul tmpTensor3 xLocal tmpTensor2 processDataNum
  -- res_up_7 <- res_up_6
  let tmpTensor2 := Adds tmpTensor2 tmpTensor3 1 processDataNum
  -- res_up_8 <- res_up_7, x_fixed_9
  let xLocal := Mul xLocal tmpTensor2 yLocal processDataNum
  -- res_sign <- res_up_8, sign_1
  let yLocal := Mul yLocal xLocal tmpTensor1 processDataNum
  -- res_mins <- res_sign
  let tmpTensor1 := Mins tmpTensor1 yLocal 1 processDataNum
  -- res_maxs <- res_mins
  let yLocal := Maxs yLocal tmpTensor1 (-1) processDataNum
  ({ tmpBuf1 := tmpTensor1, tmpBuf2 := tmpTensor2, tmpBuf3 := tmpTensor3,
     tmpBuf4 := tmpTensor4 }, xLocal, yLocal)

/-! ## Kernel side: `RefStrategy` and `HighPrecStrategy` -/

/-- The call `Duplicate(dst, scalar, count)`. -/
def Duplicate (dstLocal : LocalTensor ℚ) (scalarValue : ℚ) (calCount : Nat) : LocalTensor ℚ :=
  fun k => if k < calCount then scalarValue else dstLocal k

/-- The constant `TWO_PI`. -/
def TWO_PI : ℚ := 2 * 3.14159265358979
/-- The constant `REF_COEF_2`. -/
def REF_COEF_2 : ℚ := -1 / (2 * 1)
/-- The constant `REF_COEF_4`. -/
def REF_COEF_4 : ℚ := -1 / (4 * 3)
/-- The constant `REF_COEF_6`. -/
def REF_COEF_6 : ℚ := -1 / (6 * 5)
/-- The constant `REF_COEF_8`. -/
def REF_COEF_8 : ℚ := -1 / (8 * 7)
/-- The constant `REF_COEF_10`. -/
def REF_COEF_10 : ℚ := -1 / (10 * 9)
/-- The constant `REF_COEF_12`. -/
def REF_COEF_12 : ℚ := -1 / (12 * 11)
/-- The constant `REF_COEF_14`. -/
def REF_COEF_14 : ℚ := -1 / (14 * 13)

/-- The scratch buffers of `RefStrategy` (its two `TBuf` members). -/
structure RefStrategy where
  tmpBuf1 : LocalTensor ℚ
  tmpBuf2 : LocalTensor ℚ

/-- The method `RefStrategy::ComputeImpl`, one line per vector call in source order; the
comment gives the source names `dst <- src`. The 32-bit integer tensor `round_fp` is the
buffer of `yLocal` and holds the value `Cast` produced. -/
def RefStrategy.ComputeImpl (cast : RoundMode → ℚ → ℚ) (self : RefStrategy)
    (xLocal yLocal : LocalTensor ℚ) (processDataNum : Nat) :
    RefStrategy × LocalTensor ℚ × LocalTensor ℚ :=
  let tmpTensor1 := self.tmpBuf1
  let tmpTensor2 := self.tmpBuf2
  -- vmu_ <- input_x
  let tmpTensor1 := Muls tmpTensor1 xLocal (1 / TWO_PI) processDataNum
  -- round_fp <- vmu_
  let yLocal := Cast (cast RoundMode.CAST_RINT) yLocal tmpTensor1 processDataNum
  -- round_fp32 <- round_fp
  let tmpTensor1 := Cast (cast RoundMode.CAST_NONE) tmpTensor1 yLocal processDataNum
  -- t <- round_fp32
  let tmpTensor2 := Muls tmpTensor2 tmpTensor1 TWO_PI processDataNum
  -- input_x_round <- input_x, t
  let yLocal := Sub yLocal xLocal tmpTensor2 processDataNum
  -- res
  let tmpTensor1 := Duplicate tmpTensor1 1 processDataNum
  -- input_x_power <- input_x_round, input_x_round
  let xLocal := Mul xLocal yLocal yLocal processDataNum
  -- iter_value <- input_x_power
  let tmpTensor2 := Muls tmpTensor2 xLocal REF_COEF_2 processDataNum
  -- res_1 <- res, iter_value
  let yLocal := Add yLocal tmpTensor1 tmpTensor2 processDataNum
  -- t_1 <- input_x_power, iter_value
  let tmpTensor1 := Mul tmpTensor1 xLocal tmpTensor2 processDataNum
  -- iter_value_1 <- t_1
  let tmpTensor2 := Muls tmpTensor2 tmpTensor1 REF_COEF_4 processDataNum
  -- res_2 <- res_1, iter_value_1
  let tmpTensor1 := Add tmpTensor1 yLocal tmpTensor2 processDataNum
  -- t_2 <- input_x_power, iter_value_1
  let yLocal := Mul yLocal xLocal tmpTensor2 processDataNum
  -- iter_value_2 <- t_2
  let tmpTensor2 := Muls tmpTensor2 yLocal REF_COEF_6 processDataNum
  -- res_3 <- res_2, iter_value_2
  let yLocal := Add yLocal tmpTensor1 tmpTensor2 processDataNum
  -- t_3 <- input_x_power, iter_value_2
  let tmpTensor1 := Mul tmpTensor1 xLocal tmpTensor2 processDataNum
  -- iter_value_3 <- t_3
  let tmpTensor2 := Muls tmpTensor2 tmpTensor1 REF_COEF_8 processDataNum
  -- res_4 <- res_3, iter_value_3
  let tmpTensor1 := Add tmpTensor1 yLocal tmpTensor2 processDataNum
  -- t_4 <- input_x_power, iter_value_3
  let yLocal := Mul yLocal xLocal tmpTensor2 processDataNum
  -- iter_value_4 <- t_4
  let tmpTensor2 := Muls tmpTensor2 yLocal REF_COEF_10 processDataNum
  -- res_5 <- res_4, iter_value_4
  let yLocal := Add yLocal tmpTensor1 tmpTensor2 processDataNum
  -- t_5 <- input_x_power, iter_value_4
  let tmpTensor1 := Mul tmpTensor1 xLocal tmpTensor2 processDataNum
  -- iter_value_5 <- t_5
  let tmpTensor2 := Muls tmpTensor2 tmpTensor1 REF_COEF_12 processDataNum
  -- res_6 <- res_5, iter_value_5
  let tmpTensor1 := Add tmpTensor1 yLocal tmpTensor2 processDataNum
  -- t_6 <- input_x_power, iter_value_5
  let yLocal := Mul yLocal xLocal tmpTensor2 processDataNum
  -- iter_value_6 <- t_6
  let xLocal := Muls xLocal yLocal REF_COEF_14 processDataNum
  -- res_7 <- res_6, iter_value_6
  let yLocal := Add yLocal tmpTensor1 xLocal processDataNum
  ({ tmpBuf1 := tmpTensor1, tmpBuf2 := tmpTensor2 }, xLocal, yLocal)

/-- The six local tensors a strategy with four scratch buffers works on. -/
structure Bufs where
  xLocal : LocalTensor ℚ
  yLocal : LocalTensor ℚ
  tmpTensor1 : LocalTensor ℚ
  tmpTensor2 : LocalTensor ℚ
  tmpTensor3 : LocalTensor ℚ
  tmpTensor4 : LocalTensor ℚ

/-- The constant `PI_V4_0`. -/
def PI_V4_0 : ℚ := 1.5708008
/-- The constant `PI_V4_1`. -/
def PI_V4_1 : ℚ := -0.0000044535846
/-- The constant `PI_V4_2`. -/
def PI_V4_2 : ℚ := -8.706138e-10
/-- The constant `PI_V4_3`. -/
def PI_V4_3 : ℚ := 1.5703125
/-- The constant `PI_12`. -/
def PI_12 : ℚ := 0.0004837513
/-- The constant `PI_22`. -/
def PI_22 : ℚ := 0.000000075495336
/-- The constant `PI_32`. -/
def PI_32 : ℚ := 2.5579538e-12
/-- The constant `PI_42`. -/
def PI_42 : ℚ := 5.389786e-15
/-- The constant `PI_52`. -/
def PI_52 : ℚ := 5.166901e-19
/-- The constant `PI_62`. -/
def PI_62 : ℚ := 3.281839e-22
/-- The constant `INV_HALF_PI`. -/
def INV_HALF_PI : ℚ := 0.63661975
/-- The constant `SCOEF_4`. -/
def SCOEF_4 : ℚ := 0.0000027183114939898219064
/-- The constant `SCOEF_3`. -/
def SCOEF_3 : ℚ := -0.000198393348360966317347
/-- The constant `SCOEF_2`. -/
def SCOEF_2 : ℚ := 0.0083333293858894631756
/-- The constant `SCOEF_1`. -/
def SCOEF_1 : ℚ := -0.166666666416265235595
/-- The constant `CCOEF_4`. -/
def CCOEF_4 : ℚ := 0.0000243904487962774090654
/-- The constant `CCOEF_3`. -/
def CCOEF_3 : ℚ := -0.00138867637746099294692
/-- The constant `CCOEF_2`. -/
def CCOEF_2 : ℚ := 0.0416666233237390631894
/-- The constant `CCOEF_1`. -/
def CCOEF_1 : ℚ := -0.499999997251031003120

/-- The scratch buffers of `HighPrecStrategy` (its four `TBuf` members). -/
structure HighPrecStrategy where
  tmpBuf1 : LocalTensor ℚ
  tmpBuf2 : LocalTensor ℚ
  tmpBuf3 : LocalTensor ℚ
  tmpBuf4 : LocalTensor ℚ

/-- The first part of `HighPrecStrategy::ComputeImpl` (source lines 634 to 770): the
two-stage range reduction, from `x_scaled` to `x_fix_25`. It leaves `x_fix_25` in `xLocal`
and `n2` in `tmpTensor1`. One line per vector call in source order; the comment gives the
source names `dst <- src`. -/
def HighPrecStrategy.reduction (cast : RoundMode → ℚ → ℚ) (b : Bufs)
    (processDataNum : Nat) : Bufs :=
  let xLocal := b.xLocal
  let yLocal := b.yLocal
  let tmpTensor1 := b.tmpTensor1
  let tmpTensor2 := b.tmpTensor2
  let tmpTensor3 := b.tmpTensor3
  let tmpTensor4 := b.tmpTensor4
  -- x_scaled <- input_x
  let tmpTensor1 := Muls tmpTensor1 xLocal (1 / 2048) processDataNum
  -- x_overpi <- x_scaled
  let tmpTensor3 := Muls tmpTensor3 tmpTensor1 INV_HALF_PI processDataNum
  -- n <- x_overpi
  let tmpTensor2 := Cast (cast RoundMode.CAST_RINT) tmpTensor2 tmpTensor3 processDataNum
  -- n0 <- x_overpi
  let yLocal := Muls yLocal tmpTensor3 (1 / 2048) processDataNum
  -- n0_1 <- n0
  let tmpTensor3 := Cast (cast RoundMode.CAST_RINT) tmpTensor3 yLocal processDataNum
  -- n0_2 <- n0_1
  let yLocal := Muls yLocal tmpTensor3 2048 processDataNum
  -- n1 <- n, n0_2
  let tmpTensor3 := Sub tmpTensor3 tmpTensor2 yLocal processDataNum
  -- fix <- n0_2
  let tmpTensor4 := Muls tmpTensor4 yLocal PI_V4_0 processDataNum
  -- x_fix <- x_scaled, fix
  let tmpTensor2 := Sub tmpTensor2 tmpTensor1 tmpTensor4 processDataNum
  -- fix_1 <- n1
  let tmpTensor4 := Muls tmpTensor4 tmpTensor3 PI_V4_0 processDataNum
  -- x_fix_1 <- x_fix, fix_1
  let tmpTensor1 := Sub tmpTensor1 tmpTensor2 tmpTensor4 processDataNum
  -- fix_2 <- n0_2
  let tmpTensor4 := Muls tmpTensor4 yLocal PI_V4_1 processDataNum
  -- x_fix_2 <- x_fix_1, fix_2
  let tmpTensor2 := Sub tmpTensor2 tmpTensor1 tmpTensor4 processDataNum
  -- fix_3 <- n1
  let tmpTensor4 := Muls tmpTensor4 tmpTensor3 PI_V4_1 processDataNum
  -- x_fix_3 <- x_fix_2, fix_3
  let tmpTensor1 := Sub tmpTensor1 tmpTensor2 tmpTensor4 processDataNum
  -- fix_4 <- n0_2
  let tmpTensor4 := Muls tmpTensor4 yLocal PI_V4_2 processDataNum
  -- x_fix_4 <- x_fix_3, fix_4
  let tmpTensor2 := Sub tmpTensor2 tmpTensor1 tmpTensor4 processDataNum
  -- remain_x <- x_fix_4
  let tmpTensor1 := Muls tmpTensor1 tmpTensor2 2048 processDataNum
  -- temp <- remain_x
  let tmpTensor2 := Muls tmpTensor2 tmpTensor1 INV_HALF_PI processDataNum
  -- n2 <- temp
  let tmpTensor1 := Cast (cast RoundMode.CAST_RINT) tmpTensor1 tmpTensor2 processDataNum
  -- n0_3 <- n0_2
  let tmpTensor2 := Muls tmpTensor2 yLocal 2048 processDataNum
  -- n1_1 <- n1
  let yLocal := Muls yLocal tmpTensor3 2048 processDataNum
  -- fix_5 <- n0_3
  let tmpTensor4 := Muls tmpTensor4 tmpTensor2 PI_V4_3 processDataNum
  -- x_fix_5 <- input_x, fix_5
  let tmpTensor3 := Sub tmpTensor3 xLocal tmpTensor4 processDataNum
  -- fix_6 <- n1_1
  let tmpTensor4 := Muls tmpTensor4 yLocal PI_V4_3 processDataNum
  -- x_fix_6 <- x_fix_5, fix_6
  let xLocal := Sub xLocal tmpTensor3 tmpTensor4 processDataNum
  -- fix_7 <- n0_3
  let tmpTensor4 := Muls tmpTensor4 tmpTensor2 PI_12 processDataNum
  -- x_fix_7 <- x_fix_6, fix_7
  let tmpTensor3 := Sub tmpTensor3 xLocal tmpTensor4 processDataNum
  -- fix_8 <- n2
  let tmpTensor4 := Muls tmpTensor4 tmpTensor1 PI_V4_3 processDataNum
  -- x_fix_8 <- x_fix_7, fix_8
  let xLocal := Sub xLocal tmpTensor3 tmpTensor4 processDataNum
  -- fix_9 <- n1_1
  let tmpTensor4 := Muls tmpTensor4 yLocal PI_12 processDataNum
  -- x_fix_9 <- x_fix_8, fix_9
  let tmpTensor3 := Sub tmpTensor3 xLocal tmpTensor4 processDataNum
  -- fix_10 <- n0_3
  let tmpTensor4 := Muls tmpTensor4 tmpTensor2 PI_22 processDataNum
  -- x_fix_10 <- x_fix_9, fix_10
  let xLocal := Sub xLocal tmpTensor3 tmpTensor4 processDataNum
  -- fix_11 <- n2
  let tmpTensor4 := Muls tmpTensor4 tmpTensor1 PI_12 processDataNum
  -- x_fix_11 <- x_fix_10, fix_11
  let tmpTensor3 := Sub tmpTensor3 xLocal tmpTensor4 processDataNum
  -- fix_12 <- n1_1
  let tmpTensor4 := Muls tmpTensor4 yLocal PI_22 processDataNum
  -- x_fix_12 <- x_fix_11, fix_12
  let xLocal := Sub xLocal tmpTensor3 tmpTensor4 processDataNum
  -- fix_13 <- n0_3
  let tmpTensor4 := Muls tmpTensor4 tmpTensor2 PI_32 processDataNum
  -- x_fix_13 <- x_fix_12, fix_13
  let tmpTensor3 := Sub tmpTensor3 xLocal tmpTensor4 processDataNum
  -- fix_14 <- n2
  let tmpTensor4 := Muls tmpTensor4 tmpTensor1 PI_22 processDataNum
  -- x_fix_14 <- x_fix_13, fix_14
  let xLocal := Sub xLocal tmpTensor3 tmpTensor4 processDataNum
  -- fix_15 <- n1_1
  let tmpTensor4 := Muls tmpTensor4 yLocal PI_32 processDataNum
  -- x_fix_15 <- x_fix_14, fix_15
  let tmpTensor3 := Sub tmpTensor3 xLocal tmpTensor4 processDataNum
  -- fix_16 <- n0_3
  let tmpTensor4 := Muls tmpTensor4 tmpTensor2 PI_42 processDataNum
  -- x_fix_16 <- x_fix_15, fix_16
  let xLocal := Sub xLocal tmpTensor3 tmpTensor4 processDataNum
  -- fix_17 <- n2
  let tmpTensor4 := Muls tmpTensor4 tmpTensor1 PI_32 processDataNum
  -- x_fix_17 <- x_fix_16, fix_17
  let tmpTensor3 := Sub tmpTensor3 xLocal tmpTensor4 processDataNum
  -- fix_18 <- n1_1
  let tmpTensor4 := Muls tmpTensor4 yLocal PI_42 processDataNum
  -- x_fix_18 <- x_fix_17, fix_18
  let xLocal := Sub xLocal tmpTensor3 tmpTensor4 processDataNum
  -- fix_19 <- n0_3
  let tmpTensor4 := Muls tmpTensor4 tmpTensor2 PI_52 processDataNum
  -- x_fix_19 <- x_fix_18, fix_19
  let tmpTensor3 := Sub tmpTensor3 xLocal tmpTensor4 processDataNum
  -- fix_20 <- n2
  let tmpTensor4 := Muls tmpTensor4 tmpTensor1 PI_42 processDataNum
  -- x_fix_20 <- x_fix_19, fix_20
  let xLocal := Sub xLocal tmpTensor3 tmpTensor4 processDataNum
  -- fix_21 <- n1_1
  let tmpTensor4 := Muls tmpTensor4 yLocal PI_52 processDataNum
  -- x_fix_21 <- x_fix_20, fix_21
  let tmpTensor3 := Sub tmpTensor3 xLocal tmpTensor4 processDataNum
  -- fix_22 <- n0_3
  let xLocal := Muls xLocal tmpTensor2 PI_62 processDataNum
  -- x_fix_22 <- x_fix_21, fix_22
  let tmpTensor2 := Sub tmpTensor2 tmpTensor3 xLocal processDataNum
  -- fix_23 <- n2
  let tmpTensor3 := Muls tmpTensor3 tmpTensor1 PI_52 processDataNum
  -- x_fix_23 <- x_fix_22, fix_23
  let xLocal := Sub xLocal tmpTensor2 tmpTensor3 processDataNum
  -- fix_24 <- n1_1
  let tmpTensor2 := Muls tmpTensor2 yLocal PI_62 processDataNum
  -- x_fix_24 <- x_fix_23, fix_24
  let yLocal := Sub yLocal xLocal tmpTensor2 processDataNum
  -- fix_25 <- n2
  let tmpTensor2 := Muls tmpTensor2 tmpTensor1 PI_62 processDataNum
  -- x_fix_25 <- x_fix_24, fix_25
  let xLocal := Sub xLocal yLocal tmpTensor2 processDataNum
  { xLocal := xLocal, yLocal := yLocal, tmpTensor1 := tmpTensor1, tmpTensor2 := tmpTensor2,
    tmpTensor3 := tmpTensor3, tmpTensor4 := tmpTensor4 }

/-- The second part of `HighPrecStrategy::ComputeImpl` (source lines 772 to 808): the sine
and cosine polynomials of `x_fix_25`. It leaves `sin_poly_8` in `yLocal` and `cos_poly_7`
in `tmpTensor2`, and does not touch `tmpTensor1`. -/
def HighPrecStrategy.polynomials (b : Bufs) (processDataNum : Nat) : Bufs :=
  let xLocal := b.xLocal
  let yLocal := b.yLocal
  let tmpTensor1 := b.tmpTensor1
  let tmpTensor2 := b.tmpTensor2
  let tmpTensor3 := b.tmpTensor3
  let tmpTensor4 := b.tmpTensor4
  -- x_pow <- x_fix_25, x_fix_25
  let tmpTensor2 := Mul tmpTensor2 xLocal xLocal processDataNum
  -- sin_poly <- x_pow
  let tmpTensor3 := Muls tmpTensor3 tmpTensor2 SCOEF_4 processDataNum
  -- sin_poly_1 <- sin_poly
  let yLocal := Adds yLocal tmpTensor3 SCOEF_3 processDataNum
  -- sin_poly_2 <- x_pow, sin_poly_1
  let tmpTensor3 := Mul tmpTensor3 tmpTensor2 yLocal processDataNum
  -- sin_poly_3 <- sin_poly_2
  let yLocal := Adds yLocal tmpTensor3 SCOEF_2 processDataNum
  -- sin_poly_4 <- x_pow, sin_poly_3
  let tmpTensor3 := Mul tmpTensor3 tmpTensor2 yLocal processDataNum
  -- sin_poly_5 <- sin_poly_4
  let yLocal := Adds yLocal tmpTensor3 SCOEF_1 processDataNum
  -- sin_poly_6 <- x_pow, sin_poly_5
  let tmpTensor3 := Mul tmpTensor3 tmpTensor2 yLocal processDataNum
  -- sin_poly_7 <- sin_poly_6
  let tmpTensor4 := Adds tmpTensor4 tmpTensor3 1 processDataNum
  -- sin_poly_8 <- x_fix_25, sin_poly_7
  let yLocal := Mul yLocal xLocal tmpTensor4 processDataNum
  -- cos_poly <- x_pow
  let tmpTensor3 := Muls tmpTensor3 tmpTensor2 CCOEF_4 processDataNum
  -- cos_poly_1 <- cos_poly
  let xLocal := Adds xLocal tmpTensor3 CCOEF_3 processDataNum
  -- cos_poly_2 <- x_pow, cos_poly_1
  let tmpTensor3 := Mul tmpTensor3 tmpTensor2 xLocal processDataNum
  -- cos_poly_3 <- cos_poly_2
  let xLocal := Adds xLocal tmpTensor3 CCOEF_2 processDataNum
  -- cos_poly_4 <- x_pow, cos_poly_3
  let tmpTensor3 := Mul tmpTensor3 tmpTensor2 xLocal processDataNum
  -- cos_poly_5 <- cos_poly_4
  let xLocal := Adds xLocal tmpTensor3 CCOEF_1 processDataNum
  -- cos_poly_6 <- x_pow, cos_poly_5
  let tmpTensor3 := Mul tmpTensor3 tmpTensor2 xLocal processDataNum
  -- cos_poly_7 <- cos_poly_6
  let tmpTensor2 := Adds tmpTensor2 tmpTensor3 1 processDataNum
  { xLocal := xLocal, yLocal := yLocal, tmpTensor1 := tmpTensor1, tmpTensor2 := tmpTensor2,
    tmpTensor3 := tmpTensor3, tmpTensor4 := tmpTensor4 }

/-- The last part of `HighPrecStrategy::ComputeImpl` (source lines 810 to 843): the choice
between the two polynomials and the sign, from `n2` in `tmpTensor1`, `sin_poly_8` in
`yLocal` and `cos_poly_7` in `tmpTensor2`. It leaves the result `res_1` in `yLocal`. -/
def HighPrecStrategy.selection (cast : RoundMode → ℚ → ℚ) (b : Bufs)
    (processDataNum : Nat) : Bufs :=
  let xLocal := b.xLocal
  let yLocal := b.yLocal
  let tmpTensor1 := b.tmpTensor1
  let tmpTensor2 := b.tmpTensor2
  let tmpTensor3 := b.tmpTensor3
  let tmpTensor4 := b.tmpTensor4
  -- n2_1 <- n2
  let xLocal := Adds xLocal tmpTensor1 1 processDataNum
  -- half_n2 <- n2_1
  let tmpTensor4 := Muls tmpTensor4 xLocal 0.5 processDataNum
  -- half4_n2 <- n2_1
  let tmpTensor3 := Muls tmpTensor3 xLocal 0.25 processDataNum
  -- n_half2 <- half_n2
  let tmpTensor1 := Cast (cast RoundMode.CAST_FLOOR) tmpTensor1 tmpTensor4 processDataNum
  -- n_half4 <- half4_n2
  let tmpTensor4 := Cast (cast RoundMode.CAST_FLOOR) tmpTensor4 tmpTensor3 processDataNum
  -- k1 <- n_half2
  let tmpTensor3 := Muls tmpTensor3 tmpTensor1 (-2) processDataNum
  -- k2 <- n_half4
  let tmpTensor1 := Muls tmpTensor1 tmpTensor4 4 processDataNum
  -- sign <- k1, k2
  let tmpTensor4 := Add tmpTensor4 tmpTensor3 tmpTensor1 processDataNum
  -- sign_1 <- sign
  let tmpTensor1 := Adds tmpTensor1 tmpTensor4 1 processDataNum
  -- ifcos <- n2_1, k1
  let tmpTensor4 := Add tmpTensor4 xLocal tmpTensor3 processDataNum
  -- ifsin <- ifcos
  let xLocal := Muls xLocal tmpTensor4 (-1) processDataNum
  -- ifsin_1 <- ifsin
  let tmpTensor3 := Adds tmpTensor3 xLocal 1 processDataNum
  -- temp1 <- sin_poly_8, ifsin_1
  let xLocal := Mul xLocal yLocal tmpTensor3 processDataNum
  -- cos_poly_8 <- cos_poly_7, ifcos
  let yLocal := Mul yLocal tmpTensor2 tmpTensor4 processDataNum
  -- res <- temp1, cos_poly_8
  let tmpTensor2 := Add tmpTensor2 xLocal yLocal processDataNum
  -- res_1 <- res, sign_1
  let yLocal := Mul yLocal tmpTensor2 tmpTensor1 processDataNum
  { xLocal := xLocal, yLocal := yLocal, tmpTensor1 := tmpTensor1, tmpTensor2 := tmpTensor2,
    tmpTensor3 := tmpTensor3, tmpTensor4 := tmpTensor4 }

/-- The method `HighPrecStrategy::ComputeImpl`: its three parts in source order. -/
def HighPrecStrategy.ComputeImpl (cast : RoundMode → ℚ → ℚ) (self : HighPrecStrategy)
    (xLocal yLocal : LocalTensor ℚ) (processDataNum : Nat) :
    HighPrecStrategy × LocalTensor ℚ × LocalTensor ℚ :=
  let b : Bufs :=
    { xLocal := xLocal, yLocal := yLocal, tmpTensor1 := self.tmpBuf1,
      tmpTensor2 := self.tmpBuf2, tmpTensor3 := self.tmpBuf3, tmpTensor4 := self.tmpBuf4 }
  let b := HighPrecStrategy.reduction cast b processDataNum
  let b := HighPrecStrategy.polynomials b processDataNum
  let b := HighPrecStrategy.selection cast b processDataNum
  ({ tmpBuf1 := b.tmpTensor1, tmpBuf2 := b.tmpTensor2, tmpBuf3 := b.tmpTensor3,
     tmpBuf4 := b.tmpTensor4 }, b.xLocal, b.yLocal)

/-! ## Kernel side: the parts of `HighPerfStrategy::ComputeImpl` -/

/-- The first part of `HighPerfStrategy::ComputeImpl` (source lines 385 to 437): the range
reduction, from `x_vmul` to `x_fixed_9`. It leaves `x_fixed_9` in `yLocal` and
`round_pi_div` in `tmpTensor1`. -/
def HighPerfStrategy.reduction (cast : RoundMode → ℚ → ℚ) (b : Bufs)
    (processDataNum : Nat) : Bufs :=
  let xLocal := b.xLocal
  let yLocal := b.yLocal
  let tmpTensor1 := b.tmpTensor1
  let tmpTensor2 := b.tmpTensor2
  let tmpTensor3 := b.tmpTensor3
  let tmpTensor4 := b.tmpTensor4
  -- x_vmul <- input_x
  let tmpTensor1 := Muls tmpTensor1 xLocal PI_FOR_X_TODIV processDataNum
  -- x_vmul1 <- x_vmul
  let tmpTensor2 := Adds tmpTensor2 tmpTensor1 0.5 processDataNum
  -- x_vmul0 <- x_vmul
  let yLocal := Muls yLocal tmpTensor1 (1 / 2048) processDataNum
  -- round_pi_div <- x_vmul1
  let tmpTensor1 := Cast (cast RoundMode.CAST_ROUND) tmpTensor1 tmpTensor2 processDataNum
  -- round_pi_div0 <- x_vmul0
  let tmpTensor3 := Cast (cast RoundMode.CAST_ROUND) tmpTensor3 yLocal processDataNum
  -- round_pi_div0_1 <- round_pi_div0
  let tmpTensor2 := Muls tmpTensor2 tmpTensor3 2048 processDataNum
  -- round_pi_div1 <- round_pi_div, round_pi_div0_1
  let yLocal := Sub yLocal tmpTensor1 tmpTensor2 processDataNum
  -- fix <- round_pi_div0_1
  let tmpTensor4 := Muls tmpTensor4 tmpTensor2 pi_0 processDataNum
  -- x_fixed <- input_x, fix
  let tmpTensor3 := Sub tmpTensor3 xLocal tmpTensor4 processDataNum
  -- fix_1 <- round_pi_div1
  let tmpTensor4 := Muls tmpTensor4 yLocal pi_0 processDataNum
  -- x_fixed_1 <- x_fixed, fix_1
  let xLocal := Sub xLocal tmpTensor3 tmpTensor4 processDataNum
  -- fix_2 <- round_pi_div0_1
  let tmpTensor4 := Muls tmpTensor4 tmpTensor2 pi_1 processDataNum
  -- x_fixed_2 <- x_fixed_1, fix_2
  let tmpTensor3 := Sub tmpTensor3 xLocal tmpTensor4 processDataNum
  -- x_fixed_3 <- x_fixed_2
  let xLocal := Adds xLocal tmpTensor3 PI_DOWN processDataNum
  -- fix_3 <- round_pi_div1
  let tmpTensor4 := Muls tmpTensor4 yLocal pi_1 processDataNum
  -- x_fixed_4 <- x_fixed_3, fix_3
  let tmpTensor3 := Sub tmpTensor3 xLocal tmpTensor4 processDataNum
  -- fix_4 <- round_pi_div0_1
  let tmpTensor4 := Muls tmpTensor4 tmpTensor2 pi_2 processDataNum
  -- x_fixed_5 <- x_fixed_4, fix_4
  let xLocal := Sub xLocal tmpTensor3 tmpTensor4 processDataNum
  -- fix_5 <- round_pi_div1
  let tmpTensor4 := Muls tmpTensor4 yLocal pi_2 processDataNum
  -- x_fixed_6 <- x_fixed_5, fix_5
  let tmpTensor3 := Sub tmpTensor3 xLocal tmpTensor4 processDataNum
  -- fix_6 <- round_pi_div0_1
  let xLocal := Muls xLocal tmpTensor2 pi_3 processDataNum
  -- x_fixed_7 <- x_fixed_6, fix_6
  let tmpTensor2 := Sub tmpTensor2 tmpTensor3 xLocal processDataNum
  -- fix_7 <- round_pi_div1
  let xLocal := Muls xLocal yLocal pi_3 processDataNum
  -- x_fixed_8 <- x_fixed_7, fix_7
  let tmpTensor3 := Sub tmpTensor3 tmpTensor2 xLocal processDataNum
  -- x_fixed_9 <- x_fixed_8
  let yLocal := Adds yLocal tmpTensor3 PI_RESDOWN_ADDS_NEG processDataNum
  { xLocal := xLocal, yLocal := yLocal, tmpTensor1 := tmpTensor1, tmpTensor2 := tmpTensor2,
    tmpTensor3 := tmpTensor3, tmpTensor4 := tmpTensor4 }

/-- The second part of `HighPerfStrategy::ComputeImpl` (source lines 439 to 452): the square
`x_pow` and the sign factor, from `round_pi_div` in `tmpTensor1`. It leaves `x_pow` in
`tmpTensor2` and the sign factor `sign_1` in `tmpTensor1`. -/
def HighPerfStrategy.signFactor (cast : RoundMode → ℚ → ℚ) (b : Bufs)
    (processDataNum : Nat) : Bufs :=
  let xLocal := b.xLocal
  let yLocal := b.yLocal
  let tmpTensor1 := b.tmpTensor1
  let tmpTensor2 := b.tmpTensor2
  let tmpTensor3 := b.tmpTensor3
  let tmpTensor4 := b.tmpTensor4
  -- x_pow <- x_fixed_9, x_fixed_9
  let tmpTensor2 := Mul tmpTensor2 yLocal yLocal processDataNum
  -- kover2 <- round_pi_div
  let xLocal := Muls xLocal tmpTensor1 0.5 processDataNum
  -- kover2floor <- kover2
  let tmpTensor3 := Cast (cast RoundMode.CAST_FLOOR) tmpTensor3 xLocal processDataNum
  -- kover2floorm4 <- kover2floor
  let xLocal := Muls xLocal tmpTensor3 4 processDataNum
  -- k2 <- round_pi_div
  let tmpTensor3 := Muls tmpTensor3 tmpTensor1 (-2) processDataNum
  -- sign <- kover2floorm4, k2
  let tmpTensor4 := Add tmpTensor4 xLocal tmpTensor3 processDataNum
  -- sign_1 <- sign
  let tmpTensor1 := Adds tmpTensor1 tmpTensor4 1 processDataNum
  { xLocal := xLocal, yLocal := yLocal, tmpTensor1 := tmpTensor1, tmpTensor2 := tmpTensor2,
    tmpTensor3 := tmpTensor3, tmpTensor4 := tmpTensor4 }

/-- The last part of `HighPerfStrategy::ComputeImpl` (source lines 454 to 478): the
polynomial, the multiplication by the sign factor and the clamp. It leaves the result
`res_maxs` in `yLocal`. -/
def HighPerfStrategy.polynomial (b : Bufs) (processDataNum : Nat) : Bufs :=
  let xLocal := b.xLocal
  let yLocal := b.yLocal
  let tmpTensor1 := b.tmpTensor1
  let tmpTensor2 := b.tmpTensor2
  let tmpTensor3 := b.tmpTensor3
  let tmpTensor4 := b.tmpTensor4
  -- res_up <- x_pow
  let tmpTensor3 := Muls tmpTensor3 tmpTensor2 COS_RES_MULIT_SCA processDataNum
  -- res_up_1 <- res_up
  let xLocal := Adds xLocal tmpTensor3 COS_RES_ADDICT_UP processDataNum
  -- res_up_2 <- res_up_1, x_pow
  let tmpTensor3 := Mul tmpTensor3 xLocal tmpTensor2 processDataNum
  -- res_up_3 <- res_up_2
  let xLocal := Adds xLocal tmpTensor3 COS_2ADDS processDataNum
  -- res_up_4 <- res_up_3, x_pow
  let tmpTensor3 := Mul tmpTensor3 xLocal tmpTensor2 processDataNum
  -- res_up_5 <- res_up_4
  let xLocal := Adds xLocal tmpTensor3 COS_3ADDS processDataNum
  -- res_up_6 <- res_up_5, x_pow
  let tmpTensor3 := Mul tmpTensor3 xLocal tmpTensor2 processDataNum
  -- res_up_7 <- res_up_6
  let tmpTensor2 := Adds tmpTensor2 tmpTensor3 1 processDataNum
  -- res_up_8 <- res_up_7, x_fixed_9
  let xLocal := Mul xLocal tmpTensor2 yLocal processDataNum
  -- res_sign <- res_up_8, sign_1
  let yLocal := Mul yLocal xLocal tmpTensor1 processDataNum
  -- res_mins <- res_sign
  let tmpTensor1 := Mins tmpTensor1 yLocal 1 processDataNum
  -- res_maxs <- res_mins
  let yLocal := Maxs yLocal tmpTensor1 (-1) processDataNum
  { xLocal := xLocal, yLocal := yLocal, tmpTensor1 := tmpTensor1, tmpTensor2 := tmpTensor2,
    tmpTensor3 := tmpTensor3, tmpTensor4 := tmpTensor4 }


/-! ## Kernel side: the buffers `KernelCos::Init` requests -/

/-- The constant `BUFFER_NUM` of `op_kernel/cos.cpp`. -/
def BUFFER_NUM : Nat := 2

/-- The pipe (`AscendC::TPipe`) as far as its memory goes: the `InitBuffer` requests made so
far, each a number of buffers and the byte length of one. -/
structure TPipe where
  requested : List (Nat × Nat)
  deriving DecidableEq

/-- The call `pipe->InitBuffer(que, num, len)` for a queue: `num` buffers of `len` bytes. -/
def TPipe.InitBuffer (pipe : TPipe) (num len : Nat) : TPipe :=
  { requested := pipe.requested ++ [(num, len)] }

/-- The call `pipe->InitBuffer(buf, len)` for a `TBuf`: one buffer of `len` bytes. -/
def TPipe.InitBufferTBuf (pipe : TPipe) (len : Nat) : TPipe :=
  { requested := pipe.requested ++ [(1, len)] }

/-- The total number of bytes requested from the pipe. -/
def TPipe.bytes (pipe : TPipe) : Nat :=
  (pipe.requested.map fun r => r.1 * r.2).sum

/-- The size `sizeof(T)` of the kernel element type for an element type of the operator:
4 for `float`, 2 for the 16-bit types. -/
def sizeofT (xType : DataType) : Nat :=
  if xType = DataType.DT_FLOAT then 4 else 2

/-- The method `RefStrategy::InitBufImpl`; `sizeof(float)` is 4. -/
def RefStrategy.InitBufImpl (pipe : TPipe) (tileDataNum : Nat) : TPipe :=
  let pipe := pipe.InitBufferTBuf (tileDataNum * 4)
  pipe.InitBufferTBuf (tileDataNum * 4)

/-- The method `HighPerfStrategy::InitBufImpl`. -/
def HighPerfStrategy.InitBufImpl (pipe : TPipe) (tileDataNum : Nat) : TPipe :=
  let pipe := pipe.InitBufferTBuf (tileDataNum * 4)
  let pipe := pipe.InitBufferTBuf (tileDataNum * 4)
  let pipe := pipe.InitBufferTBuf (tileDataNum * 4)
  pipe.InitBufferTBuf (tileDataNum * 4)

/-- The method `HighPrecStrategy::InitBufImpl`. -/
def HighPrecStrategy.InitBufImpl (pipe : TPipe) (tileDataNum : Nat) : TPipe :=
  let pipe := pipe.InitBufferTBuf (tileDataNum * 4)
  let pipe := pipe.InitBufferTBuf (tileDataNum * 4)
  let pipe := pipe.InitBufferTBuf (tileDataNum * 4)
  pipe.InitBufferTBuf (tileDataNum * 4)

/-- The buffer requests of `KernelCos::Init` (source lines 78 to 84) for the element type
`xType` and the strategy whose `InitBufImpl` is given: the two queues, the two cast buffers
when the element type is not `float`, then the scratch buffers of the strategy. -/
def KernelCos.InitBuffers (xType : DataType) (InitBufImpl : TPipe → Nat → TPipe)
    (tileDataNum : Nat) (pipe : TPipe) : TPipe :=
  let pipe := pipe.InitBuffer BUFFER_NUM (tileDataNum * sizeofT xType)
  let pipe := pipe.InitBuffer BUFFER_NUM (tileDataNum * sizeofT xType)
  let pipe :=
    if xType ≠ DataType.DT_FLOAT then
      (pipe.InitBufferTBuf (tileDataNum * 4)).InitBufferTBuf (tileDataNum * 4)
    else pipe
  InitBufImpl pipe tileDataNum

/-! ## Definitions used to state and exercise the properties -/

/-- A context in which nothing has been written yet. -/
def emptyContext : TilingContext :=
  { blockDim := none, rawTilingData := none, dataSizeSet := false, workspace0 := none }

/-- The context after a successful run that launched `unitCount` units with the tiling
record `t`. -/
def writtenContext (unitCount : Nat) (t : CosTilingData) : TilingContext :=
  { blockDim := some unitCount, rawTilingData := some t, dataSizeSet := true,
    workspace0 := some 0 }

/-- The calls of iteration `j` as the specification words them: offset `j * tileDataNum` and
count `min(tileDataNum, coreDataNum - j * tileDataNum)`. -/
def tileCallsAt (coreDataNum tileDataNum j : Nat) : TileCalls :=
  { copyIn := (j * tileDataNum, min tileDataNum (coreDataNum - j * tileDataNum))
    compute := min tileDataNum (coreDataNum - j * tileDataNum)
    copyOut := (j * tileDataNum, min tileDataNum (coreDataNum - j * tileDataNum)) }

/-- The state in which `KernelCos::Init` leaves the queues and counts: nothing enqueued, a
buffer available in each pool, and 32-bit counts with a non-zero tile size. -/
def KernelCos.ready {T F S : Type} (self : KernelCos T F S) : Prop :=
  self.inQueueX.queue = [] ∧ self.inQueueX.free ≠ [] ∧
  self.outQueueY.queue = [] ∧ self.outQueueY.free ≠ [] ∧
  1 ≤ self.tileDataNum ∧ self.tileDataNum < 4294967296 ∧ self.coreDataNum < 4294967296

/-- The loop invariant of the pipeline: the queues are as at the start, the input view and
the output base are unchanged, and the first `i` elements of the slice are written. -/
def pipelineInv {T F S : Type} (g : T → T) (k0 : KernelCos T F S) (i : Nat)
    (s : KernelCos T F S) : Prop :=
  s.inQueueX.queue = [] ∧ s.inQueueX.free ≠ [] ∧
  s.outQueueY.queue = [] ∧ s.outQueueY.free ≠ [] ∧
  s.xGm = k0.xGm ∧ s.yGm.base = k0.yGm.base ∧
  ∀ j, j < i → s.yGm.mem (k0.yGm.base + j) = g (k0.xGm.mem (k0.xGm.base + j))

/-- An elementwise strategy on integers used to exercise the pipeline: it leaves `xLocal`
and its own state alone and writes `v + 1` for each of the first `n` elements. -/
def exampleStrategy (st : Unit) (xLocal yLocal : LocalTensor Int) (n : Nat) :
    Unit × LocalTensor Int × LocalTensor Int :=
  (st, xLocal, fun j => if j < n then xLocal j + 1 else yLocal j)

/-- A unit of 5 elements starting at index 3, with tiles of 2 elements and two buffers per
queue. -/
def exampleKernel : KernelCos Int Int Unit :=
  { inQueueX := { free := [fun _ => 0, fun _ => 0], queue := [] }
    outQueueY := { free := [fun _ => 0, fun _ => 0], queue := [] }
    xBuf := fun _ => 0
    yBuf := fun _ => 0
    xGm := { mem := fun a => (a : Int), base := 3 }
    yGm := { mem := fun _ => 0, base := 3 }
    coreDataNum := 5
    tileDataNum := 2
    strategy := () }

/-- A conversion used to evaluate the strategies: floor for `CAST_FLOOR`, nearest with ties
away from zero for `CAST_ROUND`, nearest with ties to even for `CAST_RINT`, no change for
`CAST_NONE`. -/
def exactCast : RoundMode → ℚ → ℚ
  | RoundMode.CAST_NONE, q => q
  | RoundMode.CAST_RINT, q =>
    if q - ⌊q⌋ < 1 / 2 then ⌊q⌋
    else if 1 / 2 < q - ⌊q⌋ then ⌊q⌋ + 1
    else if ⌊q⌋ % 2 = 0 then ⌊q⌋ else ⌊q⌋ + 1
  | RoundMode.CAST_FLOOR, q => ⌊q⌋
  | RoundMode.CAST_ROUND, q => if 0 ≤ q then ⌊q + 1 / 2⌋ else ⌈q - 1 / 2⌉

/-- Scratch buffers with arbitrary stale contents. -/
def staleBuffers : HighPerfStrategy :=
  { tmpBuf1 := fun _ => 7, tmpBuf2 := fun _ => 7, tmpBuf3 := fun _ => 7,
    tmpBuf4 := fun _ => 7 }

/-- The rounded multiple of `HighPerfStrategy` as the specification words it:
`k = round(x * PI_FOR_X_TODIV + 0.5)`, with `round` the conversion under `CAST_ROUND`. -/
def highPerfK (cast : RoundMode → ℚ → ℚ) (x : ℚ) : ℚ :=
  cast RoundMode.CAST_ROUND (x * PI_FOR_X_TODIV + 0.5)

/-- The reduced angle of `HighPerfStrategy` in closed form:
`r = x - k * (pi_0 + pi_1 + pi_2 + pi_3) + PI_DOWN + PI_RESDOWN_ADDS_NEG`. -/
def highPerfAngle (k x : ℚ) : ℚ :=
  x - k * (pi_0 + pi_1 + pi_2 + pi_3) + PI_DOWN + PI_RESDOWN_ADDS_NEG

/-- The polynomial of `HighPerfStrategy` in closed form:
`r * (1 + r^2 * (COS_3ADDS + r^2 * (COS_2ADDS + r^2 * (COS_RES_ADDICT_UP
+ r^2 * COS_RES_MULIT_SCA))))`. -/
def highPerfPoly (r : ℚ) : ℚ :=
  r * (1 + r ^ 2 * (COS_3ADDS + r ^ 2 * (COS_2ADDS + r ^ 2 * (COS_RES_ADDICT_UP
    + r ^ 2 * COS_RES_MULIT_SCA))))

/-- The sign of the specification: `+1` for an even integer, `-1` for an odd one. -/
def paritySign (k : ℤ) : ℚ := if k % 2 = 0 then 1 else -1

/-- The cosine Taylor polynomial truncated after the `x^14` term:
the sum over `j = 0..7` of `(-1)^j * r^(2j) / (2j)!`. -/
def taylorCos14 (r : ℚ) : ℚ :=
  ∑ j in Finset.range 8, (-1) ^ j * r ^ (2 * j) / (Nat.factorial (2 * j) : ℚ)

/-- The value among `c, -s, -c, s` the specification selects for the quadrant index `n2`
(`n2 mod 4 = 0, 1, 2, 3`). -/
def quadrantValue {α : Type} [Neg α] (n2 : ℤ) (s c : α) : α :=
  if n2 % 4 = 0 then c else if n2 % 4 = 1 then -s else if n2 % 4 = 2 then -c else s

/-- The sum of the seven-term split of `pi / 2` used by the second reduction stage of
`HighPrecStrategy`. -/
def highPrecPiSplit : ℚ := PI_V4_3 + PI_12 + PI_22 + PI_32 + PI_42 + PI_52 + PI_62

/-- A conversion that takes the floor under every rounding mode. -/
def floorCast (_ : RoundMode) (q : ℚ) : ℚ := ⌊q⌋

/-- Six local tensors holding the same value everywhere. -/
def constBufs (v : ℚ) : Bufs :=
  { xLocal := fun _ => v, yLocal := fun _ => v, tmpTensor1 := fun _ => v,
    tmpTensor2 := fun _ => v, tmpTensor3 := fun _ => v, tmpTensor4 := fun _ => v }

/-! ## Auxiliary facts -/

theorem blockElemNum_cases (xType : DataType) :
    blockElemNum xType = 8 ∨ blockElemNum xType = 16 := by
  unfold blockElemNum xTypeLength BLOCK_SIZE
  split <;> simp

theorem chosenCoreNum_pos (coreNum sqrtTerm : Nat) : 1 ≤ chosenCoreNum coreNum sqrtTerm := by
  unfold chosenCoreNum; omega

theorem inputBlockNum_eq (xType : DataType) (n : Nat) (hn : n < 4294967296) :
    inputBlockNum xType n = (n + blockElemNum xType - 1) / blockElemNum xType := by
  unfold inputBlockNum
  rcases blockElemNum_cases xType with h | h <;> rw [h] <;> simp only [] <;>
    split <;> omega

theorem inputBlockNum_formula (xType : DataType) (n : Nat) (hn : n < 4294967296) :
    inputBlockNum xType n
      = n / blockElemNum xType + (if n % blockElemNum xType ≠ 0 then 1 else 0) := by
  unfold inputBlockNum
  simp only [Nat.mod_eq_of_lt hn]
  apply Nat.mod_eq_of_lt
  rcases blockElemNum_cases xType with h | h <;> rw [h] <;> split <;> omega

theorem sum_ite_lt (a b k : Nat) (c : Nat) :
    (∑ u in Finset.range c, (if u < k then a else b)) = min c k * a + (c - k) * b := by
  induction c with
  | zero => simp
  | succ c ih =>
    rw [Finset.sum_range_succ, ih]
    by_cases h : c < k
    · rw [if_pos h, Nat.min_eq_left (by omega), Nat.min_eq_left (by omega),
        Nat.sub_eq_zero_of_le (by omega), Nat.sub_eq_zero_of_le (by omega)]
      ring
    · rw [if_neg h, Nat.min_eq_right (by omega), Nat.min_eq_right (by omega),
        show c + 1 - k = (c - k) + 1 by omega]
      ring

theorem planner_total (blocks c be : Nat) (hc : 0 < c) :
    (blocks % c) * ((blocks / c) * be + be) + (c - blocks % c) * ((blocks / c) * be)
      = blocks * be := by
  have hr := Nat.mod_lt blocks hc
  have hdm := Nat.div_add_mod blocks c
  generalize blocks % c = r at *
  generalize blocks / c = q at *
  obtain ⟨d, rfl⟩ := Nat.exists_eq_add_of_le hr.le
  rw [Nat.add_sub_cancel_left, ← hdm]
  ring

theorem TilingFunc_success (ubSize coreNum : Nat) (socVersion : SocVersion) (xType : DataType)
    (shapeSize sqrtTerm : Nat) (context result : TilingContext)
    (h : TilingFunc ubSize coreNum socVersion xType shapeSize sqrtTerm context
      = (graphStatus.GRAPH_SUCCESS, result)) :
    result.blockDim = some (chosenCoreNum coreNum sqrtTerm) ∧
      result.rawTilingData
        = some (tilingOf ubSize coreNum socVersion xType shapeSize sqrtTerm) := by
  unfold TilingFunc at h
  split at h
  · simp at h
  · simp only [Prod.mk.injEq, true_and] at h
    subst h
    exact ⟨rfl, rfl⟩

theorem Init_coreDataNum (big small tile bn u : Nat) :
    (KernelCos.Init big small tile bn u).coreDataNum = if u ≤ bn then big else small := by
  unfold KernelCos.Init
  split <;> rfl

theorem wrap32_cast (z : Int) : ((wrap32 z : Nat) : Int) = z % 4294967296 := by
  unfold wrap32
  exact Int.toNat_of_nonneg (Int.emod_nonneg _ (by norm_num))

theorem wrap32_natCast (m : Nat) : wrap32 (m : Int) = m % 4294967296 := by
  unfold wrap32
  omega

theorem wrap32_of_modEq (z : Int) (m : Nat) (h : z ≡ (m : Int) [ZMOD 4294967296]) :
    wrap32 z = m % 4294967296 := by
  have h1 : z % 4294967296 = (m : Int) % 4294967296 := h
  unfold wrap32
  rw [h1]
  omega

theorem Init_globalBufferIndex (big small tile bn u : Nat) :
    (KernelCos.Init big small tile bn u).globalBufferIndex
      = specOffset big small bn u % 4294967296 := by
  unfold KernelCos.Init specOffset
  by_cases hu : u ≤ bn
  · simp only [if_pos hu]
    apply wrap32_of_modEq
    push_cast
    rw [mul_comm]
  · simp only [if_neg hu]
    apply wrap32_of_modEq
    rw [wrap32_cast, wrap32_cast]
    have h1 : ((big : Int) * u) % 4294967296 ≡ (big : Int) * u [ZMOD 4294967296] :=
      Int.mod_modEq _ _
    have h2 : ((big : Int) - small) % 4294967296 ≡ (big : Int) - small [ZMOD 4294967296] :=
      Int.mod_modEq _ _
    have h3 := h1.sub (h2.mul_right ((u : Int) - bn))
    refine h3.trans ?_
    have hu2 : bn ≤ u := by omega
    push_cast [Nat.cast_sub hu2]
    have : (big : Int) * u - ((big : Int) - small) * ((u : Int) - bn)
        = (bn : Int) * big + ((u : Int) - bn) * small := by ring
    rw [this]

/-- The start indices `KernelCos::Init` computes advance by `bigCoreDataNum` after each
unit `u < bigCoreNum` and by `smallCoreDataNum` after each unit `u >= bigCoreNum` (modulo
`2^32`): the offsets lay out `bigCoreNum` big shares followed by small ones. -/
theorem Init_offset_step (big small tile bn u : Nat) :
    (KernelCos.Init big small tile bn (u + 1)).globalBufferIndex
      = ((KernelCos.Init big small tile bn u).globalBufferIndex
          + (if u < bn then big else small)) % 4294967296 := by
  rw [Init_globalBufferIndex, Init_globalBufferIndex, Nat.mod_add_mod]
  congr 1
  unfold specOffset
  by_cases h1 : u < bn
  · rw [if_pos (show u + 1 ≤ bn by omega), if_pos (show u ≤ bn by omega), if_pos h1]
    ring
  · rw [if_neg (show ¬ u + 1 ≤ bn by omega), if_neg h1]
    by_cases h2 : u ≤ bn
    · have hu : u = bn := by omega
      subst hu
      rw [if_pos h2, Nat.add_sub_cancel_left]
      ring
    · rw [if_neg h2, show u + 1 - bn = (u - bn) + 1 by omega]
      ring

theorem KernelCos_min_eq (a b : Nat) : KernelCos.min a b = min a b := by
  unfold KernelCos.min
  split <;> omega

theorem ceil_mul_ge (core tile : Nat) (htile : 1 ≤ tile) :
    core ≤ (core + tile - 1) / tile * tile := by
  have h := Nat.lt_mul_div_succ (core + tile - 1) (show 0 < tile by omega)
  rw [Nat.mul_succ, Nat.mul_comm] at h
  omega

/-- The loop of `KernelCos::Process` under an invariant `P` indexed by the number of
elements already handled: with enough fuel it returns, and the invariant holds for
`coreDataNum`. -/
theorem Process_loop_spec {σ : Type} (body : Nat → Nat → σ → Option σ)
    (core tile : Nat) (P : Nat → σ → Prop)
    (htile : 1 ≤ tile) (hc32 : core < 4294967296) (ht32 : tile < 4294967296)
    (hbody : ∀ i s, i < core → P i s →
      ∃ s1, body i (min tile (core - i)) s = some s1 ∧ P (min (i + tile) core) s1) :
    ∀ (fuel i : Nat) (s : σ), i < core + tile → core ≤ i + fuel * tile → P (min i core) s →
      ∃ s1, KernelCos.Process.loop body core tile fuel i s = some s1 ∧ P core s1 := by
  intro fuel
  induction fuel with
  | zero =>
    intro i s _ hfuel hP
    have hle : core ≤ i := by omega
    refine ⟨s, ?_, ?_⟩
    · simp only [KernelCos.Process.loop, if_neg (Nat.not_lt.mpr hle)]
    · rwa [Nat.min_eq_right hle] at hP
  | succ fuel ih =>
    intro i s hi hfuel hP
    by_cases hlt : i < core
    · rw [Nat.min_eq_left hlt.le] at hP
      obtain ⟨s1, hs1, hP1⟩ := hbody i s hlt hP
      have hp : KernelCos.min tile (core - i) % 4294967296 = min tile (core - i) := by
        rw [KernelCos_min_eq]
        exact Nat.mod_eq_of_lt (by omega)
      have hnext : (i + tile) % 18446744073709551616 = i + tile :=
        Nat.mod_eq_of_lt (by omega)
      have hfuel1 : core ≤ i + tile + fuel * tile := by
        rw [Nat.succ_mul] at hfuel
        omega
      obtain ⟨s2, hs2, hP2⟩ := ih (i + tile) s1 (by omega) hfuel1 hP1
      refine ⟨s2, ?_, hP2⟩
      simp only [KernelCos.Process.loop, if_pos hlt, hp, hs1, hnext, hs2]
    · have hle : core ≤ i := Nat.not_lt.mp hlt
      refine ⟨s, ?_, ?_⟩
      · simp only [KernelCos.Process.loop, if_neg hlt]
      · rwa [Nat.min_eq_right hle] at hP

/-! ## The partition planner and the slice selection -/

theorem tilingOf_fields (ubSize coreNum : Nat) (socVersion : SocVersion) (xType : DataType)
    (n sqrtTerm : Nat)
    (hwrap : inputBlockNum xType n / chosenCoreNum coreNum sqrtTerm * blockElemNum xType
      + blockElemNum xType < 4294967296) :
    (tilingOf ubSize coreNum socVersion xType n sqrtTerm).smallCoreDataNum
        = inputBlockNum xType n / chosenCoreNum coreNum sqrtTerm * blockElemNum xType ∧
    (tilingOf ubSize coreNum socVersion xType n sqrtTerm).bigCoreDataNum
        = inputBlockNum xType n / chosenCoreNum coreNum sqrtTerm * blockElemNum xType
          + blockElemNum xType ∧
    (tilingOf ubSize coreNum socVersion xType n sqrtTerm).bigCoreNum
        = inputBlockNum xType n % chosenCoreNum coreNum sqrtTerm := by
  have h1 : inputBlockNum xType n / chosenCoreNum coreNum sqrtTerm * blockElemNum xType
      % 4294967296
      = inputBlockNum xType n / chosenCoreNum coreNum sqrtTerm * blockElemNum xType :=
    Nat.mod_eq_of_lt (by omega)
  refine ⟨?_, ?_, ?_⟩
  · simp only [tilingOf, h1]
  · simp only [tilingOf, h1]
    exact Nat.mod_eq_of_lt hwrap
  · simp only [tilingOf]

/-- C1 (as amended): the element counts `KernelCos::Init` selects for the launched units other
than unit `bigCoreNum`, together with one `smallCoreDataNum`, add up to the element count
rounded up to a whole 32-byte block, and to the element count itself when `blockElemNum`
divides it. -/
theorem partition_sum_padded (ubSize coreNum : Nat) (socVersion : SocVersion)
    (xType : DataType) (n sqrtTerm : Nat) (context result : TilingContext)
    (t : CosTilingData) (unitCount : Nat)
    (hn : n < 4294967296)
    (hwrap : inputBlockNum xType n / chosenCoreNum coreNum sqrtTerm * blockElemNum xType
      + blockElemNum xType < 4294967296)
    (h : TilingFunc ubSize coreNum socVersion xType n sqrtTerm context
      = (graphStatus.GRAPH_SUCCESS, result))
    (ht : result.rawTilingData = some t) (hc : result.blockDim = some unitCount) :
    (∑ u in (Finset.range unitCount).erase t.bigCoreNum, (unitSlice t u).coreDataNum)
        + t.smallCoreDataNum
      = (n + blockElemNum xType - 1) / blockElemNum xType * blockElemNum xType ∧
    (blockElemNum xType ∣ n →
      (∑ u in (Finset.range unitCount).erase t.bigCoreNum, (unitSlice t u).coreDataNum)
        + t.smallCoreDataNum = n) := by
  obtain ⟨hb, hr⟩ := TilingFunc_success _ _ _ _ _ _ _ _ h
  rw [hb] at hc
  rw [hr] at ht
  simp only [Option.some.injEq] at hc ht
  subst hc
  subst ht
  obtain ⟨hs, hbig, hbn⟩ := tilingOf_fields ubSize coreNum socVersion xType n sqrtTerm hwrap
  have hpos := chosenCoreNum_pos coreNum sqrtTerm
  have hlt : (tilingOf ubSize coreNum socVersion xType n sqrtTerm).bigCoreNum
      < chosenCoreNum coreNum sqrtTerm := by
    rw [hbn]; exact Nat.mod_lt _ hpos
  have hsum : (∑ u in (Finset.range (chosenCoreNum coreNum sqrtTerm)).erase
        (tilingOf ubSize coreNum socVersion xType n sqrtTerm).bigCoreNum,
        (unitSlice (tilingOf ubSize coreNum socVersion xType n sqrtTerm) u).coreDataNum)
        + (tilingOf ubSize coreNum socVersion xType n sqrtTerm).smallCoreDataNum
      = (n + blockElemNum xType - 1) / blockElemNum xType * blockElemNum xType := by
    have hcongr : (∑ u in (Finset.range (chosenCoreNum coreNum sqrtTerm)).erase
          (tilingOf ubSize coreNum socVersion xType n sqrtTerm).bigCoreNum,
          (unitSlice (tilingOf ubSize coreNum socVersion xType n sqrtTerm) u).coreDataNum)
        = ∑ u in (Finset.range (chosenCoreNum coreNum sqrtTerm)).erase
          (tilingOf ubSize coreNum socVersion xType n sqrtTerm).bigCoreNum,
          (if u < (tilingOf ubSize coreNum socVersion xType n sqrtTerm).bigCoreNum
            then (tilingOf ubSize coreNum socVersion xType n sqrtTerm).bigCoreDataNum
            else (tilingOf ubSize coreNum socVersion xType n sqrtTerm).smallCoreDataNum) := by
      apply Finset.sum_congr rfl
      intro u hu
      have hne : u ≠ (tilingOf ubSize coreNum socVersion xType n sqrtTerm).bigCoreNum :=
        Finset.ne_of_mem_erase hu
      unfold unitSlice
      rw [Init_coreDataNum]
      by_cases hle : u ≤ (tilingOf ubSize coreNum socVersion xType n sqrtTerm).bigCoreNum
      · rw [if_pos hle, if_pos (by omega)]
      · rw [if_neg hle, if_neg (by omega)]
    have hadd := Finset.sum_erase_add (Finset.range (chosenCoreNum coreNum sqrtTerm))
      (fun u => if u < (tilingOf ubSize coreNum socVersion xType n sqrtTerm).bigCoreNum
        then (tilingOf ubSize coreNum socVersion xType n sqrtTerm).bigCoreDataNum
        else (tilingOf ubSize coreNum socVersion xType n sqrtTerm).smallCoreDataNum)
      (Finset.mem_range.mpr hlt)
    simp only [lt_self_iff_false, if_false] at hadd
    rw [hcongr, hadd, sum_ite_lt, Nat.min_eq_right hlt.le, hs, hbig, hbn,
      planner_total _ _ _ hpos, inputBlockNum_eq xType n hn]
  refine ⟨hsum, fun hdvd => ?_⟩
  rw [hsum]
  obtain ⟨k, hk⟩ := hdvd
  rcases blockElemNum_cases xType with hbe | hbe <;> rw [hbe] at hk ⊢ <;> omega

/-- Witness for `partition_sum_padded`: 100 single-precision elements on a platform with 8
cores (13 blocks, `sqrt(0.4 * 13)` truncates to 2, so 2 units). -/
theorem partition_sum_padded_witness :
    (100 < 4294967296) ∧
    (inputBlockNum DataType.DT_FLOAT 100 / chosenCoreNum 8 2 * blockElemNum DataType.DT_FLOAT
      + blockElemNum DataType.DT_FLOAT < 4294967296) ∧
    (TilingFunc 196608 8 SocVersion.ASCEND910B DataType.DT_FLOAT 100 2 emptyContext
      = (graphStatus.GRAPH_SUCCESS,
          writtenContext 2 ⟨56, 48, 6144, 1⟩)) ∧
    ((∑ u in (Finset.range 2).erase (CosTilingData.mk 56 48 6144 1).bigCoreNum,
          (unitSlice ⟨56, 48, 6144, 1⟩ u).coreDataNum)
        + (CosTilingData.mk 56 48 6144 1).smallCoreDataNum
      = (100 + blockElemNum DataType.DT_FLOAT - 1) / blockElemNum DataType.DT_FLOAT
          * blockElemNum DataType.DT_FLOAT ∧
    (blockElemNum DataType.DT_FLOAT ∣ 100 →
      (∑ u in (Finset.range 2).erase (CosTilingData.mk 56 48 6144 1).bigCoreNum,
          (unitSlice ⟨56, 48, 6144, 1⟩ u).coreDataNum)
        + (CosTilingData.mk 56 48 6144 1).smallCoreDataNum = 100)) :=
  ⟨by decide, by decide, by decide,
    partition_sum_padded 196608 8 SocVersion.ASCEND910B DataType.DT_FLOAT 100 2 emptyContext
      (writtenContext 2 ⟨56, 48, 6144, 1⟩) ⟨56, 48, 6144, 1⟩ 2 (by decide) (by decide) (by decide) rfl rfl⟩

/-- C1 (counterexample): for one single-precision element on one core the tiling function
launches one unit, and the element count `KernelCos::Init` selects for it is 16, not 1. -/
theorem partition_sum_counterexample :
    TilingFunc 196608 1 SocVersion.ASCEND910B DataType.DT_FLOAT 1 0 emptyContext
      = (graphStatus.GRAPH_SUCCESS,
          writtenContext 1 ⟨16, 8, 6144, 0⟩) ∧
    (∑ u in Finset.range 1, (unitSlice ⟨16, 8, 6144, 0⟩ u).coreDataNum) = 16 ∧
    ¬ ((∑ u in Finset.range 1, (unitSlice ⟨16, 8, 6144, 0⟩ u).coreDataNum) = 1) := by
  refine ⟨by decide, by decide, by decide⟩

/-- C2 (the code at the failing input): 96 single-precision elements on two cores (12
blocks, `sqrt(0.4 * 12)` truncates to 2). Unit 0 is given 56 elements from index 0 and unit 1
starts at index 48: the slices overlap on the indices 48 to 55. -/
theorem slices_overlap_at_bigCoreNum :
    TilingFunc 196608 2 SocVersion.ASCEND910B DataType.DT_FLOAT 96 2 emptyContext
      = (graphStatus.GRAPH_SUCCESS,
          writtenContext 2 ⟨56, 48, 6144, 0⟩) ∧
    unitSlice ⟨56, 48, 6144, 0⟩ 0 = ⟨0, 56, 6144⟩ ∧
    unitSlice ⟨56, 48, 6144, 0⟩ 1 = ⟨48, 48, 6144⟩ ∧
    (unitSlice ⟨56, 48, 6144, 0⟩ 1).globalBufferIndex
      ≠ (unitSlice ⟨56, 48, 6144, 0⟩ 0).globalBufferIndex
        + (unitSlice ⟨56, 48, 6144, 0⟩ 0).coreDataNum := by
  refine ⟨by decide, by decide, by decide, by decide⟩

/-- C3: when no 32-bit operation wraps, the record written by `TilingFunc` satisfies
`bigCoreNum * bigCoreDataNum + (unitCount - bigCoreNum) * smallCoreDataNum =
ceil(n / blockElems) * blockElems` and `bigCoreDataNum - smallCoreDataNum = blockElems`,
with `unitCount` the value passed to `SetBlockDim`. -/
theorem descriptor_invariant (ubSize coreNum : Nat) (socVersion : SocVersion)
    (xType : DataType) (n sqrtTerm : Nat) (context result : TilingContext)
    (t : CosTilingData) (unitCount : Nat)
    (hn : n < 4294967296)
    (hwrap : inputBlockNum xType n / chosenCoreNum coreNum sqrtTerm * blockElemNum xType
      + blockElemNum xType < 4294967296)
    (h : TilingFunc ubSize coreNum socVersion xType n sqrtTerm context
      = (graphStatus.GRAPH_SUCCESS, result))
    (ht : result.rawTilingData = some t) (hc : result.blockDim = some unitCount) :
    t.bigCoreNum * t.bigCoreDataNum + (unitCount - t.bigCoreNum) * t.smallCoreDataNum
      = (n + blockElemNum xType - 1) / blockElemNum xType * blockElemNum xType ∧
    t.bigCoreDataNum - t.smallCoreDataNum = blockElemNum xType := by
  obtain ⟨hb, hr⟩ := TilingFunc_success _ _ _ _ _ _ _ _ h
  rw [hb] at hc
  rw [hr] at ht
  simp only [Option.some.injEq] at hc ht
  subst hc
  subst ht
  obtain ⟨hs, hbig, hbn⟩ := tilingOf_fields ubSize coreNum socVersion xType n sqrtTerm hwrap
  rw [hs, hbig, hbn, planner_total _ _ _ (chosenCoreNum_pos coreNum sqrtTerm),
    inputBlockNum_eq xType n hn]
  exact ⟨rfl, by omega⟩

/-- Witness for `descriptor_invariant`: 100 single-precision elements, 8 cores. -/
theorem descriptor_invariant_witness :
    (100 < 4294967296) ∧
    (inputBlockNum DataType.DT_FLOAT 100 / chosenCoreNum 8 2 * blockElemNum DataType.DT_FLOAT
      + blockElemNum DataType.DT_FLOAT < 4294967296) ∧
    (TilingFunc 196608 8 SocVersion.ASCEND910B DataType.DT_FLOAT 100 2 emptyContext
      = (graphStatus.GRAPH_SUCCESS,
          writtenContext 2 ⟨56, 48, 6144, 1⟩)) ∧
    ((CosTilingData.mk 56 48 6144 1).bigCoreNum * (CosTilingData.mk 56 48 6144 1).bigCoreDataNum
        + (2 - (CosTilingData.mk 56 48 6144 1).bigCoreNum)
          * (CosTilingData.mk 56 48 6144 1).smallCoreDataNum
      = (100 + blockElemNum DataType.DT_FLOAT - 1) / blockElemNum DataType.DT_FLOAT
          * blockElemNum DataType.DT_FLOAT ∧
    (CosTilingData.mk 56 48 6144 1).bigCoreDataNum
        - (CosTilingData.mk 56 48 6144 1).smallCoreDataNum
      = blockElemNum DataType.DT_FLOAT) :=
  ⟨by decide, by decide, by decide,
    descriptor_invariant 196608 8 SocVersion.ASCEND910B DataType.DT_FLOAT 100 2 emptyContext
      (writtenContext 2 ⟨56, 48, 6144, 1⟩) ⟨56, 48, 6144, 1⟩ 2 (by decide) (by decide) (by decide) rfl rfl⟩

/-- C4: the unit count `TilingFunc` passes to `SetBlockDim` lies between 1 and the platform
core count, whatever the truncated square root is, and it is 1 when that term is 0. -/
theorem unit_count_bound (ubSize coreNum : Nat) (socVersion : SocVersion)
    (xType : DataType) (n sqrtTerm : Nat) (context result : TilingContext) (unitCount : Nat)
    (hcore : 1 ≤ coreNum)
    (h : TilingFunc ubSize coreNum socVersion xType n sqrtTerm context
      = (graphStatus.GRAPH_SUCCESS, result))
    (hc : result.blockDim = some unitCount) :
    1 ≤ unitCount ∧ unitCount ≤ coreNum ∧ (sqrtTerm = 0 → unitCount = 1) := by
  obtain ⟨hb, _⟩ := TilingFunc_success _ _ _ _ _ _ _ _ h
  rw [hb] at hc
  simp only [Option.some.injEq] at hc
  subst hc
  unfold chosenCoreNum
  refine ⟨by omega, by omega, fun h0 => ?_⟩
  subst h0
  simp

/-- Witness for `unit_count_bound`: one half-precision element on 8 cores, square-root term
0. -/
theorem unit_count_bound_witness :
    (1 ≤ 8) ∧
    (TilingFunc 196608 8 SocVersion.ASCEND310P DataType.DT_FLOAT16 1 0 emptyContext
      = (graphStatus.GRAPH_SUCCESS,
          writtenContext 1 ⟨32, 16, 8192, 0⟩)) ∧
    (1 ≤ 1 ∧ 1 ≤ 8 ∧ (0 = 0 → 1 = 1)) :=
  ⟨by decide, by decide,
    unit_count_bound 196608 8 SocVersion.ASCEND310P DataType.DT_FLOAT16 1 0 emptyContext
      (writtenContext 1 ⟨32, 16, 8192, 0⟩) 1 (by decide) (by decide) rfl⟩

/-- C5: `TilingFunc` fails exactly when the element type is `DT_BF16` and the platform is not
`ASCEND910B`, succeeds for every other pair, and on failure leaves the context as it
found it: no tiling field, block dimension, data size or workspace size is written. -/
theorem prelaunch_validation (ubSize coreNum : Nat) (socVersion : SocVersion)
    (xType : DataType) (n sqrtTerm : Nat) (context : TilingContext) :
    ((TilingFunc ubSize coreNum socVersion xType n sqrtTerm context).1
        = graphStatus.GRAPH_FAILED
      ↔ (xType = DataType.DT_BF16 ∧ socVersion ≠ SocVersion.ASCEND910B)) ∧
    ((TilingFunc ubSize coreNum socVersion xType n sqrtTerm context).1
        = graphStatus.GRAPH_SUCCESS
      ↔ ¬ (xType = DataType.DT_BF16 ∧ socVersion ≠ SocVersion.ASCEND910B)) ∧
    ((TilingFunc ubSize coreNum socVersion xType n sqrtTerm context).1
        = graphStatus.GRAPH_FAILED
      → (TilingFunc ubSize coreNum socVersion xType n sqrtTerm context).2 = context) := by
  unfold TilingFunc
  by_cases hg : socVersion ≠ SocVersion.ASCEND910B ∧ xType = DataType.DT_BF16
  · rw [if_pos hg]
    exact ⟨⟨fun _ => ⟨hg.2, hg.1⟩, fun _ => rfl⟩,
      ⟨fun hs => by simp at hs, fun hn => absurd ⟨hg.2, hg.1⟩ hn⟩, fun _ => rfl⟩
  · rw [if_neg hg]
    exact ⟨⟨fun hs => by simp at hs, fun hn => absurd ⟨hn.2, hn.1⟩ hg⟩,
      ⟨fun _ hn => hg ⟨hn.2, hn.1⟩, fun _ => rfl⟩, fun hs => by simp at hs⟩

/-- C6: when no 32-bit operation wraps, `TilingFunc` writes
`smallCoreDataNum = floor(unitBlocks / unitCount) * blockElems`,
`bigCoreNum = unitBlocks mod unitCount`, `bigCoreDataNum = smallCoreDataNum + blockElems`
and `tileDataNum = floor(floor(ubSize / 32) / k) * blockElems`, where
`blockElems = 32 / w`, `unitBlocks = n / blockElems + (n % blockElems != 0) =
ceil(n / blockElems)`, `k` is the scratch multiplier and `unitCount` the value passed to
`SetBlockDim`. -/
theorem planner_formulas (ubSize coreNum : Nat) (socVersion : SocVersion)
    (xType : DataType) (n sqrtTerm : Nat) (context result : TilingContext)
    (t : CosTilingData) (unitCount : Nat)
    (hn : n < 4294967296)
    (hwrap : inputBlockNum xType n / chosenCoreNum coreNum sqrtTerm * blockElemNum xType
      + blockElemNum xType < 4294967296)
    (htile : ubSize / 32 / ubTileNum socVersion xType * (32 / xTypeLength xType)
      < 4294967296)
    (h : TilingFunc ubSize coreNum socVersion xType n sqrtTerm context
      = (graphStatus.GRAPH_SUCCESS, result))
    (ht : result.rawTilingData = some t) (hc : result.blockDim = some unitCount) :
    (n / (32 / xTypeLength xType) + (if n % (32 / xTypeLength xType) ≠ 0 then 1 else 0)
      = (n + 32 / xTypeLength xType - 1) / (32 / xTypeLength xType)) ∧
    t.smallCoreDataNum
      = (n / (32 / xTypeLength xType) + (if n % (32 / xTypeLength xType) ≠ 0 then 1 else 0))
          / unitCount * (32 / xTypeLength xType) ∧
    t.bigCoreNum
      = (n / (32 / xTypeLength xType) + (if n % (32 / xTypeLength xType) ≠ 0 then 1 else 0))
          % unitCount ∧
    t.bigCoreDataNum = t.smallCoreDataNum + 32 / xTypeLength xType ∧
    t.tileDataNum = ubSize / 32 / ubTileNum socVersion xType * (32 / xTypeLength xType) := by
  obtain ⟨hb, hr⟩ := TilingFunc_success _ _ _ _ _ _ _ _ h
  rw [hb] at hc
  rw [hr] at ht
  simp only [Option.some.injEq] at hc ht
  subst hc
  subst ht
  obtain ⟨hs, hbig, hbn⟩ := tilingOf_fields ubSize coreNum socVersion xType n sqrtTerm hwrap
  have hbe : blockElemNum xType = 32 / xTypeLength xType := rfl
  have hf := inputBlockNum_formula xType n hn
  have he := inputBlockNum_eq xType n hn
  rw [hbe] at hf he hs hbig
  rw [hf] at hs hbig hbn he
  refine ⟨he, hs, hbn, by rw [hbig, hs], ?_⟩
  have hpos : 0 < 32 / xTypeLength xType := by
    rcases blockElemNum_cases xType with hh | hh <;> rw [hbe] at hh <;> omega
  have hlt : ubSize / 32 / ubTileNum socVersion xType < 4294967296 :=
    lt_of_le_of_lt (Nat.le_mul_of_pos_right _ hpos) htile
  simp only [tilingOf, BLOCK_SIZE, hbe, Nat.mod_eq_of_lt hlt, Nat.mod_eq_of_lt htile]

/-- Witness for `planner_formulas`: 100 single-precision elements, 8 cores, 192 KiB of fast
memory. -/
theorem planner_formulas_witness :
    (100 < 4294967296) ∧
    (inputBlockNum DataType.DT_FLOAT 100 / chosenCoreNum 8 2 * blockElemNum DataType.DT_FLOAT
      + blockElemNum DataType.DT_FLOAT < 4294967296) ∧
    (196608 / 32 / ubTileNum SocVersion.ASCEND910B DataType.DT_FLOAT
      * (32 / xTypeLength DataType.DT_FLOAT) < 4294967296) ∧
    (TilingFunc 196608 8 SocVersion.ASCEND910B DataType.DT_FLOAT 100 2 emptyContext
      = (graphStatus.GRAPH_SUCCESS,
          writtenContext 2 ⟨56, 48, 6144, 1⟩)) ∧
    (CosTilingData.mk 56 48 6144 1).tileDataNum
      = 196608 / 32 / ubTileNum SocVersion.ASCEND910B DataType.DT_FLOAT
          * (32 / xTypeLength DataType.DT_FLOAT) :=
  ⟨by decide, by decide, by decide, by decide,
    (planner_formulas 196608 8 SocVersion.ASCEND910B DataType.DT_FLOAT 100 2 emptyContext
      (writtenContext 2 ⟨56, 48, 6144, 1⟩) ⟨56, 48, 6144, 1⟩ 2 (by decide) (by decide) (by decide) (by decide) rfl rfl).2.2.2.2⟩

/-- C7: the start index `KernelCos::Init` computes in 32-bit arithmetic is the
specification's offset formula modulo `2^32`, and the element count is `bigCoreDataNum` for
`u <= bigCoreNum` and `smallCoreDataNum` otherwise. -/
theorem per_unit_offset (bigCoreDataNum smallCoreDataNum tileDataNum bigCoreNum u : Nat) :
    (KernelCos.Init bigCoreDataNum smallCoreDataNum tileDataNum bigCoreNum u).globalBufferIndex
      = specOffset bigCoreDataNum smallCoreDataNum bigCoreNum u % 4294967296 ∧
    (KernelCos.Init bigCoreDataNum smallCoreDataNum tileDataNum bigCoreNum u).coreDataNum
      = specCount bigCoreDataNum smallCoreDataNum bigCoreNum u :=
  ⟨Init_globalBufferIndex _ _ _ _ _, by rw [Init_coreDataNum]; rfl⟩

/-! ## The tile loop and the write-back -/

theorem ceil_eq_succ (tile j m : Nat) (h1 : j * tile < m) (h2 : m ≤ j * tile + tile) :
    (m + tile - 1) / tile = j + 1 := by
  apply Nat.div_eq_of_lt_le
  · rw [Nat.succ_mul]; omega
  · rw [Nat.succ_mul, Nat.succ_mul]; omega

theorem ceil_of_mul (tile j : Nat) (htile : 1 ≤ tile) :
    (j * tile + tile - 1) / tile = j := by
  apply Nat.div_eq_of_lt_le
  · omega
  · rw [Nat.succ_mul]; omega

theorem lt_ceil_iff (core tile j : Nat) (htile : 1 ≤ tile) :
    j < (core + tile - 1) / tile ↔ j * tile < core := by
  rw [Nat.lt_iff_add_one_le, Nat.le_div_iff_mul_le (by omega), Nat.succ_mul]
  omega

theorem Process_calls_eq (core tile fuel : Nat)
    (htile : 1 ≤ tile) (hc32 : core < 4294967296) (ht32 : tile < 4294967296)
    (hfuel : (core + tile - 1) / tile ≤ fuel) :
    KernelCos.Process.calls fuel core tile
      = some ((List.range ((core + tile - 1) / tile)).map (tileCallsAt core tile)) := by
  have hspec := Process_loop_spec KernelCos.Process.record
    core tile
    (fun i tr => (i = core ∨ ∃ j, i = j * tile) ∧
      tr = (List.range ((i + tile - 1) / tile)).map (tileCallsAt core tile))
    htile hc32 ht32
    (by
      intro i tr hi hP
      obtain ⟨hmul, htr⟩ := hP
      obtain ⟨j, hj⟩ : ∃ j, i = j * tile := by
        rcases hmul with h | h
        · omega
        · exact h
      refine ⟨_, rfl, ?_, ?_⟩
      · by_cases hle : i + tile ≤ core
        · right
          exact ⟨j + 1, by rw [Nat.min_eq_left hle, Nat.succ_mul, hj]⟩
        · left
          exact Nat.min_eq_right (by omega)
      · have hceil : (min (i + tile) core + tile - 1) / tile = j + 1 := by
          apply ceil_eq_succ
          · rw [← hj]; omega
          · rw [← hj]; omega
        rw [hceil, List.range_succ, List.map_append, htr, hj, ceil_of_mul tile j htile]
        rfl)
    fuel 0 []
    (by omega)
    (by
      have h1 := ceil_mul_ge core tile htile
      have h2 := Nat.mul_le_mul_right tile hfuel
      omega)
    (by
      refine ⟨Or.inr ⟨0, by simp⟩, ?_⟩
      have h0 : (min 0 core + tile - 1) / tile = 0 := by
        rw [Nat.zero_min]
        exact Nat.div_eq_of_lt (by omega)
      rw [h0]
      rfl)
  obtain ⟨tr, htr, _, hfinal⟩ := hspec
  unfold KernelCos.Process.calls
  rw [htr, hfinal]

/-- C8: with `tileDataNum >= 1`, `KernelCos::Process` performs exactly
`ceil(coreDataNum / tileDataNum)` iterations; iteration `j` calls `CopyIn`, `Compute` and
`CopyOut` with offset `j * tileDataNum` and count
`min(tileDataNum, coreDataNum - j * tileDataNum)`; the ranges of successive iterations are
in increasing order, pairwise disjoint, and their union is `[0, coreDataNum)`. -/
theorem tile_loop_coverage (coreDataNum tileDataNum fuel : Nat)
    (htile : 1 ≤ tileDataNum) (hc32 : coreDataNum < 4294967296)
    (ht32 : tileDataNum < 4294967296)
    (hfuel : (coreDataNum + tileDataNum - 1) / tileDataNum ≤ fuel) :
    KernelCos.Process.calls fuel coreDataNum tileDataNum
      = some ((List.range ((coreDataNum + tileDataNum - 1) / tileDataNum)).map
          (tileCallsAt coreDataNum tileDataNum)) ∧
    ((List.range ((coreDataNum + tileDataNum - 1) / tileDataNum)).map
          (tileCallsAt coreDataNum tileDataNum)).length
      = (coreDataNum + tileDataNum - 1) / tileDataNum ∧
    (∀ j k, j < k → k < (coreDataNum + tileDataNum - 1) / tileDataNum →
      (tileCallsAt coreDataNum tileDataNum j).copyIn.1
          + (tileCallsAt coreDataNum tileDataNum j).copyIn.2
        ≤ (tileCallsAt coreDataNum tileDataNum k).copyIn.1) ∧
    (∀ i, i < coreDataNum ↔
      ∃ j, j < (coreDataNum + tileDataNum - 1) / tileDataNum ∧
        (tileCallsAt coreDataNum tileDataNum j).copyIn.1 ≤ i ∧
        i < (tileCallsAt coreDataNum tileDataNum j).copyIn.1
              + (tileCallsAt coreDataNum tileDataNum j).copyIn.2) := by
  refine ⟨Process_calls_eq _ _ _ htile hc32 ht32 hfuel, by simp, ?_, ?_⟩
  · intro j k hjk _
    simp only [tileCallsAt]
    have h1 : (j + 1) * tileDataNum ≤ k * tileDataNum := Nat.mul_le_mul_right _ hjk
    rw [Nat.succ_mul] at h1
    omega
  · intro i
    simp only [tileCallsAt]
    constructor
    · intro hi
      refine ⟨i / tileDataNum, ?_, Nat.div_mul_le_self _ _, ?_⟩
      · rw [lt_ceil_iff _ _ _ htile]
        exact lt_of_le_of_lt (Nat.div_mul_le_self _ _) hi
      · have h1 := Nat.lt_mul_div_succ i (show 0 < tileDataNum by omega)
        rw [Nat.mul_succ, Nat.mul_comm] at h1
        have h2 := Nat.div_mul_le_self i tileDataNum
        omega
    · rintro ⟨j, hj, _, h2⟩
      rw [lt_ceil_iff _ _ _ htile] at hj
      omega

/-- Witness for `tile_loop_coverage`: 100 elements in tiles of 48. -/
theorem tile_loop_coverage_witness :
    (1 ≤ 48) ∧ (100 < 4294967296) ∧ (48 < 4294967296) ∧ ((100 + 48 - 1) / 48 ≤ 3) ∧
    KernelCos.Process.calls 3 100 48
      = some ((List.range ((100 + 48 - 1) / 48)).map (tileCallsAt 100 48)) :=
  ⟨by decide, by decide, by decide, by decide,
    (tile_loop_coverage 100 48 3 (by decide) (by decide) (by decide) (by decide)).1⟩

theorem pipeline_body {T F S : Type} (up : T → F) (down : F → T) (f : F → F)
    (ComputeImpl : S → LocalTensor F → LocalTensor F → Nat → S × LocalTensor F × LocalTensor F)
    (hf : ∀ st xL yL p j, j < p → (ComputeImpl st xL yL p).2.2 j = f (xL j))
    (k0 : KernelCos T F S) (core tile i : Nat) (s : KernelCos T F S)
    (hi : i < core) (hP : pipelineInv (fun v => down (f (up v))) k0 i s) :
    ∃ s1, ((KernelCos.CopyIn i (min tile (core - i)) s).bind fun s =>
        (KernelCos.Compute up down ComputeImpl (min tile (core - i)) s).bind fun s =>
        KernelCos.CopyOut i (min tile (core - i)) s) = some s1 ∧
      pipelineInv (fun v => down (f (up v))) k0 (min (i + tile) core) s1 := by
  obtain ⟨hq1, hf1, hq2, hf2, hx, hy, hdone⟩ := hP
  obtain ⟨b1, rest1, hb1⟩ := List.exists_cons_of_ne_nil hf1
  obtain ⟨b2, rest2, hb2⟩ := List.exists_cons_of_ne_nil hf2
  simp only [KernelCos.CopyIn, TQue.AllocTensor, hb1, TQue.EnQue, hq1, List.nil_append,
    Option.bind, KernelCos.Compute, TQue.DeQue, TQue.FreeTensor, hb2,
    KernelCos.CopyOut, hq2]
  refine ⟨_, rfl, ?_⟩
  · refine ⟨rfl, by simp, rfl, by simp, hx, hy, ?_⟩
    intro j hj
    simp only [GlobalTensor.DataCopy, Cast, DataCopy, GlobalTensor.index, hy, hx]
    by_cases hji : j < i
    · rw [if_neg (by omega)]
      exact hdone j hji
    · have hlt : j - i < min tile (core - i) := by omega
      rw [if_pos (by omega), show k0.yGm.base + j - (k0.yGm.base + i) = j - i by omega,
        if_pos hlt, hf _ _ _ _ _ hlt]
      simp only [Cast, DataCopy, GlobalTensor.index, if_pos hlt]
      rw [show k0.xGm.base + i + (j - i) = k0.xGm.base + j by omega]

theorem pipeline_body_float {F S : Type} (f : F → F)
    (ComputeImpl : S → LocalTensor F → LocalTensor F → Nat → S × LocalTensor F × LocalTensor F)
    (hf : ∀ st xL yL p j, j < p → (ComputeImpl st xL yL p).2.2 j = f (xL j))
    (k0 : KernelCos F F S) (core tile i : Nat) (s : KernelCos F F S)
    (hi : i < core) (hP : pipelineInv f k0 i s) :
    ∃ s1, ((KernelCos.CopyIn i (min tile (core - i)) s).bind fun s =>
        (KernelCos.ComputeFloat ComputeImpl (min tile (core - i)) s).bind fun s =>
        KernelCos.CopyOut i (min tile (core - i)) s) = some s1 ∧
      pipelineInv f k0 (min (i + tile) core) s1 := by
  obtain ⟨hq1, hf1, hq2, hf2, hx, hy, hdone⟩ := hP
  obtain ⟨b1, rest1, hb1⟩ := List.exists_cons_of_ne_nil hf1
  obtain ⟨b2, rest2, hb2⟩ := List.exists_cons_of_ne_nil hf2
  simp only [KernelCos.CopyIn, TQue.AllocTensor, hb1, TQue.EnQue, hq1, List.nil_append,
    Option.bind, KernelCos.ComputeFloat, TQue.DeQue, TQue.FreeTensor, hb2,
    KernelCos.CopyOut, hq2]
  refine ⟨_, rfl, ?_⟩
  refine ⟨rfl, by simp, rfl, by simp, hx, hy, ?_⟩
  intro j hj
  simp only [GlobalTensor.DataCopy, hy, hx]
  by_cases hji : j < i
  · rw [if_neg (by omega)]
    exact hdone j hji
  · have hlt : j - i < min tile (core - i) := by omega
    rw [if_pos (by omega), show k0.yGm.base + j - (k0.yGm.base + i) = j - i by omega,
      hf _ _ _ _ _ hlt]
    simp only [DataCopy, GlobalTensor.index, if_pos hlt]
    rw [show k0.xGm.base + i + (j - i) = k0.xGm.base + j by omega]

theorem pipelineInv_start {T F S : Type} (g : T → T) (k : KernelCos T F S)
    (hready : k.ready) : pipelineInv g k (min 0 k.coreDataNum) k := by
  obtain ⟨h1, h2, h3, h4, _⟩ := hready
  refine ⟨h1, h2, h3, h4, rfl, rfl, ?_⟩
  intro j hj
  rw [Nat.zero_min] at hj
  omega

/-- C9: with the strategy elementwise (`f` on the working type) and the casts elementwise
(`up`, `down`), for every `coreDataNum` and every `tileDataNum >= 1` the method
`KernelCos::Process` returns and leaves `y[base + i] = down(f(up(x[base + i])))` for every
`i < coreDataNum`; for the element type `float`, where no cast is made, it leaves
`y[base + i] = f(x[base + i])`. -/
theorem elementwise_writeback {T F S : Type} (up : T → F) (down : F → T) (f : F → F)
    (ComputeImpl : S → LocalTensor F → LocalTensor F → Nat → S × LocalTensor F × LocalTensor F)
    (hf : ∀ st xL yL p j, j < p → (ComputeImpl st xL yL p).2.2 j = f (xL j))
    (fuel : Nat)
    (k : KernelCos T F S) (hready : k.ready)
    (hfuel : (k.coreDataNum + k.tileDataNum - 1) / k.tileDataNum ≤ fuel)
    (kf : KernelCos F F S) (hreadyf : kf.ready)
    (hfuelf : (kf.coreDataNum + kf.tileDataNum - 1) / kf.tileDataNum ≤ fuel) :
    (∃ k1, KernelCos.Process up down ComputeImpl fuel k = some k1 ∧
      ∀ i, i < k.coreDataNum →
        k1.yGm.mem (k.yGm.base + i) = down (f (up (k.xGm.mem (k.xGm.base + i))))) ∧
    (∃ k1, KernelCos.ProcessFloat ComputeImpl fuel kf = some k1 ∧
      ∀ i, i < kf.coreDataNum →
        k1.yGm.mem (kf.yGm.base + i) = f (kf.xGm.mem (kf.xGm.base + i))) := by
  constructor
  · have hr := hready
    obtain ⟨_, _, _, _, htile, ht32, hc32⟩ := hr
    obtain ⟨k1, hk1, hP⟩ := Process_loop_spec
      (fun i processDataNum s =>
        (KernelCos.CopyIn i processDataNum s).bind fun s =>
        (KernelCos.Compute up down ComputeImpl processDataNum s).bind fun s =>
        KernelCos.CopyOut i processDataNum s)
      k.coreDataNum k.tileDataNum (pipelineInv (fun v => down (f (up v))) k)
      htile hc32 ht32
      (fun i s hi hP => pipeline_body up down f ComputeImpl hf k _ _ i s hi hP)
      fuel 0 k (by omega)
      (by
        have h1 := ceil_mul_ge k.coreDataNum k.tileDataNum htile
        have h2 := Nat.mul_le_mul_right k.tileDataNum hfuel
        omega)
      (pipelineInv_start _ k hready)
    exact ⟨k1, hk1, hP.2.2.2.2.2.2⟩
  · have hr := hreadyf
    obtain ⟨_, _, _, _, htile, ht32, hc32⟩ := hr
    obtain ⟨k1, hk1, hP⟩ := Process_loop_spec
      (fun i processDataNum s =>
        (KernelCos.CopyIn i processDataNum s).bind fun s =>
        (KernelCos.ComputeFloat ComputeImpl processDataNum s).bind fun s =>
        KernelCos.CopyOut i processDataNum s)
      kf.coreDataNum kf.tileDataNum (pipelineInv f kf)
      htile hc32 ht32
      (fun i s hi hP => pipeline_body_float f ComputeImpl hf kf _ _ i s hi hP)
      fuel 0 kf (by omega)
      (by
        have h1 := ceil_mul_ge kf.coreDataNum kf.tileDataNum htile
        have h2 := Nat.mul_le_mul_right kf.tileDataNum hfuelf
        omega)
      (pipelineInv_start _ kf hreadyf)
    exact ⟨k1, hk1, hP.2.2.2.2.2.2⟩

theorem exampleKernel_ready : exampleKernel.ready := by
  unfold KernelCos.ready exampleKernel
  simp

/-- Witness for `elementwise_writeback`: the example unit with the casts `v ↦ 2 * v` and
`v ↦ v - 1`. -/
theorem elementwise_writeback_witness :
    exampleKernel.ready ∧
    ((exampleKernel.coreDataNum + exampleKernel.tileDataNum - 1) / exampleKernel.tileDataNum
      ≤ 3) ∧
    ((∃ k1, KernelCos.Process (fun v => 2 * v) (fun v => v - 1) exampleStrategy 3
          exampleKernel = some k1 ∧
      ∀ i, i < exampleKernel.coreDataNum →
        k1.yGm.mem (exampleKernel.yGm.base + i)
          = (fun v => v - 1) ((fun v => v + 1) ((fun v => 2 * v)
              (exampleKernel.xGm.mem (exampleKernel.xGm.base + i))))) ∧
    (∃ k1, KernelCos.ProcessFloat exampleStrategy 3 exampleKernel = some k1 ∧
      ∀ i, i < exampleKernel.coreDataNum →
        k1.yGm.mem (exampleKernel.yGm.base + i)
          = (fun v => v + 1) (exampleKernel.xGm.mem (exampleKernel.xGm.base + i)))) :=
  ⟨exampleKernel_ready, by decide,
    elementwise_writeback (fun v => 2 * v) (fun v => v - 1) (fun v => v + 1) exampleStrategy
      (by intro st xL yL p j hj; simp [exampleStrategy, hj])
      3 exampleKernel exampleKernel_ready (by decide)
      exampleKernel exampleKernel_ready (by decide)⟩

/-! ## The high-performance strategy -/

/-- C10: over the rationals, whatever `Cast` does under each rounding mode and whatever the
buffers held, every one of the first `processDataNum` elements that
`HighPerfStrategy::ComputeImpl` leaves in `yLocal` lies in `[-1, 1]`. -/
theorem highPerf_range_bounded (cast : RoundMode → ℚ → ℚ) (self : HighPerfStrategy)
    (xLocal yLocal : LocalTensor ℚ) (processDataNum i : Nat) (hi : i < processDataNum) :
    -1 ≤ (HighPerfStrategy.ComputeImpl cast self xLocal yLocal processDataNum).2.2 i ∧
    (HighPerfStrategy.ComputeImpl cast self xLocal yLocal processDataNum).2.2 i ≤ 1 := by
  simp only [HighPerfStrategy.ComputeImpl]
  rw [Maxs, if_pos hi, Mins, if_pos hi]
  constructor
  · exact le_max_right _ _
  · exact max_le (min_le_right _ _) (by norm_num)

/-- Witness for `highPerf_range_bounded`: one element, the angle 3. -/
theorem highPerf_range_bounded_witness :
    (0 < 1) ∧
    (-1 ≤ (HighPerfStrategy.ComputeImpl exactCast staleBuffers (fun _ => 3) (fun _ => 9) 1).2.2 0
      ∧ (HighPerfStrategy.ComputeImpl exactCast staleBuffers (fun _ => 3) (fun _ => 9) 1).2.2 0
        ≤ 1) :=
  ⟨by decide,
    highPerf_range_bounded exactCast staleBuffers (fun _ => 3) (fun _ => 9) 1 0 (by decide)⟩

/-! ## Scenarios of the partition planner -/

/-- C11 (counterexample): 88 single-precision elements on two cores (11 blocks,
`sqrt(0.4 * 11)` truncates to 2, so 2 units). The element count is divisible by the block
size 8 and by the unit count 2, yet `bigCoreNum` is 1. -/
theorem even_split_counterexample :
    TilingFunc 196608 2 SocVersion.ASCEND910B DataType.DT_FLOAT 88 2 emptyContext
      = (graphStatus.GRAPH_SUCCESS, writtenContext 2 ⟨48, 40, 6144, 1⟩) ∧
    blockElemNum DataType.DT_FLOAT ∣ 88 ∧ 2 ∣ 88 ∧
    ¬ ((CosTilingData.mk 48 40 6144 1).bigCoreNum = 0) := by
  refine ⟨by decide, by decide, by decide, by decide⟩

/-- C11 (as amended): when `blockElemNum` divides the element count and the unit count
divides the number of blocks, `bigCoreNum` is 0, the units share the elements evenly
(`unitCount * smallCoreDataNum = n`) and `KernelCos::Init` selects `smallCoreDataNum`
for every launched unit other than unit 0. -/
theorem even_split (ubSize coreNum : Nat) (socVersion : SocVersion)
    (xType : DataType) (n sqrtTerm : Nat) (context result : TilingContext)
    (t : CosTilingData) (unitCount : Nat)
    (hn : n < 4294967296)
    (hwrap : inputBlockNum xType n / chosenCoreNum coreNum sqrtTerm * blockElemNum xType
      + blockElemNum xType < 4294967296)
    (h : TilingFunc ubSize coreNum socVersion xType n sqrtTerm context
      = (graphStatus.GRAPH_SUCCESS, result))
    (ht : result.rawTilingData = some t) (hc : result.blockDim = some unitCount)
    (hbe : blockElemNum xType ∣ n) (hdiv : unitCount ∣ n / blockElemNum xType) :
    t.bigCoreNum = 0 ∧ unitCount * t.smallCoreDataNum = n ∧
    ∀ u, 1 ≤ u → u < unitCount → (unitSlice t u).coreDataNum = t.smallCoreDataNum := by
  obtain ⟨hb, hr⟩ := TilingFunc_success _ _ _ _ _ _ _ _ h
  rw [hb] at hc
  rw [hr] at ht
  simp only [Option.some.injEq] at hc ht
  subst hc
  subst ht
  obtain ⟨hs, _, hbn⟩ := tilingOf_fields ubSize coreNum socVersion xType n sqrtTerm hwrap
  have hblocks : inputBlockNum xType n = n / blockElemNum xType := by
    rw [inputBlockNum_formula xType n hn, if_neg (by
      rw [Nat.mod_eq_zero_of_dvd hbe]; simp)]
    rfl
  have hbn0 : (tilingOf ubSize coreNum socVersion xType n sqrtTerm).bigCoreNum = 0 := by
    rw [hbn, hblocks]
    exact Nat.mod_eq_zero_of_dvd hdiv
  refine ⟨hbn0, ?_, ?_⟩
  · rw [hs, hblocks, ← Nat.mul_assoc, Nat.mul_div_cancel' hdiv, Nat.div_mul_cancel hbe]
  · intro u hu1 _
    unfold unitSlice
    rw [Init_coreDataNum, hbn0, if_neg (by omega)]

/-- Witness for `even_split`: 160 single-precision elements on two cores (20 blocks,
`sqrt(0.4 * 20)` truncates to 2). -/
theorem even_split_witness :
    (160 < 4294967296) ∧
    (inputBlockNum DataType.DT_FLOAT 160 / chosenCoreNum 2 2 * blockElemNum DataType.DT_FLOAT
      + blockElemNum DataType.DT_FLOAT < 4294967296) ∧
    (TilingFunc 196608 2 SocVersion.ASCEND910B DataType.DT_FLOAT 160 2 emptyContext
      = (graphStatus.GRAPH_SUCCESS, writtenContext 2 ⟨88, 80, 6144, 0⟩)) ∧
    (blockElemNum DataType.DT_FLOAT ∣ 160) ∧ (2 ∣ 160 / blockElemNum DataType.DT_FLOAT) ∧
    ((CosTilingData.mk 88 80 6144 0).bigCoreNum = 0 ∧
      2 * (CosTilingData.mk 88 80 6144 0).smallCoreDataNum = 160 ∧
      ∀ u, 1 ≤ u → u < 2 →
        (unitSlice ⟨88, 80, 6144, 0⟩ u).coreDataNum
          = (CosTilingData.mk 88 80 6144 0).smallCoreDataNum) :=
  ⟨by decide, by decide, by decide, by decide, by decide,
    even_split 196608 2 SocVersion.ASCEND910B DataType.DT_FLOAT 160 2 emptyContext
      (writtenContext 2 ⟨88, 80, 6144, 0⟩) ⟨88, 80, 6144, 0⟩ 2 (by decide) (by decide)
      (by decide) rfl rfl (by decide) (by decide)⟩

theorem Init_tileDataNum (big small tile bn u : Nat) :
    (KernelCos.Init big small tile bn u).tileDataNum = tile := by
  unfold KernelCos.Init
  split <;> rfl

theorem ceil_le_self (core tile : Nat) (htile : 1 ≤ tile) :
    (core + tile - 1) / tile ≤ core := by
  have h1 : core ≤ core * tile := Nat.le_mul_of_pos_right _ (by omega)
  have h2 : (core + tile - 1) / tile < core + 1 := by
    rw [Nat.div_lt_iff_lt_mul (by omega), Nat.succ_mul]
    omega
  omega

/-- C12 (counterexample): 100 single-precision elements on two cores with 2048 bytes of
fast memory. The tile size is 64, below 100, two units are launched with 56 elements
each, and each unit runs exactly one iteration of the tile loop. -/
theorem multi_tile_counterexample :
    TilingFunc 2048 2 SocVersion.ASCEND910B DataType.DT_FLOAT 100 2 emptyContext
      = (graphStatus.GRAPH_SUCCESS, writtenContext 2 ⟨56, 48, 64, 1⟩) ∧
    (1 ≤ (CosTilingData.mk 56 48 64 1).tileDataNum ∧
      (CosTilingData.mk 56 48 64 1).tileDataNum < 100) ∧
    ∀ u, u < 2 →
      KernelCos.Process.calls 5 (unitSlice ⟨56, 48, 64, 1⟩ u).coreDataNum
          (unitSlice ⟨56, 48, 64, 1⟩ u).tileDataNum
        = some [⟨(0, 56), 56, (0, 56)⟩] := by
  refine ⟨by decide, by decide, by decide⟩

/-- C12 (as amended): for 100 single-precision elements, whenever the tile size written by
`TilingFunc` is at least 1 and below `smallCoreDataNum`, at least one unit is launched and
every launched unit runs at least 2 iterations of the loop of `KernelCos::Process`. -/
theorem multi_tile (ubSize coreNum : Nat) (socVersion : SocVersion)
    (sqrtTerm : Nat) (context result : TilingContext)
    (t : CosTilingData) (unitCount fuel : Nat)
    (h : TilingFunc ubSize coreNum socVersion DataType.DT_FLOAT 100 sqrtTerm context
      = (graphStatus.GRAPH_SUCCESS, result))
    (ht : result.rawTilingData = some t) (hc : result.blockDim = some unitCount)
    (htile1 : 1 ≤ t.tileDataNum) (htile2 : t.tileDataNum < t.smallCoreDataNum)
    (hfuel : t.bigCoreDataNum ≤ fuel) :
    1 ≤ unitCount ∧
    ∀ u, u < unitCount →
      ∃ tr, KernelCos.Process.calls fuel (unitSlice t u).coreDataNum
          (unitSlice t u).tileDataNum = some tr ∧ 2 ≤ tr.length := by
  obtain ⟨hb, hr⟩ := TilingFunc_success _ _ _ _ _ _ _ _ h
  rw [hb] at hc
  rw [hr] at ht
  simp only [Option.some.injEq] at hc ht
  subst hc
  subst ht
  have hblocks : inputBlockNum DataType.DT_FLOAT 100 = 13 := by decide
  have hbe : blockElemNum DataType.DT_FLOAT = 8 := by decide
  have hdiv : 13 / chosenCoreNum coreNum sqrtTerm ≤ 13 := Nat.div_le_self _ _
  obtain ⟨hs, hbig, _⟩ := tilingOf_fields ubSize coreNum socVersion DataType.DT_FLOAT 100
    sqrtTerm (by rw [hblocks, hbe]; omega)
  rw [hblocks, hbe] at hs hbig
  refine ⟨chosenCoreNum_pos _ _, ?_⟩
  intro u _
  have hcore : (unitSlice (tilingOf ubSize coreNum socVersion DataType.DT_FLOAT 100
      sqrtTerm) u).coreDataNum
      = (tilingOf ubSize coreNum socVersion DataType.DT_FLOAT 100 sqrtTerm).smallCoreDataNum
      ∨ (unitSlice (tilingOf ubSize coreNum socVersion DataType.DT_FLOAT 100
      sqrtTerm) u).coreDataNum
      = (tilingOf ubSize coreNum socVersion DataType.DT_FLOAT 100 sqrtTerm).bigCoreDataNum := by
    unfold unitSlice
    rw [Init_coreDataNum]
    split
    · exact Or.inr rfl
    · exact Or.inl rfl
  have htd : (unitSlice (tilingOf ubSize coreNum socVersion DataType.DT_FLOAT 100
      sqrtTerm) u).tileDataNum
      = (tilingOf ubSize coreNum socVersion DataType.DT_FLOAT 100 sqrtTerm).tileDataNum := by
    unfold unitSlice
    rw [Init_tileDataNum]
  rw [htd]
  generalize (unitSlice (tilingOf ubSize coreNum socVersion DataType.DT_FLOAT 100
      sqrtTerm) u).coreDataNum = core at hcore ⊢
  generalize (tilingOf ubSize coreNum socVersion DataType.DT_FLOAT 100
      sqrtTerm).tileDataNum = tile at htile1 htile2 ⊢
  have hlt : tile < core := by omega
  have hceil := ceil_le_self core tile htile1
  refine ⟨_, Process_calls_eq core tile fuel htile1 (by omega) (by omega) (by omega), ?_⟩
  rw [List.length_map, List.length_range]
  have h2 := (lt_ceil_iff core tile 1 htile1).mpr (by omega)
  omega

/-- Witness for `multi_tile`: 100 single-precision elements on two cores with 1024 bytes of
fast memory (tile size 32, shares of 56 and 48 elements). -/
theorem multi_tile_witness :
    (TilingFunc 1024 2 SocVersion.ASCEND910B DataType.DT_FLOAT 100 2 emptyContext
      = (graphStatus.GRAPH_SUCCESS, writtenContext 2 ⟨56, 48, 32, 1⟩)) ∧
    (1 ≤ (CosTilingData.mk 56 48 32 1).tileDataNum) ∧
    ((CosTilingData.mk 56 48 32 1).tileDataNum
      < (CosTilingData.mk 56 48 32 1).smallCoreDataNum) ∧
    ((CosTilingData.mk 56 48 32 1).bigCoreDataNum ≤ 56) ∧
    (1 ≤ 2 ∧
      ∀ u, u < 2 →
        ∃ tr, KernelCos.Process.calls 56 (unitSlice ⟨56, 48, 32, 1⟩ u).coreDataNum
            (unitSlice ⟨56, 48, 32, 1⟩ u).tileDataNum = some tr ∧ 2 ≤ tr.length) :=
  ⟨by decide, by decide, by decide, by decide,
    multi_tile 1024 2 SocVersion.ASCEND910B 2 emptyContext
      (writtenContext 2 ⟨56, 48, 32, 1⟩) ⟨56, 48, 32, 1⟩ 2 56 (by decide) rfl rfl
      (by decide) (by decide) (by decide)⟩

/-- C20 (the code at the failing input): 100 single-precision elements on 8 cores (13
blocks, 2 units, padded element count 104). Unit 1 is given 56 elements from index 56, so
its slice ends at 112, beyond the padded element count. -/
theorem slice_exceeds_padded_input :
    TilingFunc 196608 8 SocVersion.ASCEND910B DataType.DT_FLOAT 100 2 emptyContext
      = (graphStatus.GRAPH_SUCCESS, writtenContext 2 ⟨56, 48, 6144, 1⟩) ∧
    unitSlice ⟨56, 48, 6144, 1⟩ 1 = ⟨56, 56, 6144⟩ ∧
    (100 + blockElemNum DataType.DT_FLOAT - 1) / blockElemNum DataType.DT_FLOAT
        * blockElemNum DataType.DT_FLOAT = 104 ∧
    ¬ ((unitSlice ⟨56, 48, 6144, 1⟩ 1).globalBufferIndex
        + (unitSlice ⟨56, 48, 6144, 1⟩ 1).coreDataNum
      ≤ (100 + blockElemNum DataType.DT_FLOAT - 1) / blockElemNum DataType.DT_FLOAT
          * blockElemNum DataType.DT_FLOAT) := by
  refine ⟨by decide, by decide, by decide, by decide⟩

/-- Every launched unit other than unit `bigCoreNum` stays inside the block-padded element
count: the slices the descriptor lays out fit the padded input. -/
theorem slice_within_padded_of_ne (ubSize coreNum : Nat) (socVersion : SocVersion)
    (xType : DataType) (n sqrtTerm : Nat) (u : Nat)
    (hn : n < 4294967296)
    (hwrap : inputBlockNum xType n / chosenCoreNum coreNum sqrtTerm * blockElemNum xType
      + blockElemNum xType < 4294967296)
    (hpad : (n + blockElemNum xType - 1) / blockElemNum xType * blockElemNum xType
      < 4294967296)
    (hu : u < chosenCoreNum coreNum sqrtTerm)
    (hne : u ≠ (tilingOf ubSize coreNum socVersion xType n sqrtTerm).bigCoreNum) :
    (unitSlice (tilingOf ubSize coreNum socVersion xType n sqrtTerm) u).globalBufferIndex
        + (unitSlice (tilingOf ubSize coreNum socVersion xType n sqrtTerm) u).coreDataNum
      ≤ (n + blockElemNum xType - 1) / blockElemNum xType * blockElemNum xType := by
  obtain ⟨hs, hbig, hbn⟩ := tilingOf_fields ubSize coreNum socVersion xType n sqrtTerm hwrap
  have hpos := chosenCoreNum_pos coreNum sqrtTerm
  have htotal := planner_total (inputBlockNum xType n) (chosenCoreNum coreNum sqrtTerm)
    (blockElemNum xType) hpos
  rw [inputBlockNum_eq xType n hn] at htotal hs hbig hbn
  have hlt : (n + blockElemNum xType - 1) / blockElemNum xType
      % chosenCoreNum coreNum sqrtTerm < chosenCoreNum coreNum sqrtTerm := Nat.mod_lt _ hpos
  unfold unitSlice
  rw [Init_globalBufferIndex, Init_coreDataNum, hs, hbig, hbn]
  rw [hbn] at hne
  unfold specOffset
  generalize (n + blockElemNum xType - 1) / blockElemNum xType
    % chosenCoreNum coreNum sqrtTerm = r at *
  generalize (n + blockElemNum xType - 1) / blockElemNum xType
    / chosenCoreNum coreNum sqrtTerm * blockElemNum xType = small at *
  generalize (n + blockElemNum xType - 1) / blockElemNum xType * blockElemNum xType
    = padded at *
  generalize chosenCoreNum coreNum sqrtTerm = c at *
  generalize blockElemNum xType = be at *
  by_cases hle : u ≤ r
  · have hur : u + 1 ≤ r := by omega
    have h1 : (u + 1) * (small + be) ≤ r * (small + be) := Nat.mul_le_mul_right _ hur
    rw [Nat.succ_mul] at h1
    have h2 : u * (small + be) ≤ padded := by omega
    rw [if_pos hle, if_pos hle, Nat.mod_eq_of_lt (by omega)]
    omega
  · have hcu : u - r + 1 ≤ c - r := by omega
    have h1 : (u - r + 1) * small ≤ (c - r) * small := Nat.mul_le_mul_right _ hcu
    rw [Nat.succ_mul] at h1
    rw [if_neg hle, if_neg hle, Nat.mod_eq_of_lt (by omega)]
    omega

/-! ## The compute strategies over exact arithmetic -/

theorem highPerf_ComputeImpl_parts (cast : RoundMode → ℚ → ℚ)
    (self : HighPerfStrategy) (xLocal yLocal : LocalTensor ℚ) (processDataNum : Nat) :
    HighPerfStrategy.ComputeImpl cast self xLocal yLocal processDataNum
      = (let b : Bufs :=
          { xLocal := xLocal, yLocal := yLocal, tmpTensor1 := self.tmpBuf1,
            tmpTensor2 := self.tmpBuf2, tmpTensor3 := self.tmpBuf3,
            tmpTensor4 := self.tmpBuf4 }
        let b := HighPerfStrategy.reduction cast b processDataNum
        let b := HighPerfStrategy.signFactor cast b processDataNum
        let b := HighPerfStrategy.polynomial b processDataNum
        ((⟨b.tmpTensor1, b.tmpTensor2, b.tmpTensor3, b.tmpTensor4⟩ : HighPerfStrategy),
          b.xLocal, b.yLocal)) :=
  rfl

theorem highPerf_reduction_at (cast : RoundMode → ℚ → ℚ) (b : Bufs)
    (n i : Nat) (hi : i < n) :
    (HighPerfStrategy.reduction cast b n).tmpTensor1 i
      = cast RoundMode.CAST_ROUND (b.xLocal i * PI_FOR_X_TODIV + 0.5) ∧
    (HighPerfStrategy.reduction cast b n).yLocal i
      = b.xLocal i
        - cast RoundMode.CAST_ROUND (b.xLocal i * PI_FOR_X_TODIV + 0.5)
          * (pi_0 + pi_1 + pi_2 + pi_3)
        + PI_DOWN + PI_RESDOWN_ADDS_NEG := by
  constructor
  · simp only [HighPerfStrategy.reduction, Muls, Adds, Sub, Cast, if_pos hi]
  · simp only [HighPerfStrategy.reduction, Muls, Adds, Sub, Cast, if_pos hi]
    ring

theorem highPerf_signFactor_at (cast : RoundMode → ℚ → ℚ) (b : Bufs)
    (n i : Nat) (hi : i < n) :
    (HighPerfStrategy.signFactor cast b n).tmpTensor1 i
      = 4 * cast RoundMode.CAST_FLOOR (b.tmpTensor1 i * 0.5) - 2 * b.tmpTensor1 i + 1 ∧
    (HighPerfStrategy.signFactor cast b n).tmpTensor2 i = b.yLocal i * b.yLocal i ∧
    (HighPerfStrategy.signFactor cast b n).yLocal i = b.yLocal i := by
  refine ⟨?_, ?_, ?_⟩
  · simp only [HighPerfStrategy.signFactor, Muls, Adds, Add, Mul, Cast, if_pos hi]
    ring
  · simp only [HighPerfStrategy.signFactor, Muls, Adds, Add, Mul, Cast, if_pos hi]
  · simp only [HighPerfStrategy.signFactor]

theorem highPerf_polynomial_at (b : Bufs) (n i : Nat) (hi : i < n) :
    (HighPerfStrategy.polynomial b n).yLocal i
      = max (min (b.tmpTensor1 i
          * (b.yLocal i * (1 + b.tmpTensor2 i * (COS_3ADDS + b.tmpTensor2 i * (COS_2ADDS
              + b.tmpTensor2 i * (COS_RES_ADDICT_UP
                + b.tmpTensor2 i * COS_RES_MULIT_SCA)))))) 1) (-1) := by
  simp only [HighPerfStrategy.polynomial, Muls, Adds, Mul, Mins, Maxs, if_pos hi]
  congr 2
  ring

theorem floor_half_even (m : ℤ) : ⌊((2 * m : ℤ) : ℚ) * 0.5⌋ = m := by
  rw [Int.floor_eq_iff]
  push_cast
  constructor <;> norm_num <;> linarith

theorem floor_half_odd (m : ℤ) : ⌊((2 * m + 1 : ℤ) : ℚ) * 0.5⌋ = m := by
  rw [Int.floor_eq_iff]
  push_cast
  constructor <;> norm_num <;> linarith


/-- C16: with `Cast` under `CAST_FLOOR` the floor, for every integer `k` held in
`round_pi_div` the sign factor `HighPerfStrategy::ComputeImpl` computes is
`4 * floor(k / 2) - 2 * k + 1`; it is `+1` when `k` is even and `-1` when `k` is odd, and
never any other value. -/
theorem highPerf_sign_factor (cast : RoundMode → ℚ → ℚ) (b : Bufs) (n i : Nat) (k : ℤ)
    (hfloor : ∀ q, cast RoundMode.CAST_FLOOR q = ⌊q⌋)
    (hi : i < n) (hk : b.tmpTensor1 i = k) :
    (HighPerfStrategy.signFactor cast b n).tmpTensor1 i
      = 4 * (⌊(k : ℚ) / 2⌋ : ℚ) - 2 * k + 1 ∧
    (k % 2 = 0 → (HighPerfStrategy.signFactor cast b n).tmpTensor1 i = 1) ∧
    (k % 2 = 1 → (HighPerfStrategy.signFactor cast b n).tmpTensor1 i = -1) ∧
    ((HighPerfStrategy.signFactor cast b n).tmpTensor1 i = 1 ∨
      (HighPerfStrategy.signFactor cast b n).tmpTensor1 i = -1) := by
  have hs := (highPerf_signFactor_at cast b n i hi).1
  rw [hfloor, hk] at hs
  have heven : k % 2 = 0 → (HighPerfStrategy.signFactor cast b n).tmpTensor1 i = 1 := by
    intro h0
    obtain ⟨m, rfl⟩ : ∃ m, k = 2 * m := ⟨k / 2, by omega⟩
    rw [hs, floor_half_even]
    push_cast
    ring
  have hodd : k % 2 = 1 → (HighPerfStrategy.signFactor cast b n).tmpTensor1 i = -1 := by
    intro h1
    obtain ⟨m, rfl⟩ : ∃ m, k = 2 * m + 1 := ⟨k / 2, by omega⟩
    rw [hs, floor_half_odd]
    push_cast
    ring
  refine ⟨?_, heven, hodd, ?_⟩
  · rw [hs, show (k : ℚ) * 0.5 = (k : ℚ) / 2 by rw [div_eq_mul_inv]; norm_num]
  · rcases Int.emod_two_eq_zero_or_one k with h | h
    · exact Or.inl (heven h)
    · exact Or.inr (hodd h)

/-- C18: over exact arithmetic, with `k = round(x * PI_FOR_X_TODIV + 0.5)` the reduced angle
`HighPerfStrategy::ComputeImpl` computes is
`r = x - k * (pi_0 + pi_1 + pi_2 + pi_3) + PI_DOWN + PI_RESDOWN_ADDS_NEG`, whatever the
coarse part is, and the value left in `yLocal` is the clamp to `[-1, 1]` of
`sign(k) * r * (1 + r^2 * (...))`, with `sign(k)` `+1` for even `k` and `-1` for odd `k`
(`Cast` under `CAST_FLOOR` being the floor and `k` an integer). -/
theorem highPerf_closed_form (cast : RoundMode → ℚ → ℚ) (self : HighPerfStrategy)
    (xLocal yLocal : LocalTensor ℚ) (n i : Nat) (k : ℤ)
    (hfloor : ∀ q, cast RoundMode.CAST_FLOOR q = ⌊q⌋)
    (hi : i < n) (hk : highPerfK cast (xLocal i) = k) :
    (HighPerfStrategy.reduction cast
        { xLocal := xLocal, yLocal := yLocal, tmpTensor1 := self.tmpBuf1,
          tmpTensor2 := self.tmpBuf2, tmpTensor3 := self.tmpBuf3,
          tmpTensor4 := self.tmpBuf4 } n).yLocal i
      = highPerfAngle k (xLocal i) ∧
    (HighPerfStrategy.ComputeImpl cast self xLocal yLocal n).2.2 i
      = max (min (paritySign k * highPerfPoly (highPerfAngle k (xLocal i))) 1) (-1) := by
  have hred := highPerf_reduction_at cast
    { xLocal := xLocal, yLocal := yLocal, tmpTensor1 := self.tmpBuf1,
      tmpTensor2 := self.tmpBuf2, tmpTensor3 := self.tmpBuf3,
      tmpTensor4 := self.tmpBuf4 } n i hi
  unfold highPerfK at hk
  simp only [hk] at hred
  obtain ⟨hk1, hr0⟩ := hred
  have hr : (HighPerfStrategy.reduction cast
      { xLocal := xLocal, yLocal := yLocal, tmpTensor1 := self.tmpBuf1,
        tmpTensor2 := self.tmpBuf2, tmpTensor3 := self.tmpBuf3,
        tmpTensor4 := self.tmpBuf4 } n).yLocal i = highPerfAngle k (xLocal i) := hr0
  refine ⟨hr, ?_⟩
  rw [highPerf_ComputeImpl_parts]
  simp only []
  rw [highPerf_polynomial_at _ n i hi]
  obtain ⟨hsgn, hpow, hy⟩ := highPerf_signFactor_at cast
    (HighPerfStrategy.reduction cast
      { xLocal := xLocal, yLocal := yLocal, tmpTensor1 := self.tmpBuf1,
        tmpTensor2 := self.tmpBuf2, tmpTensor3 := self.tmpBuf3,
        tmpTensor4 := self.tmpBuf4 } n) n i hi
  have hsign : (HighPerfStrategy.signFactor cast
      (HighPerfStrategy.reduction cast
        { xLocal := xLocal, yLocal := yLocal, tmpTensor1 := self.tmpBuf1,
          tmpTensor2 := self.tmpBuf2, tmpTensor3 := self.tmpBuf3,
          tmpTensor4 := self.tmpBuf4 } n) n).tmpTensor1 i = paritySign k := by
    rw [hsgn, hk1, hfloor]
    unfold paritySign
    rcases Int.emod_two_eq_zero_or_one k with h | h
    · obtain ⟨m, rfl⟩ : ∃ m, k = 2 * m := ⟨k / 2, by omega⟩
      rw [if_pos h, floor_half_even]
      push_cast
      ring
    · obtain ⟨m, rfl⟩ : ∃ m, k = 2 * m + 1 := ⟨k / 2, by omega⟩
      rw [if_neg (by omega), floor_half_odd]
      push_cast
      ring
  rw [hsign, hpow, hy, hr]
  unfold highPerfPoly
  congr 2
  ring

theorem taylorCos14_eq (r : ℚ) :
    taylorCos14 r
      = 1 - r ^ 2 / 2 + r ^ 4 / 24 - r ^ 6 / 720 + r ^ 8 / 40320 - r ^ 10 / 3628800
        + r ^ 12 / 479001600 - r ^ 14 / 87178291200 := by
  unfold taylorCos14
  simp only [Finset.sum_range_succ, Finset.sum_range_zero, Nat.factorial]
  norm_num
  ring

/-- C17: over exact arithmetic, the value `RefStrategy::ComputeImpl` leaves in `yLocal` is
the cosine Taylor polynomial truncated after the `x^14` term, evaluated at the reduced
angle `r = x - round(x * (1 / TWO_PI)) * TWO_PI`, where `round` is the conversion the two
casts of the code make (to a 32-bit integer under `CAST_RINT` and back under
`CAST_NONE`) and the constants `REF_COEF_2 .. REF_COEF_14` are `-1/(2*1) .. -1/(14*13)`. -/
theorem ref_taylor_form (cast : RoundMode → ℚ → ℚ) (self : RefStrategy)
    (xLocal yLocal : LocalTensor ℚ) (n i : Nat) (hi : i < n) :
    (RefStrategy.ComputeImpl cast self xLocal yLocal n).2.2 i
      = taylorCos14 (xLocal i
          - cast RoundMode.CAST_NONE (cast RoundMode.CAST_RINT (xLocal i * (1 / TWO_PI)))
            * TWO_PI) := by
  rw [taylorCos14_eq]
  simp only [RefStrategy.ComputeImpl, Muls, Sub, Mul, Add, Cast, Duplicate, if_pos hi]
  generalize xLocal i
      - cast RoundMode.CAST_NONE (cast RoundMode.CAST_RINT (xLocal i * (1 / TWO_PI)))
        * TWO_PI = r
  simp only [REF_COEF_2, REF_COEF_4, REF_COEF_6, REF_COEF_8, REF_COEF_10, REF_COEF_12,
    REF_COEF_14]
  ring

theorem highPrec_reduction_at (cast : RoundMode → ℚ → ℚ) (b : Bufs)
    (n i : Nat) (hi : i < n) :
    (HighPrecStrategy.reduction cast b n).xLocal i
      = b.xLocal i
        - (2048 * cast RoundMode.CAST_RINT (b.xLocal i * (1 / 2048) * INV_HALF_PI)
            + (HighPrecStrategy.reduction cast b n).tmpTensor1 i) * highPrecPiSplit := by
  simp only [HighPrecStrategy.reduction, Muls, Sub, Cast, if_pos hi, highPrecPiSplit]
  ring

theorem highPrec_reduction_local (cast : RoundMode → ℚ → ℚ) (b c : Bufs)
    (n i : Nat) (hi : i < n) (hx : b.xLocal i = c.xLocal i) :
    (HighPrecStrategy.reduction cast b n).xLocal i
        = (HighPrecStrategy.reduction cast c n).xLocal i ∧
    (HighPrecStrategy.reduction cast b n).tmpTensor1 i
        = (HighPrecStrategy.reduction cast c n).tmpTensor1 i := by
  constructor <;>
    simp only [HighPrecStrategy.reduction, Muls, Sub, Cast, if_pos hi, hx]

theorem highPrec_polynomials_at (b : Bufs) (n i : Nat) (hi : i < n) :
    (HighPrecStrategy.polynomials b n).yLocal i
      = b.xLocal i * (1 + b.xLocal i ^ 2 * (SCOEF_1 + b.xLocal i ^ 2 * (SCOEF_2
          + b.xLocal i ^ 2 * (SCOEF_3 + b.xLocal i ^ 2 * SCOEF_4)))) ∧
    (HighPrecStrategy.polynomials b n).tmpTensor2 i
      = 1 + b.xLocal i ^ 2 * (CCOEF_1 + b.xLocal i ^ 2 * (CCOEF_2
          + b.xLocal i ^ 2 * (CCOEF_3 + b.xLocal i ^ 2 * CCOEF_4))) ∧
    (HighPrecStrategy.polynomials b n).tmpTensor1 i = b.tmpTensor1 i := by
  refine ⟨?_, ?_, ?_⟩
  · simp only [HighPrecStrategy.polynomials, Muls, Adds, Mul, if_pos hi]
    ring
  · simp only [HighPrecStrategy.polynomials, Muls, Adds, Mul, if_pos hi]
    ring
  · simp only [HighPrecStrategy.polynomials]

theorem highPrec_selection_at (cast : RoundMode → ℚ → ℚ) (b : Bufs)
    (n i : Nat) (hi : i < n) :
    (HighPrecStrategy.selection cast b n).yLocal i
      = (4 * cast RoundMode.CAST_FLOOR ((b.tmpTensor1 i + 1) * 0.25)
          - 2 * cast RoundMode.CAST_FLOOR ((b.tmpTensor1 i + 1) * 0.5) + 1)
        * (b.yLocal i
            * (1 - ((b.tmpTensor1 i + 1)
                - 2 * cast RoundMode.CAST_FLOOR ((b.tmpTensor1 i + 1) * 0.5)))
          + b.tmpTensor2 i
            * ((b.tmpTensor1 i + 1)
                - 2 * cast RoundMode.CAST_FLOOR ((b.tmpTensor1 i + 1) * 0.5))) := by
  simp only [HighPrecStrategy.selection, Muls, Adds, Add, Mul, Cast, if_pos hi]
  ring

theorem floor_mul_half (m : ℤ) : ⌊(m : ℚ) * 0.5⌋ = m / 2 := by
  rw [Int.floor_eq_iff]
  have h := Int.emod_add_ediv m 2
  have h0 := Int.emod_nonneg m (show (2 : ℤ) ≠ 0 by norm_num)
  have h1 := Int.emod_lt_of_pos m (show (0 : ℤ) < 2 by norm_num)
  have hq : (m : ℚ) = ((m % 2 : ℤ) : ℚ) + 2 * ((m / 2 : ℤ) : ℚ) := by
    exact_mod_cast h.symm
  have h0q : (0 : ℚ) ≤ ((m % 2 : ℤ) : ℚ) := by exact_mod_cast h0
  have h1q : ((m % 2 : ℤ) : ℚ) < 2 := by exact_mod_cast h1
  constructor <;> norm_num <;> linarith

theorem floor_mul_quarter (m : ℤ) : ⌊(m : ℚ) * 0.25⌋ = m / 4 := by
  rw [Int.floor_eq_iff]
  have h := Int.emod_add_ediv m 4
  have h0 := Int.emod_nonneg m (show (4 : ℤ) ≠ 0 by norm_num)
  have h1 := Int.emod_lt_of_pos m (show (0 : ℤ) < 4 by norm_num)
  have hq : (m : ℚ) = ((m % 4 : ℤ) : ℚ) + 4 * ((m / 4 : ℤ) : ℚ) := by
    exact_mod_cast h.symm
  have h0q : (0 : ℚ) ≤ ((m % 4 : ℤ) : ℚ) := by exact_mod_cast h0
  have h1q : ((m % 4 : ℤ) : ℚ) < 4 := by exact_mod_cast h1
  constructor <;> norm_num <;> linarith

theorem quadrant_arith (n2 : ℤ) (s c : ℚ) :
    (4 * (((n2 + 1) / 4 : ℤ) : ℚ) - 2 * (((n2 + 1) / 2 : ℤ) : ℚ) + 1)
        * (s * (1 - (((n2 : ℚ) + 1) - 2 * (((n2 + 1) / 2 : ℤ) : ℚ)))
          + c * (((n2 : ℚ) + 1) - 2 * (((n2 + 1) / 2 : ℤ) : ℚ)))
      = quadrantValue n2 s c := by
  unfold quadrantValue
  have h := Int.emod_add_ediv n2 4
  have h0 := Int.emod_nonneg n2 (show (4 : ℤ) ≠ 0 by norm_num)
  have h1 := Int.emod_lt_of_pos n2 (show (0 : ℤ) < 4 by norm_num)
  have hn : (n2 : ℚ) = ((n2 % 4 : ℤ) : ℚ) + 4 * ((n2 / 4 : ℤ) : ℚ) := by
    exact_mod_cast h.symm
  have hcases : n2 % 4 = 0 ∨ n2 % 4 = 1 ∨ n2 % 4 = 2 ∨ n2 % 4 = 3 := by omega
  rcases hcases with h4 | h4 | h4 | h4
  · have e2 : (n2 + 1) / 2 = 2 * (n2 / 4) := by omega
    have e4 : (n2 + 1) / 4 = n2 / 4 := by omega
    rw [if_pos h4, e2, e4, hn, h4]
    push_cast
    ring
  · have e2 : (n2 + 1) / 2 = 2 * (n2 / 4) + 1 := by omega
    have e4 : (n2 + 1) / 4 = n2 / 4 := by omega
    rw [if_neg (by omega), if_pos h4, e2, e4, hn, h4]
    push_cast
    ring
  · have e2 : (n2 + 1) / 2 = 2 * (n2 / 4) + 1 := by omega
    have e4 : (n2 + 1) / 4 = n2 / 4 := by omega
    rw [if_neg (by omega), if_neg (by omega), if_pos h4, e2, e4, hn, h4]
    push_cast
    ring
  · have e2 : (n2 + 1) / 2 = 2 * (n2 / 4) + 2 := by omega
    have e4 : (n2 + 1) / 4 = n2 / 4 + 1 := by omega
    rw [if_neg (by omega), if_neg (by omega), if_neg (by omega), e2, e4, hn, h4]
    push_cast
    ring

theorem cos_add_quadrant (r : ℝ) (n2 : ℤ) :
    Real.cos (r + n2 * (Real.pi / 2)) = quadrantValue n2 (Real.sin r) (Real.cos r) := by
  unfold quadrantValue
  have h := Int.emod_add_ediv n2 4
  have hn : (n2 : ℝ) = ((n2 % 4 : ℤ) : ℝ) + 4 * ((n2 / 4 : ℤ) : ℝ) := by
    exact_mod_cast h.symm
  have hsplit : r + n2 * (Real.pi / 2)
      = (r + ((n2 % 4 : ℤ) : ℝ) * (Real.pi / 2)) + ((n2 / 4 : ℤ) : ℝ) * (2 * Real.pi) := by
    rw [hn]; ring
  rw [hsplit, Real.cos_add_int_mul_two_pi]
  have hcases : n2 % 4 = 0 ∨ n2 % 4 = 1 ∨ n2 % 4 = 2 ∨ n2 % 4 = 3 := by omega
  rcases hcases with h4 | h4 | h4 | h4
  · rw [if_pos h4, h4]
    simp
  · rw [if_neg (by omega), if_pos h4, h4]
    simp [Real.cos_add_pi_div_two]
  · rw [if_neg (by omega), if_neg (by omega), if_pos h4, h4]
    have : r + ((2 : ℤ) : ℝ) * (Real.pi / 2) = r + Real.pi := by push_cast; ring
    rw [this, Real.cos_add_pi]
  · rw [if_neg (by omega), if_neg (by omega), if_neg (by omega), h4]
    have : r + ((3 : ℤ) : ℝ) * (Real.pi / 2) = (r + Real.pi / 2) + Real.pi := by
      push_cast; ring
    rw [this, Real.cos_add_pi, Real.cos_add_pi_div_two, neg_neg]

theorem quadrantValue_cast (n2 : ℤ) (s c : ℚ) :
    ((quadrantValue n2 s c : ℚ) : ℝ) = quadrantValue n2 (s : ℝ) (c : ℝ) := by
  unfold quadrantValue
  split_ifs <;> push_cast <;> rfl

/-- C15: with `Cast` under `CAST_FLOOR` the floor, for every integer `n2` and all values
`s` (sine polynomial) and `c` (cosine polynomial), the last part of
`HighPrecStrategy::ComputeImpl` leaves `sign * (s * ifsin + c * ifcos)` with `m = n2 + 1`,
`ifcos = m - 2 * floor(m / 2)`, `ifsin = 1 - ifcos` and
`sign = 4 * floor(m / 4) - 2 * floor(m / 2) + 1`; this is `c, -s, -c, s` for
`n2 mod 4 = 0, 1, 2, 3`, hence `cos(r + n2 * pi / 2)` whenever `s = sin r` and
`c = cos r`. -/
theorem highPrec_quadrant_selection (cast : RoundMode → ℚ → ℚ) (b : Bufs) (n i : Nat)
    (n2 : ℤ) (hfloor : ∀ q, cast RoundMode.CAST_FLOOR q = ⌊q⌋)
    (hi : i < n) (hn2 : b.tmpTensor1 i = n2) :
    (HighPrecStrategy.selection cast b n).yLocal i
      = (4 * (⌊((n2 + 1 : ℤ) : ℚ) * 0.25⌋ : ℚ) - 2 * (⌊((n2 + 1 : ℤ) : ℚ) * 0.5⌋ : ℚ) + 1)
        * (b.yLocal i * (1 - (((n2 + 1 : ℤ) : ℚ) - 2 * (⌊((n2 + 1 : ℤ) : ℚ) * 0.5⌋ : ℚ)))
          + b.tmpTensor2 i
            * (((n2 + 1 : ℤ) : ℚ) - 2 * (⌊((n2 + 1 : ℤ) : ℚ) * 0.5⌋ : ℚ))) ∧
    (HighPrecStrategy.selection cast b n).yLocal i
      = quadrantValue n2 (b.yLocal i) (b.tmpTensor2 i) ∧
    ∀ r : ℝ, Real.sin r = b.yLocal i → Real.cos r = b.tmpTensor2 i →
      (((HighPrecStrategy.selection cast b n).yLocal i : ℚ) : ℝ)
        = Real.cos (r + n2 * (Real.pi / 2)) := by
  have hsel := highPrec_selection_at cast b n i hi
  rw [hfloor, hfloor, hn2] at hsel
  have hcast : (n2 : ℚ) + 1 = ((n2 + 1 : ℤ) : ℚ) := by push_cast; rfl
  rw [hcast] at hsel
  have hq : (HighPrecStrategy.selection cast b n).yLocal i
      = quadrantValue n2 (b.yLocal i) (b.tmpTensor2 i) := by
    rw [hsel, floor_mul_half, floor_mul_quarter, ← quadrant_arith]
    push_cast
    ring
  refine ⟨hsel, hq, ?_⟩
  intro r hs hc
  rw [hq, quadrantValue_cast, ← hs, ← hc, cos_add_quadrant]

/-- C19: over exact arithmetic, with `n = round(x / 2048 * INV_HALF_PI)` and `n2` the
second rounded quotient the code computes, the reduced angle `x_fix_25` that the first part
of `HighPrecStrategy::ComputeImpl` leaves is
`x - (2048 * n + n2) * (PI_V4_3 + PI_12 + PI_22 + PI_32 + PI_42 + PI_52 + PI_62)`, whatever
the split of `n` into `n0` and `n1`; and `2048 * n + n2` is congruent to `n2` modulo 4. -/
theorem highPrec_reduction_closed_form (cast : RoundMode → ℚ → ℚ) (b : Bufs) (n i : Nat)
    (N N2 : ℤ) (hi : i < n)
    (hN : cast RoundMode.CAST_RINT (b.xLocal i * (1 / 2048) * INV_HALF_PI) = N)
    (hN2 : (HighPrecStrategy.reduction cast b n).tmpTensor1 i = N2) :
    (HighPrecStrategy.reduction cast b n).xLocal i
      = b.xLocal i - ((2048 * N + N2 : ℤ) : ℚ)
          * (PI_V4_3 + PI_12 + PI_22 + PI_32 + PI_42 + PI_52 + PI_62) ∧
    (2048 * N + N2) % 4 = N2 % 4 := by
  constructor
  · rw [highPrec_reduction_at cast b n i hi, hN, hN2]
    unfold highPrecPiSplit
    push_cast
    ring
  · omega

/-- C13: for each of `RefStrategy`, `HighPerfStrategy` and `HighPrecStrategy`, the first
`processDataNum` elements `ComputeImpl` leaves in `yLocal` depend only on the first
`processDataNum` elements of `xLocal`: two runs that agree on them give the same result,
whatever `yLocal` and the scratch buffers held before. -/
theorem strategies_stateless (cast : RoundMode → ℚ → ℚ) (n i : Nat) (hi : i < n)
    (xLocal xLocal2 yLocal yLocal2 : LocalTensor ℚ)
    (hx : ∀ j, j < n → xLocal j = xLocal2 j)
    (ref ref2 : RefStrategy) (perf perf2 : HighPerfStrategy)
    (prec prec2 : HighPrecStrategy) :
    (RefStrategy.ComputeImpl cast ref xLocal yLocal n).2.2 i
        = (RefStrategy.ComputeImpl cast ref2 xLocal2 yLocal2 n).2.2 i ∧
    (HighPerfStrategy.ComputeImpl cast perf xLocal yLocal n).2.2 i
        = (HighPerfStrategy.ComputeImpl cast perf2 xLocal2 yLocal2 n).2.2 i ∧
    (HighPrecStrategy.ComputeImpl cast prec xLocal yLocal n).2.2 i
        = (HighPrecStrategy.ComputeImpl cast prec2 xLocal2 yLocal2 n).2.2 i := by
  have hxi := hx i hi
  refine ⟨?_, ?_, ?_⟩
  · simp only [RefStrategy.ComputeImpl, Muls, Sub, Mul, Add, Cast, Duplicate, if_pos hi, hxi]
  · simp only [HighPerfStrategy.ComputeImpl, Muls, Adds, Sub, Mul, Add, Cast, Mins, Maxs,
      if_pos hi, hxi]
  · simp only [HighPrecStrategy.ComputeImpl]
    obtain ⟨h1, h2⟩ := highPrec_reduction_local cast
      { xLocal := xLocal, yLocal := yLocal, tmpTensor1 := prec.tmpBuf1,
        tmpTensor2 := prec.tmpBuf2, tmpTensor3 := prec.tmpBuf3, tmpTensor4 := prec.tmpBuf4 }
      { xLocal := xLocal2, yLocal := yLocal2, tmpTensor1 := prec2.tmpBuf1,
        tmpTensor2 := prec2.tmpBuf2, tmpTensor3 := prec2.tmpBuf3,
        tmpTensor4 := prec2.tmpBuf4 } n i hi hxi
    rw [highPrec_selection_at _ _ n i hi, highPrec_selection_at _ _ n i hi]
    obtain ⟨p1, p2, p3⟩ := highPrec_polynomials_at (HighPrecStrategy.reduction cast
      { xLocal := xLocal, yLocal := yLocal, tmpTensor1 := prec.tmpBuf1,
        tmpTensor2 := prec.tmpBuf2, tmpTensor3 := prec.tmpBuf3, tmpTensor4 := prec.tmpBuf4 }
      n) n i hi
    obtain ⟨q1, q2, q3⟩ := highPrec_polynomials_at (HighPrecStrategy.reduction cast
      { xLocal := xLocal2, yLocal := yLocal2, tmpTensor1 := prec2.tmpBuf1,
        tmpTensor2 := prec2.tmpBuf2, tmpTensor3 := prec2.tmpBuf3,
        tmpTensor4 := prec2.tmpBuf4 } n) n i hi
    rw [p1, p2, p3, q1, q2, q3, h1, h2]

theorem exactCast_floor (q : ℚ) : exactCast RoundMode.CAST_FLOOR q = ⌊q⌋ := rfl

theorem highPerfK_exactCast_three : highPerfK exactCast 3 = ((1 : ℤ) : ℚ) := by
  unfold highPerfK exactCast
  simp only []
  rw [if_pos (by norm_num [PI_FOR_X_TODIV]), Int.cast_inj, Int.floor_eq_iff]
  norm_num [PI_FOR_X_TODIV]

theorem highPrec_N_floorCast_three :
    floorCast RoundMode.CAST_RINT ((constBufs 3).xLocal 0 * (1 / 2048) * INV_HALF_PI)
      = ((0 : ℤ) : ℚ) := by
  unfold floorCast constBufs
  simp only []
  rw [Int.cast_inj, Int.floor_eq_iff]
  norm_num [INV_HALF_PI]

theorem highPrec_N2_floorCast_three :
    (HighPrecStrategy.reduction floorCast (constBufs 3) 1).tmpTensor1 0 = ((1 : ℤ) : ℚ) := by
  have e1 : ⌊(3 : ℚ) * (1 / 2048) * INV_HALF_PI⌋ = 0 := by
    rw [Int.floor_eq_iff]; norm_num [INV_HALF_PI]
  have e2 : ⌊(3 : ℚ) * (1 / 2048) * INV_HALF_PI * (1 / 2048)⌋ = 0 := by
    rw [Int.floor_eq_iff]; norm_num [INV_HALF_PI]
  simp only [HighPrecStrategy.reduction, floorCast, constBufs, Muls, Sub, Cast,
    show (0 : ℕ) < 1 by decide, if_true, e1, e2]
  rw [Int.cast_inj, Int.floor_eq_iff]
  norm_num [INV_HALF_PI]

theorem floorCast_floor (q : ℚ) : floorCast RoundMode.CAST_FLOOR q = ⌊q⌋ := rfl

/-- Witness for `strategies_stateless`: the angle 3 with two different sets of stale
buffers. -/
theorem strategies_stateless_witness :
    (0 < 1) ∧
    ((RefStrategy.ComputeImpl exactCast ⟨fun _ => 7, fun _ => 7⟩ (fun _ => 3) (fun _ => 9)
          1).2.2 0
        = (RefStrategy.ComputeImpl exactCast ⟨fun _ => 5, fun _ => 6⟩ (fun _ => 3)
          (fun _ => 8) 1).2.2 0 ∧
    (HighPerfStrategy.ComputeImpl exactCast staleBuffers (fun _ => 3) (fun _ => 9) 1).2.2 0
        = (HighPerfStrategy.ComputeImpl exactCast ⟨fun _ => 1, fun _ => 2, fun _ => 3,
            fun _ => 4⟩ (fun _ => 3) (fun _ => 8) 1).2.2 0 ∧
    (HighPrecStrategy.ComputeImpl exactCast ⟨fun _ => 7, fun _ => 7, fun _ => 7, fun _ => 7⟩
          (fun _ => 3) (fun _ => 9) 1).2.2 0
        = (HighPrecStrategy.ComputeImpl exactCast ⟨fun _ => 1, fun _ => 2, fun _ => 3,
            fun _ => 4⟩ (fun _ => 3) (fun _ => 8) 1).2.2 0) :=
  ⟨by decide,
    strategies_stateless exactCast 1 0 (by decide) (fun _ => 3) (fun _ => 3) (fun _ => 9)
      (fun _ => 8) (fun _ _ => rfl) ⟨fun _ => 7, fun _ => 7⟩ ⟨fun _ => 5, fun _ => 6⟩
      staleBuffers ⟨fun _ => 1, fun _ => 2, fun _ => 3, fun _ => 4⟩
      ⟨fun _ => 7, fun _ => 7, fun _ => 7, fun _ => 7⟩
      ⟨fun _ => 1, fun _ => 2, fun _ => 3, fun _ => 4⟩⟩

/-- Witness for `highPrec_quadrant_selection`: the quadrant index 2 with all tensors holding
the value 2. -/
theorem highPrec_quadrant_selection_witness :
    (∀ q, floorCast RoundMode.CAST_FLOOR q = ⌊q⌋) ∧ (0 < 1) ∧
    ((constBufs ((2 : ℤ) : ℚ)).tmpTensor1 0 = ((2 : ℤ) : ℚ)) ∧
    (HighPrecStrategy.selection floorCast (constBufs ((2 : ℤ) : ℚ)) 1).yLocal 0
      = quadrantValue 2 ((constBufs ((2 : ℤ) : ℚ)).yLocal 0)
          ((constBufs ((2 : ℤ) : ℚ)).tmpTensor2 0) :=
  ⟨floorCast_floor, by decide, rfl,
    (highPrec_quadrant_selection floorCast (constBufs ((2 : ℤ) : ℚ)) 1 0 2 floorCast_floor
      (by decide) rfl).2.1⟩

/-- Witness for `highPerf_sign_factor`: the rounded multiple 3. -/
theorem highPerf_sign_factor_witness :
    (∀ q, floorCast RoundMode.CAST_FLOOR q = ⌊q⌋) ∧ (0 < 1) ∧
    ((constBufs ((3 : ℤ) : ℚ)).tmpTensor1 0 = ((3 : ℤ) : ℚ)) ∧
    ((3 : ℤ) % 2 = 1 →
      (HighPerfStrategy.signFactor floorCast (constBufs ((3 : ℤ) : ℚ)) 1).tmpTensor1 0 = -1) :=
  ⟨floorCast_floor, by decide, rfl,
    (highPerf_sign_factor floorCast (constBufs ((3 : ℤ) : ℚ)) 1 0 3 floorCast_floor
      (by decide) rfl).2.2.1⟩

/-- Witness for `ref_taylor_form`: one element, the angle 3. -/
theorem ref_taylor_form_witness :
    (0 < 1) ∧
    (RefStrategy.ComputeImpl exactCast ⟨fun _ => 7, fun _ => 7⟩ (fun _ => 3) (fun _ => 9)
        1).2.2 0
      = taylorCos14 ((fun _ => (3 : ℚ)) 0
          - exactCast RoundMode.CAST_NONE
              (exactCast RoundMode.CAST_RINT ((fun _ => (3 : ℚ)) 0 * (1 / TWO_PI)))
            * TWO_PI) :=
  ⟨by decide,
    ref_taylor_form exactCast ⟨fun _ => 7, fun _ => 7⟩ (fun _ => 3) (fun _ => 9) 1 0
      (by decide)⟩

/-- Witness for `highPerf_closed_form`: one element, the angle 3, for which the rounded
multiple is 1. -/
theorem highPerf_closed_form_witness :
    (∀ q, exactCast RoundMode.CAST_FLOOR q = ⌊q⌋) ∧ (0 < 1) ∧
    (highPerfK exactCast ((fun _ => (3 : ℚ)) 0) = ((1 : ℤ) : ℚ)) ∧
    (HighPerfStrategy.ComputeImpl exactCast staleBuffers (fun _ => 3) (fun _ => 9) 1).2.2 0
      = max (min (paritySign 1
          * highPerfPoly (highPerfAngle ((1 : ℤ) : ℚ) ((fun _ => (3 : ℚ)) 0))) 1) (-1) :=
  ⟨exactCast_floor, by decide, highPerfK_exactCast_three,
    (highPerf_closed_form exactCast staleBuffers (fun _ => 3) (fun _ => 9) 1 0 1
      exactCast_floor (by decide) highPerfK_exactCast_three).2⟩

/-- Witness for `highPrec_reduction_closed_form`: one element, the angle 3, for which the
rounded quotients are 0 and 1. -/
theorem highPrec_reduction_closed_form_witness :
    (0 < 1) ∧
    (floorCast RoundMode.CAST_RINT ((constBufs 3).xLocal 0 * (1 / 2048) * INV_HALF_PI)
      = ((0 : ℤ) : ℚ)) ∧
    ((HighPrecStrategy.reduction floorCast (constBufs 3) 1).tmpTensor1 0 = ((1 : ℤ) : ℚ)) ∧
    ((HighPrecStrategy.reduction floorCast (constBufs 3) 1).xLocal 0
      = (constBufs 3).xLocal 0 - ((2048 * 0 + 1 : ℤ) : ℚ)
          * (PI_V4_3 + PI_12 + PI_22 + PI_32 + PI_42 + PI_52 + PI_62) ∧
    (2048 * 0 + 1 : ℤ) % 4 = (1 : ℤ) % 4) :=
  ⟨by decide, highPrec_N_floorCast_three, highPrec_N2_floorCast_three,
    highPrec_reduction_closed_form floorCast (constBufs 3) 1 0 0 1 (by decide)
      highPrec_N_floorCast_three highPrec_N2_floorCast_three⟩

/-! ## Buffers, alignment and termination -/

theorem InitBuffers_bytes_ref (xType : DataType) (tile : Nat) :
    (KernelCos.InitBuffers xType RefStrategy.InitBufImpl tile ⟨[]⟩).bytes
      = 24 * tile := by
  unfold KernelCos.InitBuffers RefStrategy.InitBufImpl TPipe.InitBuffer TPipe.InitBufferTBuf
    TPipe.bytes sizeofT BUFFER_NUM
  by_cases h : xType = DataType.DT_FLOAT
  · simp [h]; omega
  · simp [h]; omega

theorem InitBuffers_bytes_four (xType : DataType) (tile : Nat) :
    (KernelCos.InitBuffers xType HighPerfStrategy.InitBufImpl tile ⟨[]⟩).bytes = 32 * tile ∧
    (KernelCos.InitBuffers xType HighPrecStrategy.InitBufImpl tile ⟨[]⟩).bytes = 32 * tile := by
  unfold KernelCos.InitBuffers HighPerfStrategy.InitBufImpl HighPrecStrategy.InitBufImpl
    TPipe.InitBuffer TPipe.InitBufferTBuf TPipe.bytes sizeofT BUFFER_NUM
  by_cases h : xType = DataType.DT_FLOAT
  · simp [h]; omega
  · simp [h]; omega


theorem tilingOf_tileDataNum_le (ubSize coreNum : Nat) (socVersion : SocVersion)
    (xType : DataType) (n sqrtTerm : Nat) :
    (tilingOf ubSize coreNum socVersion xType n sqrtTerm).tileDataNum
      ≤ ubSize / 32 / ubTileNum socVersion xType * blockElemNum xType := by
  simp only [tilingOf, BLOCK_SIZE]
  exact le_trans (Nat.mod_le _ _) (Nat.mul_le_mul_right _ (Nat.mod_le _ _))

/-- C21: for every fast-memory size and element type, the bytes `KernelCos::Init` requests
from the pipe with the tile size written by `TilingFunc` are at most `ubSize`, for
`RefStrategy` on `ASCEND310P` and for `HighPerfStrategy` and `HighPrecStrategy` on every
other platform. -/
theorem budget_fit (ubSize coreNum : Nat) (socVersion : SocVersion)
    (xType : DataType) (n sqrtTerm : Nat) (context result : TilingContext)
    (t : CosTilingData)
    (h : TilingFunc ubSize coreNum socVersion xType n sqrtTerm context
      = (graphStatus.GRAPH_SUCCESS, result))
    (ht : result.rawTilingData = some t) :
    (socVersion = SocVersion.ASCEND310P →
      (KernelCos.InitBuffers xType RefStrategy.InitBufImpl t.tileDataNum ⟨[]⟩).bytes
        ≤ ubSize) ∧
    (socVersion ≠ SocVersion.ASCEND310P →
      (KernelCos.InitBuffers xType HighPerfStrategy.InitBufImpl t.tileDataNum ⟨[]⟩).bytes
        ≤ ubSize ∧
      (KernelCos.InitBuffers xType HighPrecStrategy.InitBufImpl t.tileDataNum ⟨[]⟩).bytes
        ≤ ubSize) := by
  obtain ⟨_, hr⟩ := TilingFunc_success _ _ _ _ _ _ _ _ h
  rw [hr] at ht
  simp only [Option.some.injEq] at ht
  subst ht
  have hle := tilingOf_tileDataNum_le ubSize coreNum socVersion xType n sqrtTerm
  rw [InitBuffers_bytes_ref, (InitBuffers_bytes_four _ _).1, (InitBuffers_bytes_four _ _).2]
  generalize (tilingOf ubSize coreNum socVersion xType n sqrtTerm).tileDataNum = tile at hle
  unfold ubTileNum blockElemNum BLOCK_SIZE xTypeLength at hle
  constructor
  · intro hs
    rw [if_pos hs] at hle
    by_cases hx : xType = DataType.DT_FLOAT
    · simp only [hx, if_true] at hle
      omega
    · simp only [hx, if_false] at hle
      omega
  · intro hs
    rw [if_neg hs] at hle
    by_cases hx : xType = DataType.DT_FLOAT
    · simp only [hx, if_true] at hle
      omega
    · simp only [hx, if_false] at hle
      omega

/-- Witness for `budget_fit`: 100 single-precision elements, 192 KiB of fast memory. -/
theorem budget_fit_witness :
    (TilingFunc 196608 8 SocVersion.ASCEND910B DataType.DT_FLOAT 100 2 emptyContext
      = (graphStatus.GRAPH_SUCCESS, writtenContext 2 ⟨56, 48, 6144, 1⟩)) ∧
    (SocVersion.ASCEND910B ≠ SocVersion.ASCEND310P →
      (KernelCos.InitBuffers DataType.DT_FLOAT HighPerfStrategy.InitBufImpl
          (CosTilingData.mk 56 48 6144 1).tileDataNum ⟨[]⟩).bytes ≤ 196608 ∧
      (KernelCos.InitBuffers DataType.DT_FLOAT HighPrecStrategy.InitBufImpl
          (CosTilingData.mk 56 48 6144 1).tileDataNum ⟨[]⟩).bytes ≤ 196608) :=
  ⟨by decide,
    (budget_fit 196608 8 SocVersion.ASCEND910B DataType.DT_FLOAT 100 2 emptyContext
      (writtenContext 2 ⟨56, 48, 6144, 1⟩) ⟨56, 48, 6144, 1⟩ (by decide) rfl).2⟩

theorem tilingOf_big_ne_small (ubSize coreNum : Nat) (socVersion : SocVersion)
    (xType : DataType) (n sqrtTerm : Nat) :
    (tilingOf ubSize coreNum socVersion xType n sqrtTerm).bigCoreDataNum
      ≠ (tilingOf ubSize coreNum socVersion xType n sqrtTerm).smallCoreDataNum := by
  simp only [tilingOf]
  have hlt : inputBlockNum xType n / chosenCoreNum coreNum sqrtTerm * blockElemNum xType
      % 4294967296 < 4294967296 := Nat.mod_lt _ (by norm_num)
  rcases blockElemNum_cases xType with hbe | hbe <;> rw [hbe] at hlt ⊢ <;> omega

/-- C22: the `bigCoreNum` written by `TilingFunc` is strictly less than the unit count
passed to `SetBlockDim`, so unit `bigCoreNum` is launched, and the launched units for which
`KernelCos::Init` selects `bigCoreDataNum` (the test `u <= bigCoreNum`) are exactly
`bigCoreNum + 1` in number. -/
theorem big_unit_count (ubSize coreNum : Nat) (socVersion : SocVersion)
    (xType : DataType) (n sqrtTerm : Nat) (context result : TilingContext)
    (t : CosTilingData) (unitCount : Nat)
    (h : TilingFunc ubSize coreNum socVersion xType n sqrtTerm context
      = (graphStatus.GRAPH_SUCCESS, result))
    (ht : result.rawTilingData = some t) (hc : result.blockDim = some unitCount) :
    t.bigCoreNum < unitCount ∧
    (∀ u, (unitSlice t u).coreDataNum = t.bigCoreDataNum ↔ u ≤ t.bigCoreNum) ∧
    ((Finset.range unitCount).filter
        (fun u => (unitSlice t u).coreDataNum = t.bigCoreDataNum)).card
      = t.bigCoreNum + 1 := by
  obtain ⟨hb, hr⟩ := TilingFunc_success _ _ _ _ _ _ _ _ h
  rw [hb] at hc
  rw [hr] at ht
  simp only [Option.some.injEq] at hc ht
  subst hc
  subst ht
  have hne := tilingOf_big_ne_small ubSize coreNum socVersion xType n sqrtTerm
  have hlt : (tilingOf ubSize coreNum socVersion xType n sqrtTerm).bigCoreNum
      < chosenCoreNum coreNum sqrtTerm := by
    simp only [tilingOf]
    exact Nat.mod_lt _ (chosenCoreNum_pos coreNum sqrtTerm)
  have hiff : ∀ u, (unitSlice (tilingOf ubSize coreNum socVersion xType n sqrtTerm)
      u).coreDataNum = (tilingOf ubSize coreNum socVersion xType n sqrtTerm).bigCoreDataNum
      ↔ u ≤ (tilingOf ubSize coreNum socVersion xType n sqrtTerm).bigCoreNum := by
    intro u
    unfold unitSlice
    rw [Init_coreDataNum]
    by_cases hu : u ≤ (tilingOf ubSize coreNum socVersion xType n sqrtTerm).bigCoreNum
    · simp [hu]
    · simp only [if_neg hu, hu, iff_false]
      exact fun he => hne he.symm
  refine ⟨hlt, hiff, ?_⟩
  have hset : (Finset.range (chosenCoreNum coreNum sqrtTerm)).filter
      (fun u => (unitSlice (tilingOf ubSize coreNum socVersion xType n sqrtTerm)
        u).coreDataNum = (tilingOf ubSize coreNum socVersion xType n sqrtTerm).bigCoreDataNum)
      = Finset.range ((tilingOf ubSize coreNum socVersion xType n sqrtTerm).bigCoreNum + 1) := by
    ext u
    simp only [Finset.mem_filter, Finset.mem_range, hiff]
    omega
  rw [hset, Finset.card_range]

/-- Witness for `big_unit_count`: 100 single-precision elements on 8 cores (2 units,
`bigCoreNum = 1`). -/
theorem big_unit_count_witness :
    (TilingFunc 196608 8 SocVersion.ASCEND910B DataType.DT_FLOAT 100 2 emptyContext
      = (graphStatus.GRAPH_SUCCESS, writtenContext 2 ⟨56, 48, 6144, 1⟩)) ∧
    ((CosTilingData.mk 56 48 6144 1).bigCoreNum < 2 ∧
    (∀ u, (unitSlice ⟨56, 48, 6144, 1⟩ u).coreDataNum
        = (CosTilingData.mk 56 48 6144 1).bigCoreDataNum
      ↔ u ≤ (CosTilingData.mk 56 48 6144 1).bigCoreNum) ∧
    ((Finset.range 2).filter
        (fun u => (unitSlice ⟨56, 48, 6144, 1⟩ u).coreDataNum
          = (CosTilingData.mk 56 48 6144 1).bigCoreDataNum)).card
      = (CosTilingData.mk 56 48 6144 1).bigCoreNum + 1) :=
  ⟨by decide,
    big_unit_count 196608 8 SocVersion.ASCEND910B DataType.DT_FLOAT 100 2 emptyContext
      (writtenContext 2 ⟨56, 48, 6144, 1⟩) ⟨56, 48, 6144, 1⟩ 2 (by decide) rfl rfl⟩

theorem blockElemNum_dvd_wrap (xType : DataType) : blockElemNum xType ∣ 4294967296 := by
  rcases blockElemNum_cases xType with h | h <;> rw [h] <;> decide

theorem blockElemNum_dvd_mul_mod (xType : DataType) (m : Nat) :
    blockElemNum xType ∣ m * blockElemNum xType % 4294967296 :=
  (Nat.dvd_mod_iff (blockElemNum_dvd_wrap xType)).mpr (Nat.dvd_mul_left _ _)

theorem tilingOf_dvd (ubSize coreNum : Nat) (socVersion : SocVersion)
    (xType : DataType) (n sqrtTerm : Nat) :
    blockElemNum xType ∣ (tilingOf ubSize coreNum socVersion xType n sqrtTerm).smallCoreDataNum ∧
    blockElemNum xType ∣ (tilingOf ubSize coreNum socVersion xType n sqrtTerm).bigCoreDataNum ∧
    blockElemNum xType ∣ (tilingOf ubSize coreNum socVersion xType n sqrtTerm).tileDataNum := by
  simp only [tilingOf]
  refine ⟨blockElemNum_dvd_mul_mod _ _, ?_, blockElemNum_dvd_mul_mod _ _⟩
  exact (Nat.dvd_mod_iff (blockElemNum_dvd_wrap xType)).mpr
    (Nat.dvd_add (blockElemNum_dvd_mul_mod _ _) (dvd_refl _))

theorem tilingOf_tileDataNum_eq (ubSize coreNum : Nat) (socVersion : SocVersion)
    (xType : DataType) (n sqrtTerm : Nat)
    (hnowrap : ubSize / 32 / ubTileNum socVersion xType * blockElemNum xType < 4294967296) :
    (tilingOf ubSize coreNum socVersion xType n sqrtTerm).tileDataNum
      = ubSize / 32 / ubTileNum socVersion xType * blockElemNum xType := by
  have hpos : 0 < blockElemNum xType := by
    rcases blockElemNum_cases xType with hh | hh <;> omega
  have hlt : ubSize / 32 / ubTileNum socVersion xType < 4294967296 :=
    lt_of_le_of_lt (Nat.le_mul_of_pos_right _ hpos) hnowrap
  simp only [tilingOf, BLOCK_SIZE, Nat.mod_eq_of_lt hlt, Nat.mod_eq_of_lt hnowrap]

theorem ubTileNum_pos (socVersion : SocVersion) (xType : DataType) :
    0 < ubTileNum socVersion xType := by
  unfold ubTileNum
  split <;> split <;> omega

theorem tileBlocks_pos_iff (ubSize : Nat) (socVersion : SocVersion) (xType : DataType) :
    1 ≤ ubSize / 32 / ubTileNum socVersion xType ↔ 32 * ubTileNum socVersion xType ≤ ubSize := by
  rw [Nat.le_div_iff_mul_le (ubTileNum_pos socVersion xType),
    Nat.le_div_iff_mul_le (by norm_num)]
  omega

theorem tilingOf_tileDataNum_ne_zero_iff (ubSize coreNum : Nat) (socVersion : SocVersion)
    (xType : DataType) (n sqrtTerm : Nat)
    (hnowrap : ubSize / 32 / ubTileNum socVersion xType * blockElemNum xType < 4294967296) :
    ((tilingOf ubSize coreNum socVersion xType n sqrtTerm).tileDataNum ≠ 0
        ↔ 32 * ubTileNum socVersion xType ≤ ubSize) ∧
    (32 * ubTileNum socVersion xType ≤ ubSize →
      blockElemNum xType ≤ (tilingOf ubSize coreNum socVersion xType n sqrtTerm).tileDataNum) := by
  rw [tilingOf_tileDataNum_eq _ _ _ _ _ _ hnowrap, ← tileBlocks_pos_iff]
  have hpos : 0 < blockElemNum xType := by
    rcases blockElemNum_cases xType with hh | hh <;> omega
  generalize ubSize / 32 / ubTileNum socVersion xType = a
  constructor
  · rw [Nat.mul_ne_zero_iff]
    omega
  · intro h1
    exact Nat.le_mul_of_pos_left _ h1

theorem Process_loop_total {σ : Type} (body : Nat → Nat → σ → Option σ)
    (core tile fuel : Nat) (s : σ)
    (htile : 1 ≤ tile) (hc32 : core < 4294967296) (ht32 : tile < 4294967296)
    (hfuel : core ≤ fuel) (hbody : ∀ i p s0, ∃ s1, body i p s0 = some s1) :
    ∃ s1, KernelCos.Process.loop body core tile fuel 0 s = some s1 := by
  obtain ⟨s1, hs1, _⟩ := Process_loop_spec body core tile (fun _ _ => True) htile hc32 ht32
    (fun i s0 _ _ => by
      obtain ⟨s2, hs2⟩ := hbody i (min tile (core - i)) s0
      exact ⟨s2, hs2, trivial⟩)
    fuel 0 s (by omega)
    (by
      have h1 : fuel ≤ fuel * tile := Nat.le_mul_of_pos_right _ (by omega)
      omega)
    trivial
  exact ⟨s1, hs1⟩

theorem Process_loop_tile_zero {σ : Type} (body : Nat → Nat → σ → Option σ)
    (core : Nat) (hcore : 0 < core) :
    ∀ (fuel : Nat) (s : σ), KernelCos.Process.loop body core 0 fuel 0 s = none := by
  intro fuel
  induction fuel with
  | zero =>
    intro s
    simp only [KernelCos.Process.loop, if_pos hcore]
  | succ fuel ih =>
    intro s
    simp only [KernelCos.Process.loop, if_pos hcore]
    cases body 0 (KernelCos.min 0 (core - 0) % 4294967296) s with
    | none => rfl
    | some s1 => exact ih s1

theorem tilingOf_lt_wrap (ubSize coreNum : Nat) (socVersion : SocVersion)
    (xType : DataType) (n sqrtTerm : Nat) :
    (tilingOf ubSize coreNum socVersion xType n sqrtTerm).smallCoreDataNum < 4294967296 ∧
    (tilingOf ubSize coreNum socVersion xType n sqrtTerm).bigCoreDataNum < 4294967296 ∧
    (tilingOf ubSize coreNum socVersion xType n sqrtTerm).tileDataNum < 4294967296 := by
  simp only [tilingOf]
  exact ⟨Nat.mod_lt _ (by norm_num), Nat.mod_lt _ (by norm_num), Nat.mod_lt _ (by norm_num)⟩

theorem unitSlice_coreDataNum_cases (t : CosTilingData) (u : Nat) :
    (unitSlice t u).coreDataNum = t.smallCoreDataNum ∨
    (unitSlice t u).coreDataNum = t.bigCoreDataNum := by
  unfold unitSlice
  rw [Init_coreDataNum]
  split
  · exact Or.inr rfl
  · exact Or.inl rfl

theorem unitSlice_tileDataNum (t : CosTilingData) (u : Nat) :
    (unitSlice t u).tileDataNum = t.tileDataNum := by
  unfold unitSlice
  rw [Init_tileDataNum]

/-- C24 (counterexample): one single-precision element on one core with `2^37` bytes of
fast memory. The budget is above `32 * k = 256`, yet the 32-bit product
`tileBlockNum * blockElemNum = 2^29 * 8` wraps to `tileDataNum = 0`, below `blockElemNum`,
and the loop of `KernelCos::Process` over the 16 elements of unit 0 never returns. -/
theorem pipeline_termination_counterexample :
    TilingFunc 137438953472 1 SocVersion.ASCEND910B DataType.DT_FLOAT 1 0 emptyContext
      = (graphStatus.GRAPH_SUCCESS, writtenContext 1 ⟨16, 8, 0, 0⟩) ∧
    32 * ubTileNum SocVersion.ASCEND910B DataType.DT_FLOAT ≤ 137438953472 ∧
    ¬ (blockElemNum DataType.DT_FLOAT ≤ (CosTilingData.mk 16 8 0 0).tileDataNum) ∧
    unitSlice ⟨16, 8, 0, 0⟩ 0 = ⟨0, 16, 0⟩ ∧
    ∀ fuel, KernelCos.Process.calls fuel (unitSlice ⟨16, 8, 0, 0⟩ 0).coreDataNum
      (unitSlice ⟨16, 8, 0, 0⟩ 0).tileDataNum = none := by
  refine ⟨by decide, by decide, by decide, by decide, ?_⟩
  intro fuel
  exact Process_loop_tile_zero KernelCos.Process.record 16 (by decide) fuel []

/-- C24 (as amended): when the 32-bit tile size does not wrap
(`floor(floor(ubSize / 32) / k) * blockElems < 2^32`), `tileDataNum` is non-zero exactly
when `ubSize >= 32 * k`; in that case `tileDataNum >= blockElems >= 1` and, for every unit,
the loop of `KernelCos::Process` returns for every loop body that returns, given fuel for
one iteration per element. -/
theorem pipeline_termination (ubSize coreNum : Nat) (socVersion : SocVersion)
    (xType : DataType) (n sqrtTerm : Nat) (context result : TilingContext)
    (t : CosTilingData)
    (h : TilingFunc ubSize coreNum socVersion xType n sqrtTerm context
      = (graphStatus.GRAPH_SUCCESS, result))
    (ht : result.rawTilingData = some t)
    (hnowrap : ubSize / 32 / ubTileNum socVersion xType * blockElemNum xType < 4294967296) :
    (t.tileDataNum ≠ 0 ↔ 32 * ubTileNum socVersion xType ≤ ubSize) ∧
    (32 * ubTileNum socVersion xType ≤ ubSize →
      1 ≤ blockElemNum xType ∧ blockElemNum xType ≤ t.tileDataNum ∧
      ∀ (u fuel : Nat), (unitSlice t u).coreDataNum ≤ fuel →
        ∀ (σ : Type) (body : Nat → Nat → σ → Option σ) (s : σ),
          (∀ i p s0, ∃ s1, body i p s0 = some s1) →
          ∃ s1, KernelCos.Process.loop body (unitSlice t u).coreDataNum
            (unitSlice t u).tileDataNum fuel 0 s = some s1) := by
  obtain ⟨_, hr⟩ := TilingFunc_success _ _ _ _ _ _ _ _ h
  rw [hr] at ht
  simp only [Option.some.injEq] at ht
  subst ht
  obtain ⟨hiff, hge⟩ := tilingOf_tileDataNum_ne_zero_iff ubSize coreNum socVersion xType n
    sqrtTerm hnowrap
  have hpos : 1 ≤ blockElemNum xType := by
    rcases blockElemNum_cases xType with hh | hh <;> omega
  refine ⟨hiff, fun hub => ⟨hpos, hge hub, ?_⟩⟩
  intro u fuel hfuel σ body s hbody
  obtain ⟨hs32, hb32, ht32⟩ := tilingOf_lt_wrap ubSize coreNum socVersion xType n sqrtTerm
  have htile := hge hub
  rw [unitSlice_tileDataNum]
  refine Process_loop_total body _ _ fuel s (by omega) ?_ ht32 hfuel hbody
  rcases unitSlice_coreDataNum_cases
    (tilingOf ubSize coreNum socVersion xType n sqrtTerm) u with hc | hc <;> rw [hc] <;>
    assumption

/-- Witness for `pipeline_termination`: 100 single-precision elements, 192 KiB of fast
memory. -/
theorem pipeline_termination_witness :
    (TilingFunc 196608 8 SocVersion.ASCEND910B DataType.DT_FLOAT 100 2 emptyContext
      = (graphStatus.GRAPH_SUCCESS, writtenContext 2 ⟨56, 48, 6144, 1⟩)) ∧
    (196608 / 32 / ubTileNum SocVersion.ASCEND910B DataType.DT_FLOAT
      * blockElemNum DataType.DT_FLOAT < 4294967296) ∧
    ((CosTilingData.mk 56 48 6144 1).tileDataNum ≠ 0
      ↔ 32 * ubTileNum SocVersion.ASCEND910B DataType.DT_FLOAT ≤ 196608) :=
  ⟨by decide, by decide,
    (pipeline_termination 196608 8 SocVersion.ASCEND910B DataType.DT_FLOAT 100 2 emptyContext
      (writtenContext 2 ⟨56, 48, 6144, 1⟩) ⟨56, 48, 6144, 1⟩ (by decide) rfl (by decide)).1⟩

/-- C23 (counterexample): one single-precision element on one core with `2^37` bytes of
fast memory (`n >= 1`, budget above `32 * k = 256`). The tile size wraps to 0, unit 0 has
16 elements, and the first iteration of the loop of `KernelCos::Process` calls its body
with offset 0 and count 0, which is not positive. -/
theorem block_aligned_counterexample :
    TilingFunc 137438953472 1 SocVersion.ASCEND910B DataType.DT_FLOAT 1 0 emptyContext
      = (graphStatus.GRAPH_SUCCESS, writtenContext 1 ⟨16, 8, 0, 0⟩) ∧
    32 * ubTileNum SocVersion.ASCEND910B DataType.DT_FLOAT ≤ 137438953472 ∧
    unitSlice ⟨16, 8, 0, 0⟩ 0 = ⟨0, 16, 0⟩ ∧
    ∀ (body : Nat → Nat → List TileCalls → Option (List TileCalls)) (fuel : Nat)
      (s : List TileCalls),
      KernelCos.Process.loop body (unitSlice ⟨16, 8, 0, 0⟩ 0).coreDataNum
          (unitSlice ⟨16, 8, 0, 0⟩ 0).tileDataNum (fuel + 1) 0 s
        = (body 0 0 s).bind
            (KernelCos.Process.loop body (unitSlice ⟨16, 8, 0, 0⟩ 0).coreDataNum
              (unitSlice ⟨16, 8, 0, 0⟩ 0).tileDataNum fuel 0) := by
  refine ⟨by decide, by decide, by decide, ?_⟩
  intro body fuel s
  have hs : unitSlice ⟨16, 8, 0, 0⟩ 0 = ⟨0, 16, 0⟩ := by decide
  rw [hs]
  simp only [KernelCos.Process.loop, show (0 : Nat) < 16 by decide, if_true,
    show KernelCos.min 0 (16 - 0) % 4294967296 = 0 by decide,
    show (0 + 0) % 18446744073709551616 = 0 by decide]
  cases body 0 0 s <;> rfl

/-- C23 (as amended): when `ubSize >= 32 * k` and the 32-bit tile size does not wrap, for
every unit the loop of `KernelCos::Process` returns, and every call it makes has a count
that is a positive multiple of `blockElems`, at most `tileDataNum`, and an offset that is a
multiple of `blockElems`; `CopyIn` and `CopyOut` receive the offset and the count of
`Compute`. -/
theorem block_aligned_transfers (ubSize coreNum : Nat) (socVersion : SocVersion)
    (xType : DataType) (n sqrtTerm : Nat) (context result : TilingContext)
    (t : CosTilingData) (u fuel : Nat)
    (h : TilingFunc ubSize coreNum socVersion xType n sqrtTerm context
      = (graphStatus.GRAPH_SUCCESS, result))
    (ht : result.rawTilingData = some t)
    (hub : 32 * ubTileNum socVersion xType ≤ ubSize)
    (hnowrap : ubSize / 32 / ubTileNum socVersion xType * blockElemNum xType < 4294967296)
    (hfuel : (unitSlice t u).coreDataNum ≤ fuel) :
    ∃ tr, KernelCos.Process.calls fuel (unitSlice t u).coreDataNum
        (unitSlice t u).tileDataNum = some tr ∧
      ∀ c, c ∈ tr →
        c.copyIn = (c.copyIn.1, c.compute) ∧ c.copyOut = c.copyIn ∧
        blockElemNum xType ∣ c.compute ∧ 0 < c.compute ∧ c.compute ≤ t.tileDataNum ∧
        blockElemNum xType ∣ c.copyIn.1 := by
  obtain ⟨_, hr⟩ := TilingFunc_success _ _ _ _ _ _ _ _ h
  rw [hr] at ht
  simp only [Option.some.injEq] at ht
  subst ht
  obtain ⟨hs32, hb32, ht32⟩ := tilingOf_lt_wrap ubSize coreNum socVersion xType n sqrtTerm
  obtain ⟨hsd, hbd, htd⟩ := tilingOf_dvd ubSize coreNum socVersion xType n sqrtTerm
  have hpos : 1 ≤ blockElemNum xType := by
    rcases blockElemNum_cases xType with hh | hh <;> omega
  have htile : 1 ≤ (tilingOf ubSize coreNum socVersion xType n sqrtTerm).tileDataNum :=
    le_trans hpos ((tilingOf_tileDataNum_ne_zero_iff ubSize coreNum socVersion xType n
      sqrtTerm hnowrap).2 hub)
  have hcore : (unitSlice (tilingOf ubSize coreNum socVersion xType n sqrtTerm) u).coreDataNum
      < 4294967296 ∧ blockElemNum xType
      ∣ (unitSlice (tilingOf ubSize coreNum socVersion xType n sqrtTerm) u).coreDataNum := by
    rcases unitSlice_coreDataNum_cases
      (tilingOf ubSize coreNum socVersion xType n sqrtTerm) u with hc | hc <;> rw [hc]
    · exact ⟨hs32, hsd⟩
    · exact ⟨hb32, hbd⟩
  rw [unitSlice_tileDataNum] at *
  generalize (unitSlice (tilingOf ubSize coreNum socVersion xType n sqrtTerm) u).coreDataNum
    = core at hcore hfuel ⊢
  generalize (tilingOf ubSize coreNum socVersion xType n sqrtTerm).tileDataNum
    = tile at ht32 htd htile ⊢
  have hceil := ceil_le_self core tile htile
  refine ⟨_, Process_calls_eq core tile fuel htile hcore.1 ht32 (by omega), ?_⟩
  intro c hc
  rw [List.mem_map] at hc
  obtain ⟨j, hj, rfl⟩ := hc
  rw [List.mem_range, lt_ceil_iff core tile j htile] at hj
  have hoff : blockElemNum xType ∣ j * tile := Dvd.dvd.mul_left htd j
  have hrem : blockElemNum xType ∣ core - j * tile := Nat.dvd_sub' hcore.2 hoff
  simp only [tileCallsAt]
  refine ⟨trivial, trivial, ?_, by omega, by omega, hoff⟩
  rcases Nat.le_total tile (core - j * tile) with hle | hle
  · rw [Nat.min_eq_left hle]; exact htd
  · rw [Nat.min_eq_right hle]; exact hrem

/-- Witness for `block_aligned_transfers`: 100 single-precision elements on 8 cores with
1024 bytes of fast memory (tile size 32), unit 0 with 56 elements. -/
theorem block_aligned_transfers_witness :
    (TilingFunc 1024 8 SocVersion.ASCEND910B DataType.DT_FLOAT 100 2 emptyContext
      = (graphStatus.GRAPH_SUCCESS, writtenContext 2 ⟨56, 48, 32, 1⟩)) ∧
    (32 * ubTileNum SocVersion.ASCEND910B DataType.DT_FLOAT ≤ 1024) ∧
    (1024 / 32 / ubTileNum SocVersion.ASCEND910B DataType.DT_FLOAT
      * blockElemNum DataType.DT_FLOAT < 4294967296) ∧
    ((unitSlice ⟨56, 48, 32, 1⟩ 0).coreDataNum ≤ 56) ∧
    ∃ tr, KernelCos.Process.calls 56 (unitSlice ⟨56, 48, 32, 1⟩ 0).coreDataNum
        (unitSlice ⟨56, 48, 32, 1⟩ 0).tileDataNum = some tr ∧
      ∀ c, c ∈ tr →
        c.copyIn = (c.copyIn.1, c.compute) ∧ c.copyOut = c.copyIn ∧
        blockElemNum DataType.DT_FLOAT ∣ c.compute ∧ 0 < c.compute ∧
        c.compute ≤ (CosTilingData.mk 56 48 32 1).tileDataNum ∧
        blockElemNum DataType.DT_FLOAT ∣ c.copyIn.1 :=
  ⟨by decide, by decide, by decide, by decide,
    block_aligned_transfers 1024 8 SocVersion.ASCEND910B DataType.DT_FLOAT 100 2 emptyContext
      (writtenContext 2 ⟨56, 48, 32, 1⟩) ⟨56, 48, 32, 1⟩ 0 56 (by decide) rfl (by decide)
      (by decide) (by decide)⟩

end Cos
